import Mathlib

/-!
# JumpServer REST client: a shallow embedding

The development follows `internal/jumpserver` of the provider: the signer
(`SignRequest`), the transport (`DoRequest`, `getRaw`), the list decoders
(`ListPlatforms`, `ListNodes`, ...), the polymorphic accessors and the domain
operations built from them.

Conventions of the embedding.

* Go strings and byte slices holding text are Lean `String`s; an `error` is the
  text of its message (`fmt.Errorf` with `%w` concatenates).
* What lies outside the repository (the clock, HMAC-SHA256, `url.Parse`, the
  network) is the `Env` the client runs in; the client itself is explicit
  state passing over `St`, which records the clock readings, the exchanges
  issued so far and the console output.
* `encoding/json` is modelled on a syntax tree of the body: `JSON.parse` is the
  validity scan `json.Unmarshal` starts with, the `decode...` functions are its
  second phase, threading the destination so that a `null`, a repeated key or a
  mismatched member behave as in Go (a mismatch is remembered, decoding goes on
  and the first mismatch is reported at the end). A slice is the list of its
  elements: an array is decoded into the elements the slice holds, but the
  capacity is not kept, so that a key holding an array that comes three times
  in one object, a shorter array between two longer ones, is outside the model.
-/

namespace JumpServer

/-! ## Strings -/

/-- Go `strings.ToLower` on a text of ASCII characters: the letters `A` to `Z`
become `a` to `z`, every other character is kept. `net/http` accepts as request
methods tokens only, which are ASCII. On a text holding other characters Go maps
`unicode.ToLower` over the runes; of that the model lower-cases the ASCII
letters only, and no statement on the lower-cased method is made for such a
text. -/
def strings_ToLower (s : String) : String :=
  String.mk (s.data.map Char.toLower)

/-- Go `strings.Contains`. -/
def strings_Contains (s sub : String) : Prop :=
  sub.data <:+: s.data

/-- Go `strconv.Itoa` / the verb `%d`. -/
def fmt_d (n : Int) : String :=
  match n with
  | Int.ofNat k => Nat.repr k
  | Int.negSucc k => "-" ++ Nat.repr (k + 1)

/-! ## Base64 (`base64.StdEncoding`) -/

/-- The standard alphabet of RFC 4648. -/
def encodeStd : List Char :=
  "ABCDEFGHIJKLMNOPQRSTUVWXYZabcdefghijklmnopqrstuvwxyz0123456789+/".data

/-- The character of a 6-bit group. -/
def encodeStdChar (n : Nat) : Char :=
  encodeStd.getD (n % 64) 'A'

/-- The characters `base64.StdEncoding` writes for a byte sequence: four per
three bytes, the last group padded with `=`. -/
def base64Chars : List UInt8 → List Char
  | a :: b :: c :: rest =>
      let n := a.toNat * 65536 + b.toNat * 256 + c.toNat
      encodeStdChar (n / 262144) :: encodeStdChar (n / 4096) :: encodeStdChar (n / 64)
        :: encodeStdChar n :: base64Chars rest
  | [a, b] =>
      let n := a.toNat * 65536 + b.toNat * 256
      [encodeStdChar (n / 262144), encodeStdChar (n / 4096), encodeStdChar (n / 64), '=']
  | [a] =>
      let n := a.toNat * 65536
      [encodeStdChar (n / 262144), encodeStdChar (n / 4096), '=', '=']
  | [] => []

/-- Go `base64.StdEncoding.EncodeToString`. -/
def base64_StdEncoding_EncodeToString (src : List UInt8) : String :=
  String.mk (base64Chars src)

/-! ## HTTP headers, requests and responses -/

/-- The bytes `textproto` accepts in a header name (`validHeaderFieldByte`). -/
def validHeaderFieldByte (c : Char) : Bool :=
  c.isAlphanum || "!#$%&*+-.^_|~".data.contains c || c.toNat == 39 || c.toNat == 96

/-- The loop of `textproto.canonicalMIMEHeaderKey`: upper case at the start
and after a hyphen, lower case elsewhere. -/
def canonicalLoop : Bool → List Char → List Char
  | _, [] => []
  | upper, c :: cs =>
      (if upper then c.toUpper else c.toLower) :: canonicalLoop (c == '-') cs

/-- Go `textproto.CanonicalMIMEHeaderKey`: a name holding a byte that is not a
valid header byte is returned unchanged. -/
def CanonicalMIMEHeaderKey (k : String) : String :=
  if k.data.all validHeaderFieldByte then String.mk (canonicalLoop true k.data) else k

/-- Go `http.Header`, a map from canonical names to value lists. -/
abbrev Header := List (String × List String)

/-- Assignment `h[key] = vs` of a Go map, kept as an association list with one
entry per key. -/
def Header.put (h : Header) (key : String) (vs : List String) : Header :=
  match h with
  | [] => [(key, vs)]
  | (k, v) :: rest => if k = key then (key, vs) :: rest else (k, v) :: Header.put rest key vs

/-- Go `Header.Set`: replaces the values held under the canonical name. -/
def Header.Set (h : Header) (key value : String) : Header :=
  Header.put h (CanonicalMIMEHeaderKey key) [value]

/-- Go `Header.Get`: the first value held under the canonical name, or `""`. -/
def Header.Get (h : Header) (key : String) : String :=
  match h.lookup (CanonicalMIMEHeaderKey key) with
  | some (v :: _) => v
  | _ => ""

/-- The fields of `url.URL` the client reads. -/
structure URL where
  Path : String
  RawQuery : String
deriving DecidableEq, Repr

/-- The fields of `http.Request` the client reads and writes. -/
structure Request where
  Method : String
  URL : URL
  Header : Header
  Body : Option String
deriving DecidableEq, Repr

/-- The fields of `http.Response` the client reads. `Body` is what
`io.ReadAll(resp.Body)` yields and `ReadErr` the error it yields with it. -/
structure Response where
  StatusCode : Int
  Status : String
  Header : Header
  Body : String
  ReadErr : Option String
deriving DecidableEq, Repr

/-! ## Configuration and client -/

/-- Config holds the JumpServer client configuration. `Timeout` is a
`time.Duration`, a count of nanoseconds. -/
structure Config where
  Endpoint : String
  KeyID : String
  KeySecret : String
  OrgID : String
  Timeout : Int
  InsecureSkipVerify : Bool
deriving DecidableEq, Repr

/-- The `http.Client` settings `NewClient` fixes. -/
structure HttpClient where
  Timeout : Int
  InsecureSkipVerify : Bool
deriving DecidableEq, Repr

/-- Client represents a JumpServer API client. -/
structure Client where
  config : Config
  httpClient : HttpClient
deriving DecidableEq, Repr

/-- Go `time.Second`. -/
def time_Second : Int := 1000000000

/-- NewClient creates a new JumpServer API client. -/
def NewClient (config : Config) : Client :=
  let config := if config.Timeout = 0 then { config with Timeout := 30 * time_Second } else config
  let config :=
    if config.OrgID = "" then { config with OrgID := "00000000-0000-0000-0000-000000000000" }
    else config
  { config := config
    httpClient := { Timeout := config.Timeout, InsecureSkipVerify := config.InsecureSkipVerify } }

/-! ## The environment -/

/-- What the client reaches outside the repository.

* `now k` is `time.Now().UTC().Format(http.TimeFormat)` at the `k`-th reading
  of the clock;
* `hmacSha256 key msg` is the digest `hmac.New(sha256.New, key)` yields after
  `msg` was written to it;
* `parseURL url` is `url.Parse`, which `http.NewRequest` applies to the URL
  it is given: the parsed URL (its `Path` is the decoded path, the query is kept
  apart in `RawQuery`) or an error;
* `roundTrip sent req` is `httpClient.Do(req)` issued after the exchanges
  `sent`: a transport failure or the response. -/
structure Env where
  now : Nat → String
  hmacSha256 : String → String → List UInt8
  parseURL : String → Except String URL
  roundTrip : List Request → Request → Except String Response

/-- One `fmt.Printf` of the client. The line that prints a decoded value with
`%+v` is recorded with the type name only: the rendering of the value is left
to `fmt` (it holds addresses). -/
inductive Output where
  | line (text : String)
  | result (typeName : String)
deriving DecidableEq, Repr

/-- The state a client operation threads: clock readings so far, the requests
handed to the transport (oldest first) and the console output (oldest
first). -/
structure St where
  ticks : Nat
  sent : List Request
  console : List Output
deriving DecidableEq, Repr

/-- The state before anything happened. -/
def St.init : St := { ticks := 0, sent := [], console := [] }

/-- Output of one `fmt.Printf` whose text is determined. -/
def St.print (st : St) (text : String) : St :=
  { st with console := st.console ++ [Output.line text] }

/-- Output of several `fmt.Printf`, in order. -/
def St.printAll (st : St) (texts : List String) : St :=
  { st with console := st.console ++ texts.map Output.line }

/-! ## The signer -/

/-- The text `SignRequest` signs (its local `stringToSign`): the request
target line built from the method and `req.URL.Path`, then the date line. -/
def stringToSign (req : Request) (date : String) : String :=
  let requestTarget := "(request-target): " ++ strings_ToLower req.Method ++ " " ++ req.URL.Path
  requestTarget ++ "\ndate: " ++ date

/-- The `fmt.Sprintf` of the Authorization value. -/
def authHeader (keyID signature : String) : String :=
  "Signature keyId=\"" ++ keyID
    ++ "\",algorithm=\"hmac-sha256\",headers=\"(request-target) date\",signature=\""
    ++ signature ++ "\""

/-- SignRequest signs an HTTP request with JumpServer HMAC authentication.
It reads the clock once and always returns a nil error. -/
def SignRequest (env : Env) (c : Client) (req : Request) (st : St) :
    (Option String × Request) × St :=
  let date := env.now st.ticks
  let st := { st with ticks := st.ticks + 1 }
  let req := { req with Header := req.Header.Set "Date" date }
  let signature :=
    base64_StdEncoding_EncodeToString (env.hmacSha256 c.config.KeySecret (stringToSign req date))
  let req := { req with Header := req.Header.Set "Authorization" (authHeader c.config.KeyID signature) }
  let req :=
    if c.config.OrgID ≠ "" then { req with Header := req.Header.Set "X-JMS-ORG" c.config.OrgID }
    else req
  ((none, req), st)

/-! ## JSON text -/

/-- A JSON text as `encoding/json` scans it: a number keeps its literal, an
object keeps its members in order, repeated keys included. -/
inductive JSON where
  | null
  | bool (b : Bool)
  | num (lit : String)
  | str (s : String)
  | arr (elems : List JSON)
  | obj (members : List (String × JSON))
deriving Repr, Inhabited

mutual

/-- Decides equality of two JSON texts. -/
def JSON.decEq : (x y : JSON) → Decidable (x = y)
  | JSON.null, JSON.null => isTrue rfl
  | JSON.null, JSON.bool b => isFalse (by intro h; cases h)
  | JSON.null, JSON.num b => isFalse (by intro h; cases h)
  | JSON.null, JSON.str b => isFalse (by intro h; cases h)
  | JSON.null, JSON.arr b => isFalse (by intro h; cases h)
  | JSON.null, JSON.obj b => isFalse (by intro h; cases h)
  | JSON.bool a, JSON.null => isFalse (by intro h; cases h)
  | JSON.bool a, JSON.bool b =>
      match (inferInstance : Decidable (a = b)) with
      | isTrue h => isTrue (by rw [h])
      | isFalse h => isFalse (by intro h2; cases h2; exact h rfl)
  | JSON.bool a, JSON.num b => isFalse (by intro h; cases h)
  | JSON.bool a, JSON.str b => isFalse (by intro h; cases h)
  | JSON.bool a, JSON.arr b => isFalse (by intro h; cases h)
  | JSON.bool a, JSON.obj b => isFalse (by intro h; cases h)
  | JSON.num a, JSON.null => isFalse (by intro h; cases h)
  | JSON.num a, JSON.bool b => isFalse (by intro h; cases h)
  | JSON.num a, JSON.num b =>
      match (inferInstance : Decidable (a = b)) with
      | isTrue h => isTrue (by rw [h])
      | isFalse h => isFalse (by intro h2; cases h2; exact h rfl)
  | JSON.num a, JSON.str b => isFalse (by intro h; cases h)
  | JSON.num a, JSON.arr b => isFalse (by intro h; cases h)
  | JSON.num a, JSON.obj b => isFalse (by intro h; cases h)
  | JSON.str a, JSON.null => isFalse (by intro h; cases h)
  | JSON.str a, JSON.bool b => isFalse (by intro h; cases h)
  | JSON.str a, JSON.num b => isFalse (by intro h; cases h)
  | JSON.str a, JSON.str b =>
      match (inferInstance : Decidable (a = b)) with
      | isTrue h => isTrue (by rw [h])
      | isFalse h => isFalse (by intro h2; cases h2; exact h rfl)
  | JSON.str a, JSON.arr b => isFalse (by intro h; cases h)
  | JSON.str a, JSON.obj b => isFalse (by intro h; cases h)
  | JSON.arr a, JSON.null => isFalse (by intro h; cases h)
  | JSON.arr a, JSON.bool b => isFalse (by intro h; cases h)
  | JSON.arr a, JSON.num b => isFalse (by intro h; cases h)
  | JSON.arr a, JSON.str b => isFalse (by intro h; cases h)
  | JSON.arr a, JSON.arr b =>
      match JSON.decEqList a b with
      | isTrue h => isTrue (by rw [h])
      | isFalse h => isFalse (by intro h2; cases h2; exact h rfl)
  | JSON.arr a, JSON.obj b => isFalse (by intro h; cases h)
  | JSON.obj a, JSON.null => isFalse (by intro h; cases h)
  | JSON.obj a, JSON.bool b => isFalse (by intro h; cases h)
  | JSON.obj a, JSON.num b => isFalse (by intro h; cases h)
  | JSON.obj a, JSON.str b => isFalse (by intro h; cases h)
  | JSON.obj a, JSON.arr b => isFalse (by intro h; cases h)
  | JSON.obj a, JSON.obj b =>
      match JSON.decEqMembers a b with
      | isTrue h => isTrue (by rw [h])
      | isFalse h => isFalse (by intro h2; cases h2; exact h rfl)

/-- Decides equality of two lists of JSON texts. -/
def JSON.decEqList : (xs ys : List JSON) → Decidable (xs = ys)
  | [], [] => isTrue rfl
  | [], _ :: _ => isFalse (by intro h; cases h)
  | _ :: _, [] => isFalse (by intro h; cases h)
  | a :: as, b :: bs =>
      match JSON.decEq a b, JSON.decEqList as bs with
      | isTrue h, isTrue h2 => isTrue (by rw [h, h2])
      | isFalse h, _ => isFalse (by intro h3; cases h3; exact h rfl)
      | _, isFalse h => isFalse (by intro h3; cases h3; exact h rfl)

/-- Decides equality of two keyed lists of JSON texts. -/
def JSON.decEqMembers : (xs ys : List (String × JSON)) → Decidable (xs = ys)
  | [], [] => isTrue rfl
  | [], _ :: _ => isFalse (by intro h; cases h)
  | _ :: _, [] => isFalse (by intro h; cases h)
  | (k, a) :: as, (l, b) :: bs =>
      match (inferInstance : Decidable (k = l)), JSON.decEq a b, JSON.decEqMembers as bs with
      | isTrue h, isTrue h1, isTrue h2 => isTrue (by rw [h, h1, h2])
      | isFalse h, _, _ => isFalse (by intro h3; cases h3; exact h rfl)
      | _, isFalse h, _ => isFalse (by intro h3; cases h3; exact h rfl)
      | _, _, isFalse h => isFalse (by intro h3; cases h3; exact h rfl)

end

instance : DecidableEq JSON := JSON.decEq

/-- The white space of JSON (`isSpace` of the scanner). -/
def isSpace (c : Char) : Bool :=
  c == ' ' || c == '\t' || c == '\r' || c == '\n'

/-- Drops leading white space. -/
def skipSpace : List Char → List Char
  | [] => []
  | c :: cs => if isSpace c then skipSpace cs else c :: cs

/-- Value of a hexadecimal digit. -/
def hexVal (c : Char) : Option Nat :=
  if '0' ≤ c ∧ c ≤ '9' then some (c.toNat - '0'.toNat)
  else if 'a' ≤ c ∧ c ≤ 'f' then some (c.toNat - 'a'.toNat + 10)
  else if 'A' ≤ c ∧ c ≤ 'F' then some (c.toNat - 'A'.toNat + 10)
  else none

/-- Go `getu4` on the four digits after a backslash and `u`. -/
def getu4 (a b c d : Char) : Option Nat :=
  match hexVal a, hexVal b, hexVal c, hexVal d with
  | some x, some y, some z, some w => some (((x * 16 + y) * 16 + z) * 16 + w)
  | _, _, _, _ => none

/-- The replacement character U+FFFD. -/
def replacementChar : Char := Char.ofNat 0xFFFD

/-- What a pending first half of a surrogate pair decodes to when no second
half follows it: U+FFFD. -/
def flushPending (pending : Option Nat) (acc : List Char) : List Char :=
  match pending with
  | some _ => replacementChar :: acc
  | none => acc

/-- The body of a string literal after its opening quote: returns the decoded
characters and the text after the closing quote. Escapes are those of `unquote`;
a `\u` escape holding half of a surrogate pair is joined with a following second
half and is U+FFFD otherwise (`pending` holds a first half whose successor is
not yet seen, `acc` the decoded characters in reverse). A control character
inside the literal is a syntax error. -/
def scanString : Option Nat → List Char → List Char → Option (String × List Char)
  | _, _, [] => none
  | pending, acc, '"' :: rest => some (String.mk (flushPending pending acc).reverse, rest)
  | pending, acc, '\\' :: 'u' :: a :: b :: c :: d :: rest =>
      match getu4 a b c d with
      | none => none
      | some v =>
          if 0xD800 ≤ v ∧ v < 0xDC00 then
            scanString (some v) (flushPending pending acc) rest
          else if 0xDC00 ≤ v ∧ v < 0xE000 then
            match pending with
            | some hi =>
                scanString none (Char.ofNat ((hi - 0xD800) * 1024 + (v - 0xDC00) + 0x10000) :: acc) rest
            | none => scanString none (replacementChar :: acc) rest
          else scanString none (Char.ofNat v :: flushPending pending acc) rest
  | pending, acc, '\\' :: e :: rest =>
      let out (c : Char) := scanString none (c :: flushPending pending acc) rest
      if e == '"' then out '"'
      else if e == '\\' then out '\\'
      else if e == '/' then out '/'
      else if e == 'b' then out (Char.ofNat 8)
      else if e == 'f' then out (Char.ofNat 12)
      else if e == 'n' then out '\n'
      else if e == 'r' then out '\r'
      else if e == 't' then out '\t'
      else none
  | pending, acc, c :: rest =>
      if c.toNat < 0x20 ∨ c == '\\' then none
      else scanString none (c :: flushPending pending acc) rest

/-- Splits off the leading decimal digits. -/
def spanDigits : List Char → List Char × List Char
  | [] => ([], [])
  | c :: cs =>
      if c.isDigit then
        let (ds, rest) := spanDigits cs
        (c :: ds, rest)
      else ([], c :: cs)

/-- The integer part of a number literal: `0` or a non-zero digit followed by
digits. -/
def scanIntPart (cs : List Char) : Option (List Char × List Char) :=
  match cs with
  | '0' :: rest => some (['0'], rest)
  | c :: _ => if c.isDigit then some (spanDigits cs) else none
  | [] => none

/-- The optional fraction of a number literal: a point and at least one digit. -/
def scanFrac (cs : List Char) : Option (List Char × List Char) :=
  match cs with
  | '.' :: rest =>
      match spanDigits rest with
      | ([], _) => none
      | (ds, rest') => some ('.' :: ds, rest')
  | _ => some ([], cs)

/-- The digits of an exponent after its optional sign. -/
def scanExpDigits (pre : List Char) (cs : List Char) : Option (List Char × List Char) :=
  match spanDigits cs with
  | ([], _) => none
  | (ds, rest) => some (pre ++ ds, rest)

/-- The optional exponent of a number literal. -/
def scanExp (cs : List Char) : Option (List Char × List Char) :=
  match cs with
  | e :: rest =>
      if e == 'e' ∨ e == 'E' then
        match rest with
        | '+' :: r => scanExpDigits [e, '+'] r
        | '-' :: r => scanExpDigits [e, '-'] r
        | _ => scanExpDigits [e] rest
      else some ([], cs)
  | [] => some ([], [])

/-- A number literal at the head of the text: the literal and what follows. -/
def scanNumber (cs : List Char) : Option (String × List Char) :=
  let (sign, cs1) := match cs with
    | '-' :: r => (['-'], r)
    | _ => ([], cs)
  match scanIntPart cs1 with
  | none => none
  | some (ip, cs2) =>
      match scanFrac cs2 with
      | none => none
      | some (fp, cs3) =>
          match scanExp cs3 with
          | none => none
          | some (ep, cs4) => some (String.mk (sign ++ ip ++ fp ++ ep), cs4)

/-- The nesting the scanner accepts (`maxNestingDepth`). -/
def maxNestingDepth : Nat := 10000

mutual

/-- One JSON value at the head of the text (white space before it already
dropped), at nesting `depth`. `fuel` bounds the recursion; `JSON.parse`
supplies more than a text of that length can use. -/
def parseValue : Nat → Nat → List Char → Option (JSON × List Char)
  | 0, _, _ => none
  | fuel + 1, depth, cs =>
      match cs with
      | 'n' :: 'u' :: 'l' :: 'l' :: rest => some (JSON.null, rest)
      | 't' :: 'r' :: 'u' :: 'e' :: rest => some (JSON.bool true, rest)
      | 'f' :: 'a' :: 'l' :: 's' :: 'e' :: rest => some (JSON.bool false, rest)
      | '"' :: rest =>
          match scanString none [] rest with
          | some (s, rest') => some (JSON.str s, rest')
          | none => none
      | '[' :: rest =>
          if depth + 1 > maxNestingDepth then none
          else
            match skipSpace rest with
            | ']' :: rest' => some (JSON.arr [], rest')
            | rest' =>
                match parseElems fuel (depth + 1) rest' with
                | some (vs, rest2) => some (JSON.arr vs, rest2)
                | none => none
      | '{' :: rest =>
          if depth + 1 > maxNestingDepth then none
          else
            match skipSpace rest with
            | '}' :: rest' => some (JSON.obj [], rest')
            | rest' =>
                match parseMembers fuel (depth + 1) rest' with
                | some (ms, rest2) => some (JSON.obj ms, rest2)
                | none => none
      | _ =>
          match scanNumber cs with
          | some (lit, rest) => some (JSON.num lit, rest)
          | none => none

/-- The elements of a non-empty array, up to and including its `]`. -/
def parseElems : Nat → Nat → List Char → Option (List JSON × List Char)
  | 0, _, _ => none
  | fuel + 1, depth, cs =>
      match parseValue fuel depth cs with
      | none => none
      | some (v, rest) =>
          match skipSpace rest with
          | ']' :: rest' => some ([v], rest')
          | ',' :: rest' =>
              match parseElems fuel depth (skipSpace rest') with
              | some (vs, rest2) => some (v :: vs, rest2)
              | none => none
          | _ => none

/-- The members of a non-empty object, up to and including its `}`. -/
def parseMembers : Nat → Nat → List Char → Option (List (String × JSON) × List Char)
  | 0, _, _ => none
  | fuel + 1, depth, cs =>
      match cs with
      | '"' :: rest =>
          match scanString none [] rest with
          | none => none
          | some (key, rest1) =>
              match skipSpace rest1 with
              | ':' :: rest2 =>
                  match parseValue fuel depth (skipSpace rest2) with
                  | none => none
                  | some (v, rest3) =>
                      match skipSpace rest3 with
                      | '}' :: rest4 => some ([(key, v)], rest4)
                      | ',' :: rest4 =>
                          match parseMembers fuel depth (skipSpace rest4) with
                          | some (ms, rest5) => some ((key, v) :: ms, rest5)
                          | none => none
                      | _ => none
              | _ => none
      | _ => none

end

/-- The validity scan of `json.Unmarshal` (`checkValid`) together with the
tree of the text: one value, white space around it, nothing else. `none` is a
syntax error. -/
def JSON.parse (body : String) : Option JSON :=
  match parseValue (2 * body.data.length + 2) 0 (skipSpace body.data) with
  | some (v, rest) => if skipSpace rest = [] then some v else none
  | none => none

/-! ## Numbers -/

/-- A Go `float64`. A finite value is `(-1)^neg * mant * 2^exp`; the values
`strconv.ParseFloat` yields are kept in the form `mant < 2^53`, `-1074 ≤ exp`,
with `2^52 ≤ mant` unless `exp = -1074`. -/
inductive Float64 where
  | finite (neg : Bool) (mant : Nat) (exp : Int)
  | inf (neg : Bool)
  | nan
deriving DecidableEq, Repr, Inhabited

/-- Value of a digit string in base ten. -/
def digitsVal (ds : List Char) : Nat :=
  ds.foldl (fun acc c => acc * 10 + (c.toNat - '0'.toNat)) 0

/-- Rounds the quotient `n / m` to the nearest integer, ties to even. -/
def roundHalfEven (n m : Nat) : Nat :=
  let q := n / m
  let r := n % m
  if 2 * r > m ∨ (2 * r = m ∧ q % 2 = 1) then q + 1 else q

/-- Position of the leading bit of `n`, counted from zero (`0` for `n ≤ 1`);
`fuel` bounds the halvings. -/
def bitLength : Nat → Nat → Nat
  | 0, _ => 0
  | fuel + 1, n => if n ≥ 2 then bitLength fuel (n / 2) + 1 else 0

/-- The `float64` nearest to the positive rational `num / den` (ties to
even), or `none` when that lies beyond the largest finite value. -/
def nearestFloat64 (neg : Bool) (num den : Nat) : Option Float64 :=
  let e0 : Int := (bitLength num num : Int) - (bitLength den den : Int)
  -- exponent of the leading bit of `num / den`
  let lead : Int :=
    if e0 ≥ 0 then (if num ≥ den * 2 ^ e0.toNat then e0 else e0 - 1)
    else (if num * 2 ^ (-e0).toNat ≥ den then e0 else e0 - 1)
  let k : Int := max (lead - 52) (-1074)
  let q : Nat :=
    if k ≥ 0 then roundHalfEven num (den * 2 ^ k.toNat)
    else roundHalfEven (num * 2 ^ (-k).toNat) den
  let (q, k) := if q = 2 ^ 53 then (2 ^ 52, k + 1) else (q, k)
  if q = 0 then some (Float64.finite neg 0 0)
  else if k > 971 then none
  else some (Float64.finite neg q k)

/-- Splits a number literal into sign, integer digits, fraction digits and
the exponent (sign and digits). -/
def splitNumber (lit : List Char) : Bool × List Char × List Char × Bool × List Char :=
  let (neg, cs) := match lit with
    | '-' :: r => (true, r)
    | _ => (false, lit)
  let (ip, cs) := spanDigits cs
  let (fp, cs) := match cs with
    | '.' :: r => spanDigits r
    | _ => ([], cs)
  let (eneg, ed) := match cs with
    | _ :: '-' :: r => (true, r)
    | _ :: '+' :: r => (false, r)
    | _ :: r => (false, r)
    | [] => (false, [])
  (neg, ip, fp, eneg, ed)

/-- Go `strconv.ParseFloat(lit, 64)` on a JSON number literal: the nearest
`float64`, `none` for the range error of a value that rounds to infinity. -/
def strconv_ParseFloat (lit : String) : Option Float64 :=
  let (neg, ip, fp, eneg, ed) := splitNumber lit.data
  let d := digitsVal (ip ++ fp)
  if d = 0 then some (Float64.finite neg 0 0)
  else
    let e := digitsVal ed
    if eneg then nearestFloat64 neg d (10 ^ (fp.length + e))
    else if e ≥ fp.length then nearestFloat64 neg (d * 10 ^ (e - fp.length)) 1
    else nearestFloat64 neg d (10 ^ (fp.length - e))

/-- Go `strconv.ParseInt(lit, 10, 64)` on a JSON number literal: digits
after an optional minus sign, within the range of `int64`. -/
def strconv_ParseInt (lit : String) : Option Int :=
  let (neg, cs) := match lit.data with
    | '-' :: r => (true, r)
    | _ => (false, lit.data)
  if cs ≠ [] ∧ cs.all Char.isDigit then
    let n : Int := if neg then -(digitsVal cs : Int) else (digitsVal cs : Int)
    if -(2 : Int) ^ 63 ≤ n ∧ n < (2 : Int) ^ 63 then some n else none
  else none

/-! ## Decoded values -/

/-- A Go value held in an `interface{}`: what `json.Unmarshal` stores there
(`nil`, `bool`, `float64`, `string`, `[]interface{}`,
`map[string]interface{}`) and the `int` the accessors also look for. A map is
an association list with one entry per key. -/
inductive Any where
  | nil
  | bool (b : Bool)
  | float64 (f : Float64)
  | int (n : Int)
  | str (s : String)
  | slice (xs : List Any)
  | map (m : List (String × Any))
deriving Repr, Inhabited

mutual

/-- Decides equality of two decoded values. -/
def Any.decEq : (x y : Any) → Decidable (x = y)
  | Any.nil, Any.nil => isTrue rfl
  | Any.nil, Any.bool b => isFalse (by intro h; cases h)
  | Any.nil, Any.float64 b => isFalse (by intro h; cases h)
  | Any.nil, Any.int b => isFalse (by intro h; cases h)
  | Any.nil, Any.str b => isFalse (by intro h; cases h)
  | Any.nil, Any.slice b => isFalse (by intro h; cases h)
  | Any.nil, Any.map b => isFalse (by intro h; cases h)
  | Any.bool a, Any.nil => isFalse (by intro h; cases h)
  | Any.bool a, Any.bool b =>
      match (inferInstance : Decidable (a = b)) with
      | isTrue h => isTrue (by rw [h])
      | isFalse h => isFalse (by intro h2; cases h2; exact h rfl)
  | Any.bool a, Any.float64 b => isFalse (by intro h; cases h)
  | Any.bool a, Any.int b => isFalse (by intro h; cases h)
  | Any.bool a, Any.str b => isFalse (by intro h; cases h)
  | Any.bool a, Any.slice b => isFalse (by intro h; cases h)
  | Any.bool a, Any.map b => isFalse (by intro h; cases h)
  | Any.float64 a, Any.nil => isFalse (by intro h; cases h)
  | Any.float64 a, Any.bool b => isFalse (by intro h; cases h)
  | Any.float64 a, Any.float64 b =>
      match (inferInstance : Decidable (a = b)) with
      | isTrue h => isTrue (by rw [h])
      | isFalse h => isFalse (by intro h2; cases h2; exact h rfl)
  | Any.float64 a, Any.int b => isFalse (by intro h; cases h)
  | Any.float64 a, Any.str b => isFalse (by intro h; cases h)
  | Any.float64 a, Any.slice b => isFalse (by intro h; cases h)
  | Any.float64 a, Any.map b => isFalse (by intro h; cases h)
  | Any.int a, Any.nil => isFalse (by intro h; cases h)
  | Any.int a, Any.bool b => isFalse (by intro h; cases h)
  | Any.int a, Any.float64 b => isFalse (by intro h; cases h)
  | Any.int a, Any.int b =>
      match (inferInstance : Decidable (a = b)) with
      | isTrue h => isTrue (by rw [h])
      | isFalse h => isFalse (by intro h2; cases h2; exact h rfl)
  | Any.int a, Any.str b => isFalse (by intro h; cases h)
  | Any.int a, Any.slice b => isFalse (by intro h; cases h)
  | Any.int a, Any.map b => isFalse (by intro h; cases h)
  | Any.str a, Any.nil => isFalse (by intro h; cases h)
  | Any.str a, Any.bool b => isFalse (by intro h; cases h)
  | Any.str a, Any.float64 b => isFalse (by intro h; cases h)
  | Any.str a, Any.int b => isFalse (by intro h; cases h)
  | Any.str a, Any.str b =>
      match (inferInstance : Decidable (a = b)) with
      | isTrue h => isTrue (by rw [h])
      | isFalse h => isFalse (by intro h2; cases h2; exact h rfl)
  | Any.str a, Any.slice b => isFalse (by intro h; cases h)
  | Any.str a, Any.map b => isFalse (by intro h; cases h)
  | Any.slice a, Any.nil => isFalse (by intro h; cases h)
  | Any.slice a, Any.bool b => isFalse (by intro h; cases h)
  | Any.slice a, Any.float64 b => isFalse (by intro h; cases h)
  | Any.slice a, Any.int b => isFalse (by intro h; cases h)
  | Any.slice a, Any.str b => isFalse (by intro h; cases h)
  | Any.slice a, Any.slice b =>
      match Any.decEqList a b with
      | isTrue h => isTrue (by rw [h])
      | isFalse h => isFalse (by intro h2; cases h2; exact h rfl)
  | Any.slice a, Any.map b => isFalse (by intro h; cases h)
  | Any.map a, Any.nil => isFalse (by intro h; cases h)
  | Any.map a, Any.bool b => isFalse (by intro h; cases h)
  | Any.map a, Any.float64 b => isFalse (by intro h; cases h)
  | Any.map a, Any.int b => isFalse (by intro h; cases h)
  | Any.map a, Any.str b => isFalse (by intro h; cases h)
  | Any.map a, Any.slice b => isFalse (by intro h; cases h)
  | Any.map a, Any.map b =>
      match Any.decEqMembers a b with
      | isTrue h => isTrue (by rw [h])
      | isFalse h => isFalse (by intro h2; cases h2; exact h rfl)

/-- Decides equality of two lists of decoded values. -/
def Any.decEqList : (xs ys : List Any) → Decidable (xs = ys)
  | [], [] => isTrue rfl
  | [], _ :: _ => isFalse (by intro h; cases h)
  | _ :: _, [] => isFalse (by intro h; cases h)
  | a :: as, b :: bs =>
      match Any.decEq a b, Any.decEqList as bs with
      | isTrue h, isTrue h2 => isTrue (by rw [h, h2])
      | isFalse h, _ => isFalse (by intro h3; cases h3; exact h rfl)
      | _, isFalse h => isFalse (by intro h3; cases h3; exact h rfl)

/-- Decides equality of two keyed lists of decoded values. -/
def Any.decEqMembers : (xs ys : List (String × Any)) → Decidable (xs = ys)
  | [], [] => isTrue rfl
  | [], _ :: _ => isFalse (by intro h; cases h)
  | _ :: _, [] => isFalse (by intro h; cases h)
  | (k, a) :: as, (l, b) :: bs =>
      match (inferInstance : Decidable (k = l)), Any.decEq a b, Any.decEqMembers as bs with
      | isTrue h, isTrue h1, isTrue h2 => isTrue (by rw [h, h1, h2])
      | isFalse h, _, _ => isFalse (by intro h3; cases h3; exact h rfl)
      | _, isFalse h, _ => isFalse (by intro h3; cases h3; exact h rfl)
      | _, _, isFalse h => isFalse (by intro h3; cases h3; exact h rfl)

end

instance : DecidableEq Any := Any.decEq

/-- Assignment `m[key] = v` of a Go map. -/
def mapPut (m : List (String × Any)) (key : String) (v : Any) : List (String × Any) :=
  match m with
  | [] => [(key, v)]
  | (k, w) :: rest => if k = key then (key, v) :: rest else (k, w) :: mapPut rest key v

/-- Indexing `m[key]` of a Go map, `none` for an absent key. -/
def mapGet (m : List (String × Any)) (key : String) : Option Any :=
  match m with
  | [] => none
  | (k, w) :: rest => if k = key then some w else mapGet rest key

/-- The first of two remembered errors (`saveError` keeps the earliest). -/
def firstError (a b : Option String) : Option String :=
  match a with
  | some e => some e
  | none => b

/-- The name `UnmarshalTypeError` gives the kind of a JSON value. -/
def JSON.kindName : JSON → String
  | JSON.null => "null"
  | JSON.bool _ => "bool"
  | JSON.num _ => "number"
  | JSON.str _ => "string"
  | JSON.arr _ => "array"
  | JSON.obj _ => "object"

/-- The message of an `UnmarshalTypeError`, without the struct-field path Go
adds to it. -/
def typeError (value type : String) : String :=
  "json: cannot unmarshal " ++ value ++ " into Go value of type " ++ type

mutual

/-- Go `valueInterface`: the generic value of a JSON text and the error
remembered on the way. A number that overflows `float64` is remembered and
leaves `nil`. -/
def valueInterface : JSON → Any × Option String
  | JSON.null => (Any.nil, none)
  | JSON.bool b => (Any.bool b, none)
  | JSON.num lit =>
      match strconv_ParseFloat lit with
      | some f => (Any.float64 f, none)
      | none => (Any.nil, some (typeError ("number " ++ lit) "float64"))
  | JSON.str s => (Any.str s, none)
  | JSON.arr elems =>
      let (xs, e) := arrayInterface elems
      (Any.slice xs, e)
  | JSON.obj members =>
      let (m, e) := objectInterface members []
      (Any.map m, e)

/-- Go `arrayInterface`. -/
def arrayInterface : List JSON → List Any × Option String
  | [] => ([], none)
  | j :: js =>
      let (x, e) := valueInterface j
      let (xs, e') := arrayInterface js
      (x :: xs, firstError e e')

/-- Go `objectInterface`: members are assigned in order, a repeated key
overwrites. -/
def objectInterface : List (String × JSON) → List (String × Any) → List (String × Any) × Option String
  | [], m => (m, none)
  | (k, j) :: rest, m =>
      let (x, e) := valueInterface j
      let (m', e') := objectInterface rest (mapPut m k x)
      (m', firstError e e')

end

/-- Decoding into a destination of type `interface{}` (`literalStore`,
`array` and `object` on an empty interface): `null` stores `nil`, a number
that overflows is remembered and leaves the destination as it was. -/
def decodeInterface (j : JSON) (cur : Any) : Any × Option String :=
  match j with
  | JSON.num lit =>
      match strconv_ParseFloat lit with
      | some f => (Any.float64 f, none)
      | none => (cur, some (typeError ("number " ++ lit) "float64"))
  | _ => valueInterface j

/-! ## Decoding into typed destinations

Each decoder takes the JSON value and the current content of the destination
and returns the new content with the error remembered, if any. -/

/-- The fold `encoding/json` applies to a key before it compares it with a
field name without regard to case: ASCII letters to lower case, and the two
letters outside ASCII that fold to ASCII ones, the Kelvin sign and the long
s. -/
def foldChar (c : Char) : Char :=
  if c.toNat = 0x212A then 'k' else if c.toNat = 0x17F then 's' else c.toLower

/-- The folded form of a key. Every field name of the client is lower-case
ASCII and no two fold alike, so the field a key selects (exact match first,
then match under folding) is the one whose name is the folded key. -/
def foldName (key : String) : String :=
  String.mk (key.data.map foldChar)

/-- Decoding into a `string`. -/
def decodeString (j : JSON) (cur : String) : String × Option String :=
  match j with
  | JSON.str s => (s, none)
  | JSON.null => (cur, none)
  | _ => (cur, some (typeError j.kindName "string"))

/-- Decoding into an `int`. -/
def decodeInt (j : JSON) (cur : Int) : Int × Option String :=
  match j with
  | JSON.num lit =>
      match strconv_ParseInt lit with
      | some n => (n, none)
      | none => (cur, some (typeError ("number " ++ lit) "int"))
  | JSON.null => (cur, none)
  | _ => (cur, some (typeError j.kindName "int"))

/-- Decoding into a `bool`. -/
def decodeBool (j : JSON) (cur : Bool) : Bool × Option String :=
  match j with
  | JSON.bool b => (b, none)
  | JSON.null => (cur, none)
  | _ => (cur, some (typeError j.kindName "bool"))

/-- Decoding into a `*string`: `null` stores nil; any other value allocates
the string when the pointer is nil and then decodes into it. -/
def decodeStringPtr (j : JSON) (cur : Option String) : Option String × Option String :=
  match j with
  | JSON.null => (none, none)
  | _ =>
      let (s, e) := decodeString j (cur.getD "")
      (some s, e)

/-- The elements of an array decoded one by one into the slice `cur`: the
element of rank `i` is decoded into the element the slice holds at `i`, and
into a zero value once the slice is exhausted (the loop of `(*decodeState).array`). -/
def decodeElems {T : Type} (zero : T) (dec : JSON → T → T × Option String) :
    List JSON → List T → List T × Option String
  | [], _ => ([], none)
  | j :: js, cur =>
      let (x, e) := dec j (cur.headD zero)
      let (xs, e') := decodeElems zero dec js cur.tail
      (x :: xs, firstError e e')

/-- Decoding into a slice: an array is decoded element by element into the
slice, which ends with the length of the array; `null` stores the nil slice,
anything else is a mismatch. A nil slice and an empty one are both the empty
list. The capacity of a slice is not kept: what Go finds between the length and
the capacity of a slice it shortened before is taken for zero values here. -/
def decodeSlice {T : Type} (type : String) (zero : T) (dec : JSON → T → T × Option String)
    (j : JSON) (cur : List T) : List T × Option String :=
  match j with
  | JSON.arr elems => decodeElems zero dec elems cur
  | JSON.null => ([], none)
  | _ => (cur, some (typeError j.kindName type))

/-- The members of an object stored one after the other by `field`, which
maps a key, its value and the struct to the updated struct. -/
def decodeMembers {T : Type} (field : String → JSON → T → T × Option String) :
    List (String × JSON) → T → T × Option String
  | [], cur => (cur, none)
  | (k, j) :: rest, cur =>
      let (cur', e) := field k j cur
      let (cur2, e') := decodeMembers field rest cur'
      (cur2, firstError e e')

/-- Decoding into a struct: an object stores its members, `null` leaves the
struct as it is, anything else is a mismatch. -/
def decodeStruct {T : Type} (type : String) (field : String → JSON → T → T × Option String)
    (j : JSON) (cur : T) : T × Option String :=
  match j with
  | JSON.obj members => decodeMembers field members cur
  | JSON.null => (cur, none)
  | _ => (cur, some (typeError j.kindName type))

/-- Go `json.Unmarshal(data, &dest)` for a destination decoded by `dec`: a
syntax error leaves the destination untouched. The message of a syntax error
is not modelled beyond its being one. -/
def json_Unmarshal {T : Type} (dec : JSON → T → T × Option String) (data : String) (dest : T) :
    T × Option String :=
  match JSON.parse data with
  | none => (dest, some "json: syntax error")
  | some j => dec j dest

/-! ## Entities -/

/-- Platform represents a platform (Linux, Windows, etc.). `Type_` (the field
`Type` of the source) and `Category` can be a string or an object with `value`
and `label`. -/
structure Platform where
  ID : Any
  Name : String
  DisplayName : String
  Type_ : Any
  Category : Any
deriving DecidableEq, Repr, Inhabited

/-- The zero value of `Platform`. -/
def Platform.zero : Platform :=
  { ID := Any.nil, Name := "", DisplayName := "", Type_ := Any.nil, Category := Any.nil }

/-- Stores the member `key` of an object into the `Platform` field it selects;
a key that selects no field is skipped. -/
def Platform.field (key : String) (j : JSON) (x : Platform) : Platform × Option String :=
  let k := foldName key
  if k = "id" then
    let (v, e) := decodeInterface j x.ID
    ({ x with ID := v }, e)
  else if k = "name" then
    let (v, e) := decodeString j x.Name
    ({ x with Name := v }, e)
  else if k = "display_name" then
    let (v, e) := decodeString j x.DisplayName
    ({ x with DisplayName := v }, e)
  else if k = "type" then
    let (v, e) := decodeInterface j x.Type_
    ({ x with Type_ := v }, e)
  else if k = "category" then
    let (v, e) := decodeInterface j x.Category
    ({ x with Category := v }, e)
  else (x, none)

/-- Decoding into a `Platform`. -/
def Platform.decode (j : JSON) (x : Platform) : Platform × Option String :=
  decodeStruct "jumpserver.Platform" Platform.field j x

/-- Node represents an organization node. -/
structure Node where
  ID : String
  FullName : String
  Value : String
  Name : String
  Weight : Int
deriving DecidableEq, Repr, Inhabited

/-- The zero value of `Node`. -/
def Node.zero : Node :=
  { ID := "", FullName := "", Value := "", Name := "", Weight := 0 }

/-- Stores the member `key` of an object into the `Node` field it selects;
a key that selects no field is skipped. -/
def Node.field (key : String) (j : JSON) (x : Node) : Node × Option String :=
  let k := foldName key
  if k = "id" then
    let (v, e) := decodeString j x.ID
    ({ x with ID := v }, e)
  else if k = "full_value" then
    let (v, e) := decodeString j x.FullName
    ({ x with FullName := v }, e)
  else if k = "value" then
    let (v, e) := decodeString j x.Value
    ({ x with Value := v }, e)
  else if k = "name" then
    let (v, e) := decodeString j x.Name
    ({ x with Name := v }, e)
  else if k = "weight" then
    let (v, e) := decodeInt j x.Weight
    ({ x with Weight := v }, e)
  else (x, none)

/-- Decoding into a `Node`. -/
def Node.decode (j : JSON) (x : Node) : Node × Option String :=
  decodeStruct "jumpserver.Node" Node.field j x

/-- Account represents a JumpServer account. `Asset` can be a string ID or an
object with `id`, `SecretType` a string or an object with `value` and `label`. -/
structure Account where
  ID : String
  Name : String
  Asset : Any
  AssetDisplay : String
  SecretType : Any
  Comment : String
  Created : String
  Updated : String
deriving DecidableEq, Repr, Inhabited

/-- The zero value of `Account`. -/
def Account.zero : Account :=
  { ID := "", Name := "", Asset := Any.nil, AssetDisplay := "", SecretType := Any.nil,
    Comment := "", Created := "", Updated := "" }

/-- Stores the member `key` of an object into the `Account` field it selects;
a key that selects no field is skipped. -/
def Account.field (key : String) (j : JSON) (x : Account) : Account × Option String :=
  let k := foldName key
  if k = "id" then
    let (v, e) := decodeString j x.ID
    ({ x with ID := v }, e)
  else if k = "username" then
    let (v, e) := decodeString j x.Name
    ({ x with Name := v }, e)
  else if k = "asset" then
    let (v, e) := decodeInterface j x.Asset
    ({ x with Asset := v }, e)
  else if k = "asset_display" then
    let (v, e) := decodeString j x.AssetDisplay
    ({ x with AssetDisplay := v }, e)
  else if k = "secret_type" then
    let (v, e) := decodeInterface j x.SecretType
    ({ x with SecretType := v }, e)
  else if k = "comment" then
    let (v, e) := decodeString j x.Comment
    ({ x with Comment := v }, e)
  else if k = "date_created" then
    let (v, e) := decodeString j x.Created
    ({ x with Created := v }, e)
  else if k = "date_updated" then
    let (v, e) := decodeString j x.Updated
    ({ x with Updated := v }, e)
  else (x, none)

/-- Decoding into a `Account`. -/
def Account.decode (j : JSON) (x : Account) : Account × Option String :=
  decodeStruct "jumpserver.Account" Account.field j x

/-- Asset represents a JumpServer asset. -/
structure Asset where
  ID : String
  Name : String
  Address : String
  Addrs : String
  Platform : Platform
  Nodes : List Node
  IsActive : Bool
  Comment : String
  Created : String
  Updated : String
deriving DecidableEq, Repr, Inhabited

/-- The zero value of `Asset`. -/
def Asset.zero : Asset :=
  { ID := "", Name := "", Address := "", Addrs := "", Platform := Platform.zero, Nodes := [],
    IsActive := false, Comment := "", Created := "", Updated := "" }

/-- Stores the member `key` of an object into the `Asset` field it selects;
a key that selects no field is skipped. -/
def Asset.field (key : String) (j : JSON) (x : Asset) : Asset × Option String :=
  let k := foldName key
  if k = "id" then
    let (v, e) := decodeString j x.ID
    ({ x with ID := v }, e)
  else if k = "name" then
    let (v, e) := decodeString j x.Name
    ({ x with Name := v }, e)
  else if k = "address" then
    let (v, e) := decodeString j x.Address
    ({ x with Address := v }, e)
  else if k = "addrs" then
    let (v, e) := decodeString j x.Addrs
    ({ x with Addrs := v }, e)
  else if k = "platform" then
    let (v, e) := Platform.decode j x.Platform
    ({ x with Platform := v }, e)
  else if k = "nodes" then
    let (v, e) := decodeSlice "[]jumpserver.Node" Node.zero Node.decode j x.Nodes
    ({ x with Nodes := v }, e)
  else if k = "is_active" then
    let (v, e) := decodeBool j x.IsActive
    ({ x with IsActive := v }, e)
  else if k = "comment" then
    let (v, e) := decodeString j x.Comment
    ({ x with Comment := v }, e)
  else if k = "date_created" then
    let (v, e) := decodeString j x.Created
    ({ x with Created := v }, e)
  else if k = "date_updated" then
    let (v, e) := decodeString j x.Updated
    ({ x with Updated := v }, e)
  else (x, none)

/-- Decoding into a `Asset`. -/
def Asset.decode (j : JSON) (x : Asset) : Asset × Option String :=
  decodeStruct "jumpserver.Asset" Asset.field j x

/-- User represents a JumpServer user. -/
structure User where
  ID : String
  Username : String
  Name : String
  Email : String
  Comment : String
  IsActive : Bool
  Created : String
  Updated : String
deriving DecidableEq, Repr, Inhabited

/-- The zero value of `User`. -/
def User.zero : User :=
  { ID := "", Username := "", Name := "", Email := "", Comment := "", IsActive := false,
    Created := "", Updated := "" }

/-- Stores the member `key` of an object into the `User` field it selects;
a key that selects no field is skipped. -/
def User.field (key : String) (j : JSON) (x : User) : User × Option String :=
  let k := foldName key
  if k = "id" then
    let (v, e) := decodeString j x.ID
    ({ x with ID := v }, e)
  else if k = "username" then
    let (v, e) := decodeString j x.Username
    ({ x with Username := v }, e)
  else if k = "name" then
    let (v, e) := decodeString j x.Name
    ({ x with Name := v }, e)
  else if k = "email" then
    let (v, e) := decodeString j x.Email
    ({ x with Email := v }, e)
  else if k = "comment" then
    let (v, e) := decodeString j x.Comment
    ({ x with Comment := v }, e)
  else if k = "is_active" then
    let (v, e) := decodeBool j x.IsActive
    ({ x with IsActive := v }, e)
  else if k = "date_created" then
    let (v, e) := decodeString j x.Created
    ({ x with Created := v }, e)
  else if k = "date_updated" then
    let (v, e) := decodeString j x.Updated
    ({ x with Updated := v }, e)
  else (x, none)

/-- Decoding into a `User`. -/
def User.decode (j : JSON) (x : User) : User × Option String :=
  decodeStruct "jumpserver.User" User.field j x

/-- Permission represents a JumpServer permission. `Users`, `Assets` and
`Actions` can be string arrays or object arrays. -/
structure Permission where
  ID : String
  Name : String
  Users : List Any
  UserGroups : List String
  Assets : List Any
  AssetGroups : List String
  Actions : List Any
  Comment : String
  Created : String
  Updated : String
deriving DecidableEq, Repr, Inhabited

/-- The zero value of `Permission`. -/
def Permission.zero : Permission :=
  { ID := "", Name := "", Users := [], UserGroups := [], Assets := [], AssetGroups := [],
    Actions := [], Comment := "", Created := "", Updated := "" }

/-- Stores the member `key` of an object into the `Permission` field it selects;
a key that selects no field is skipped. -/
def Permission.field (key : String) (j : JSON) (x : Permission) : Permission × Option String :=
  let k := foldName key
  if k = "id" then
    let (v, e) := decodeString j x.ID
    ({ x with ID := v }, e)
  else if k = "name" then
    let (v, e) := decodeString j x.Name
    ({ x with Name := v }, e)
  else if k = "users" then
    let (v, e) := decodeSlice "[]interface \x7b\x7d" Any.nil decodeInterface j x.Users
    ({ x with Users := v }, e)
  else if k = "user_groups" then
    let (v, e) := decodeSlice "[]string" "" decodeString j x.UserGroups
    ({ x with UserGroups := v }, e)
  else if k = "assets" then
    let (v, e) := decodeSlice "[]interface \x7b\x7d" Any.nil decodeInterface j x.Assets
    ({ x with Assets := v }, e)
  else if k = "asset_groups" then
    let (v, e) := decodeSlice "[]string" "" decodeString j x.AssetGroups
    ({ x with AssetGroups := v }, e)
  else if k = "actions" then
    let (v, e) := decodeSlice "[]interface \x7b\x7d" Any.nil decodeInterface j x.Actions
    ({ x with Actions := v }, e)
  else if k = "comment" then
    let (v, e) := decodeString j x.Comment
    ({ x with Comment := v }, e)
  else if k = "date_created" then
    let (v, e) := decodeString j x.Created
    ({ x with Created := v }, e)
  else if k = "date_updated" then
    let (v, e) := decodeString j x.Updated
    ({ x with Updated := v }, e)
  else (x, none)

/-- Decoding into a `Permission`. -/
def Permission.decode (j : JSON) (x : Permission) : Permission × Option String :=
  decodeStruct "jumpserver.Permission" Permission.field j x

/-- The paginated list shape shared by `AccountListResponse`,
`AssetListResponse`, `NodeListResponse`, `PlatformListResponse`,
`PermissionListResponse` and `UserListResponse`: the same four fields, the
element type apart. -/
structure ListResponse (T : Type) where
  Count : Int
  Next : Option String
  Previous : Option String
  Results : List T
deriving DecidableEq, Repr

/-- The zero value of a list response. -/
def ListResponse.zero {T : Type} : ListResponse T :=
  { Count := 0, Next := none, Previous := none, Results := [] }

/-- Stores the member `key` of an object into the list-response field it
selects. -/
def ListResponse.field {T : Type} (elemType : String) (zero : T)
    (dec : JSON → T → T × Option String) (key : String) (j : JSON) (x : ListResponse T) :
    ListResponse T × Option String :=
  let k := foldName key
  if k = "count" then
    let (v, e) := decodeInt j x.Count
    ({ x with Count := v }, e)
  else if k = "next" then
    let (v, e) := decodeStringPtr j x.Next
    ({ x with Next := v }, e)
  else if k = "previous" then
    let (v, e) := decodeStringPtr j x.Previous
    ({ x with Previous := v }, e)
  else if k = "results" then
    let (v, e) := decodeSlice ("[]" ++ elemType) zero dec j x.Results
    ({ x with Results := v }, e)
  else (x, none)

/-- Decoding into a list response whose elements are decoded by `dec`. -/
def ListResponse.decode {T : Type} (type elemType : String) (zero : T)
    (dec : JSON → T → T × Option String) (j : JSON) (x : ListResponse T) :
    ListResponse T × Option String :=
  decodeStruct type (ListResponse.field elemType zero dec) j x

/-- The answer of the command endpoints: the data so far, whether the job has
ended, and the mark to resume from. `End_` is the field `End` of the source. -/
structure CommandExecutionResponse where
  Data : String
  End_ : Bool
  Mark : String
deriving DecidableEq, Repr, Inhabited

/-- The zero value of `CommandExecutionResponse`. -/
def CommandExecutionResponse.zero : CommandExecutionResponse :=
  { Data := "", End_ := false, Mark := "" }

/-- Stores the member `key` of an object into the `CommandExecutionResponse`
field it selects. -/
def CommandExecutionResponse.field (key : String) (j : JSON) (x : CommandExecutionResponse) :
    CommandExecutionResponse × Option String :=
  let k := foldName key
  if k = "data" then
    let (v, e) := decodeString j x.Data
    ({ x with Data := v }, e)
  else if k = "end" then
    let (v, e) := decodeBool j x.End_
    ({ x with End_ := v }, e)
  else if k = "mark" then
    let (v, e) := decodeString j x.Mark
    ({ x with Mark := v }, e)
  else (x, none)

/-- Decoding into a `CommandExecutionResponse`. -/
def CommandExecutionResponse.decode (j : JSON) (x : CommandExecutionResponse) :
    CommandExecutionResponse × Option String :=
  decodeStruct "jumpserver.CommandExecutionResponse" CommandExecutionResponse.field j x

/-- PermissionCreateResponse represents the response from creating a
permission: an `ID` of its own and the embedded `Permission`. -/
structure PermissionCreateResponse where
  ID : String
  Permission : Permission
deriving DecidableEq, Repr, Inhabited

/-- The zero value of `PermissionCreateResponse`. -/
def PermissionCreateResponse.zero : PermissionCreateResponse :=
  { ID := "", Permission := Permission.zero }

/-- Stores the member `key` of an object into the `PermissionCreateResponse`
field it selects. The key `id` selects the `ID` of the wrapper, which hides the
one of the embedded struct; every other key goes to the promoted fields of
`Permission`. -/
def PermissionCreateResponse.field (key : String) (j : JSON) (x : PermissionCreateResponse) :
    PermissionCreateResponse × Option String :=
  let k := foldName key
  if k = "id" then
    let (v, e) := decodeString j x.ID
    ({ x with ID := v }, e)
  else
    let (v, e) := Permission.field key j x.Permission
    ({ x with Permission := v }, e)

/-- Decoding into a `PermissionCreateResponse`. -/
def PermissionCreateResponse.decode (j : JSON) (x : PermissionCreateResponse) :
    PermissionCreateResponse × Option String :=
  decodeStruct "jumpserver.PermissionCreateResponse" PermissionCreateResponse.field j x

/-! ## The transport -/

/-- Go `http.NewRequest`: an empty method is `GET`, a method that is no token
is refused, the URL is parsed, the header starts empty. The quoting `%q` of the
refused method is written as plain quotes. -/
def http_NewRequest (env : Env) (method url : String) (body : Option String) :
    Except String Request :=
  let method := if method = "" then "GET" else method
  if ¬ method.data.all validHeaderFieldByte then
    Except.error ("net/http: invalid method \"" ++ method ++ "\"")
  else
    match env.parseURL url with
    | Except.error e => Except.error e
    | Except.ok u => Except.ok { Method := method, URL := u, Header := [], Body := body }

/-- A destination `result interface{}` of `DoRequest`: how `json.Unmarshal`
decodes into the pointed value and the name `%T` prints for the pointer. -/
structure Dest (T : Type) where
  decode : JSON → T → T × Option String
  typeName : String

/-- The lines `DoRequest` prints for a header map, one per value. Go ranges
over the map in an unspecified order; the order of the association list stands
for it. -/
def headerLines (h : Header) : List String :=
  h.flatMap fun kv => kv.2.map fun value => "[DEBUG] [CLIENT]   " ++ kv.1 ++ ": " ++ value ++ "\n"

/-- The separator line of the debug output. -/
def debugRule : String := "[DEBUG] [CLIENT] =========================================\n"

/-- DoRequest executes an HTTP request with authentication.

`body` is `none` for a nil body and otherwise the outcome of `json.Marshal` on
it; `result` is `none` for a nil destination and otherwise the value the
destination points to. The outcome is the error (`none` for nil) and the value
the destination points to afterwards. -/
def DoRequest {T : Type} (env : Env) (c : Client) (method path : String)
    (body : Option (Except String String)) (D : Dest T) (result : Option T) (st : St) :
    (Option String × Option T) × St :=
  match body with
  | some (Except.error err) =>
      let st := st.print ("[DEBUG] [CLIENT] Failed to marshal request body: " ++ err ++ "\n")
      ((some ("failed to marshal request body: " ++ err), result), st)
  | _ =>
    let jsonData : Option String := match body with
      | some (Except.ok data) => some data
      | _ => none
    let url := c.config.Endpoint ++ path
    let st := st.printAll [debugRule, "[DEBUG] [CLIENT] REQUEST START\n",
      "[DEBUG] [CLIENT] Method: " ++ method ++ "\n", "[DEBUG] [CLIENT] URL: " ++ url ++ "\n",
      "[DEBUG] [CLIENT] Path: " ++ path ++ "\n"]
    let st := match jsonData with
      | some data => st.print ("[DEBUG] [CLIENT] Request Body:\n" ++ data ++ "\n")
      | none => st.print "[DEBUG] [CLIENT] Request Body: (none)\n"
    match http_NewRequest env method url jsonData with
    | Except.error err =>
        let st := st.print ("[DEBUG] [CLIENT] Failed to create request: " ++ err ++ "\n")
        ((some ("failed to create request: " ++ err), result), st)
    | Except.ok req =>
      let req :=
        if jsonData.isSome then { req with Header := req.Header.Set "Content-Type" "application/json" }
        else req
      match SignRequest env c req st with
      | ((some err, _), st) =>
          let st := st.print ("[DEBUG] [CLIENT] Failed to sign request: " ++ err ++ "\n")
          ((some ("failed to sign request: " ++ err), result), st)
      | ((none, req), st) =>
        let st := st.printAll ("[DEBUG] [CLIENT] Request Headers:\n" :: headerLines req.Header)
        let outcome := env.roundTrip st.sent req
        let st := { st with sent := st.sent ++ [req] }
        match outcome with
        | Except.error err =>
            let st := st.printAll
              ["[DEBUG] [CLIENT] Failed to execute request: " ++ err ++ "\n", debugRule]
            ((some ("failed to execute request: " ++ err), result), st)
        | Except.ok resp =>
          match resp.ReadErr with
          | some err =>
              let st := st.printAll
                ["[DEBUG] [CLIENT] Failed to read response body: " ++ err ++ "\n", debugRule]
              ((some ("failed to read response body: " ++ err), result), st)
          | none =>
            let respBody := resp.Body
            let st := st.printAll
              (["[DEBUG] [CLIENT] Response Status: " ++ fmt_d resp.StatusCode ++ " " ++ resp.Status
                  ++ "\n", "[DEBUG] [CLIENT] Response Headers:\n"]
                ++ headerLines resp.Header
                ++ ["[DEBUG] [CLIENT] Response Body:\n" ++ respBody ++ "\n",
                  "[DEBUG] [CLIENT] RESPONSE END\n", debugRule])
            if resp.StatusCode < 200 ∨ resp.StatusCode ≥ 300 then
              ((some ("API request failed with status " ++ fmt_d resp.StatusCode ++ ": "
                ++ respBody), result), st)
            else
              match result with
              | some dest =>
                  match json_Unmarshal D.decode respBody dest with
                  | (dest, some err) =>
                      let st := st.print
                        ("[DEBUG] [CLIENT] Failed to unmarshal response: " ++ err ++ "\n")
                      ((some ("failed to unmarshal response: " ++ err), some dest), st)
                  | (dest, none) =>
                      let st := { st with console := st.console ++ [Output.result D.typeName] }
                      ((none, some dest), st)
              | none => ((none, none), st)

/-- The request `DoRequest` hands to the transport when it gets that far:
built by `http.NewRequest` for the endpoint and the path, given the content
type when there is a payload, and signed at the clock reading of `st`. -/
def DoRequest.outgoing (env : Env) (c : Client) (method path : String) (payload : Option String)
    (st : St) : Except String Request :=
  match http_NewRequest env method (c.config.Endpoint ++ path) payload with
  | Except.error err => Except.error err
  | Except.ok req =>
      let req :=
        if payload.isSome then { req with Header := req.Header.Set "Content-Type" "application/json" }
        else req
      Except.ok (SignRequest env c req st).1.2

/-- What `DoRequest` makes of a response whose body was read in full: the
error it returns and the value the destination points to afterwards. -/
def DoRequest.settle {T : Type} (D : Dest T) (result : Option T) (resp : Response) :
    Option String × Option T :=
  if resp.StatusCode < 200 ∨ resp.StatusCode ≥ 300 then
    (some ("API request failed with status " ++ fmt_d resp.StatusCode ++ ": " ++ resp.Body), result)
  else
    match result with
    | some dest =>
        match json_Unmarshal D.decode resp.Body dest with
        | (dest, some err) => (some ("failed to unmarshal response: " ++ err), some dest)
        | (dest, none) => (none, some dest)
    | none => (none, none)

/-- The payload of a body: the text `json.Marshal` produced, when there is
a body and it was marshalled. -/
def payloadOf (body : Option (Except String String)) : Option String :=
  match body with
  | some (Except.ok data) => some data
  | _ => none

/-- The error and the destination `DoRequest` returns, read off its branches
without the console and the state: marshalling, building the request, the
exchange, reading the body, and the settling of the response. -/
def DoRequest.outcome {T : Type} (env : Env) (c : Client) (method path : String)
    (body : Option (Except String String)) (D : Dest T) (result : Option T) (st : St) :
    Option String × Option T :=
  match body with
  | some (Except.error err) => (some ("failed to marshal request body: " ++ err), result)
  | _ =>
      match DoRequest.outgoing env c method path (payloadOf body) st with
      | Except.error err => (some ("failed to create request: " ++ err), result)
      | Except.ok req =>
          match env.roundTrip st.sent req with
          | Except.error err => (some ("failed to execute request: " ++ err), result)
          | Except.ok resp =>
              match resp.ReadErr with
              | some err => (some ("failed to read response body: " ++ err), result)
              | none => DoRequest.settle D result resp

/-- Get performs a GET request. -/
def Get {T : Type} (env : Env) (c : Client) (path : String) (D : Dest T) (result : Option T)
    (st : St) : (Option String × Option T) × St :=
  DoRequest env c "GET" path none D result st

/-- Post performs a POST request. -/
def Post {T : Type} (env : Env) (c : Client) (path : String) (body : Option (Except String String))
    (D : Dest T) (result : Option T) (st : St) : (Option String × Option T) × St :=
  DoRequest env c "POST" path body D result st

/-- Put performs a PUT request. -/
def Put {T : Type} (env : Env) (c : Client) (path : String) (body : Option (Except String String))
    (D : Dest T) (result : Option T) (st : St) : (Option String × Option T) × St :=
  DoRequest env c "PUT" path body D result st

/-- Delete performs a DELETE request. -/
def Delete {T : Type} (env : Env) (c : Client) (path : String) (D : Dest T) (result : Option T)
    (st : St) : (Option String × Option T) × St :=
  DoRequest env c "DELETE" path none D result st

/-- The destination `&result` of `getRaw`, a pointer to an `interface{}`. -/
def anyDest : Dest Any :=
  { decode := decodeInterface, typeName := "*interface \x7b\x7d" }

/-- Performs a GET request and returns the raw response bytes (nil bytes are
the empty text). The outcome of the `DoRequest` it starts with is overwritten
by the request it then makes itself; on the success path the bytes and the
error are those of `io.ReadAll`. -/
def getRaw (env : Env) (c : Client) (path : String) (st : St) : (String × Option String) × St :=
  let (_, st) := DoRequest env c "GET" path none anyDest (some Any.nil) st
  let url := c.config.Endpoint ++ path
  match http_NewRequest env "GET" url none with
  | Except.error err => (("", some ("failed to create request: " ++ err)), st)
  | Except.ok req =>
    match SignRequest env c req st with
    | ((some err, _), st) => (("", some ("failed to sign request: " ++ err)), st)
    | ((none, req), st) =>
      let outcome := env.roundTrip st.sent req
      let st := { st with sent := st.sent ++ [req] }
      match outcome with
      | Except.error err => (("", some ("failed to execute request: " ++ err)), st)
      | Except.ok resp =>
        if resp.StatusCode < 200 ∨ resp.StatusCode ≥ 300 then
          (("", some ("API request failed with status " ++ fmt_d resp.StatusCode ++ ": "
            ++ resp.Body)), st)
        else ((resp.Body, resp.ReadErr), st)

/-! ## Encoding request bodies (`json.Marshal`) -/

/-- A hexadecimal digit, lower case. -/
def hexDigit (n : Nat) : Char :=
  "0123456789abcdef".data.getD (n % 16) '0'

/-- The escape `\u00XX`-style of a character below U+10000. -/
def unicodeEscape (c : Char) : List Char :=
  let n := c.toNat
  ['\\', 'u', hexDigit (n / 4096), hexDigit (n / 256), hexDigit (n / 16), hexDigit n]

/-- What `json.Marshal` writes for one character of a string (HTML escaping
on, as `Marshal` has it; backspace and form feed in their short form). -/
def encodeChar (c : Char) : List Char :=
  if c == '"' then ['\\', '"']
  else if c == '\\' then ['\\', '\\']
  else if c == '\n' then ['\\', 'n']
  else if c == '\r' then ['\\', 'r']
  else if c == '\t' then ['\\', 't']
  else if c.toNat = 8 then ['\\', 'b']
  else if c.toNat = 12 then ['\\', 'f']
  else if c.toNat < 0x20 ∨ c == '<' ∨ c == '>' ∨ c == '&' ∨ c.toNat = 0x2028 ∨ c.toNat = 0x2029 then
    unicodeEscape c
  else [c]

/-- A string literal as `json.Marshal` writes it. -/
def encodeString (s : String) : List Char :=
  '"' :: (s.data.flatMap encodeChar ++ ['"'])

mutual

/-- The compact text `json.Marshal` writes for a tree. -/
def renderValue : JSON → List Char
  | JSON.null => "null".data
  | JSON.bool b => if b then "true".data else "false".data
  | JSON.num lit => lit.data
  | JSON.str s => encodeString s
  | JSON.arr elems => '[' :: (renderElems elems ++ [']'])
  | JSON.obj members => '{' :: (renderMembers members ++ ['}'])

/-- The elements of an array, separated by commas. -/
def renderElems : List JSON → List Char
  | [] => []
  | [j] => renderValue j
  | j :: k :: rest => renderValue j ++ (',' :: renderElems (k :: rest))

/-- The members of an object, separated by commas. -/
def renderMembers : List (String × JSON) → List Char
  | [] => []
  | [(k, j)] => encodeString k ++ (':' :: renderValue j)
  | (k, j) :: m :: rest => encodeString k ++ (':' :: renderValue j) ++ (',' :: renderMembers (m :: rest))

end

/-- The text of a tree. -/
def JSON.render (j : JSON) : String :=
  String.mk (renderValue j)

/-- A member that is always written. -/
def member (key : String) (j : JSON) : List (String × JSON) :=
  [(key, j)]

/-- A string member tagged `omitempty`. -/
def omitEmptyString (key s : String) : List (String × JSON) :=
  if s = "" then [] else [(key, JSON.str s)]

/-- A slice member tagged `omitempty`: left out when the slice has no
element. -/
def omitEmptySlice {T : Type} (key : String) (enc : T → JSON) (xs : List T) : List (String × JSON) :=
  if xs.isEmpty then [] else [(key, JSON.arr (xs.map enc))]

/-- A `*bool` member tagged `omitempty`: left out when the pointer is nil. -/
def omitEmptyBoolPtr (key : String) (b : Option Bool) : List (String × JSON) :=
  match b with
  | none => []
  | some v => [(key, JSON.bool v)]

/-! ## Request shapes -/

/-- CreateAccountRequest defines the request to create an account. -/
structure CreateAccountRequest where
  Name : String
  Asset : String
  Secret : String
  SecretType : String
  Comment : String
deriving DecidableEq, Repr

/-- The tree `json.Marshal` writes for a `CreateAccountRequest`. -/
def CreateAccountRequest.toJSON (r : CreateAccountRequest) : JSON :=
  JSON.obj (member "username" (JSON.str r.Name) ++ member "asset" (JSON.str r.Asset)
    ++ member "secret" (JSON.str r.Secret) ++ member "secret_type" (JSON.str r.SecretType)
    ++ omitEmptyString "comment" r.Comment)

/-- UpdateAccountRequest defines the request to update an account. -/
structure UpdateAccountRequest where
  Name : String
  Secret : String
  SecretType : String
  Comment : String
deriving DecidableEq, Repr

/-- The tree `json.Marshal` writes for an `UpdateAccountRequest`. -/
def UpdateAccountRequest.toJSON (r : UpdateAccountRequest) : JSON :=
  JSON.obj (omitEmptyString "username" r.Name ++ omitEmptyString "secret" r.Secret
    ++ omitEmptyString "secret_type" r.SecretType ++ omitEmptyString "comment" r.Comment)

/-- PlatformRequest represents platform in request. -/
structure PlatformRequest where
  PK : Int
deriving DecidableEq, Repr

/-- The tree of a `PlatformRequest`. -/
def PlatformRequest.toJSON (r : PlatformRequest) : JSON :=
  JSON.obj (member "pk" (JSON.num (fmt_d r.PK)))

/-- NodeRequest represents node in request. -/
structure NodeRequest where
  PK : String
deriving DecidableEq, Repr

/-- The tree of a `NodeRequest`. -/
def NodeRequest.toJSON (r : NodeRequest) : JSON :=
  JSON.obj (member "pk" (JSON.str r.PK))

/-- Protocol represents a protocol configuration. -/
structure Protocol where
  Name : String
  Port : Int
deriving DecidableEq, Repr

/-- The tree of a `Protocol`. -/
def Protocol.toJSON (r : Protocol) : JSON :=
  JSON.obj (member "name" (JSON.str r.Name) ++ member "port" (JSON.num (fmt_d r.Port)))

/-- AssetAccount represents an asset account in create/update asset request. -/
structure AssetAccount where
  Name : String
  Username : String
  Secret : String
  SecretType : String
  Privileged : Bool
  PushNow : Bool
  SecretReset : Bool
  OnInvalid : String
  IsActive : Bool
deriving DecidableEq, Repr

/-- The tree of an `AssetAccount`. -/
def AssetAccount.toJSON (r : AssetAccount) : JSON :=
  JSON.obj (member "name" (JSON.str r.Name) ++ member "username" (JSON.str r.Username)
    ++ member "secret" (JSON.str r.Secret) ++ member "secret_type" (JSON.str r.SecretType)
    ++ member "privileged" (JSON.bool r.Privileged) ++ member "push_now" (JSON.bool r.PushNow)
    ++ member "secret_reset" (JSON.bool r.SecretReset) ++ member "on_invalid" (JSON.str r.OnInvalid)
    ++ member "is_active" (JSON.bool r.IsActive))

/-- CreateAssetRequest defines the request to create an asset. -/
structure CreateAssetRequest where
  Name : String
  Address : String
  Platform : PlatformRequest
  Nodes : List NodeRequest
  Protocols : List Protocol
  Accounts : List AssetAccount
  Labels : List String
  IsActive : Bool
  Comment : String
deriving DecidableEq, Repr

/-- The tree `json.Marshal` writes for a `CreateAssetRequest`. -/
def CreateAssetRequest.toJSON (r : CreateAssetRequest) : JSON :=
  JSON.obj (member "name" (JSON.str r.Name) ++ member "address" (JSON.str r.Address)
    ++ member "platform" r.Platform.toJSON
    ++ omitEmptySlice "nodes" NodeRequest.toJSON r.Nodes
    ++ omitEmptySlice "protocols" Protocol.toJSON r.Protocols
    ++ omitEmptySlice "accounts" AssetAccount.toJSON r.Accounts
    ++ omitEmptySlice "labels" JSON.str r.Labels
    ++ member "is_active" (JSON.bool r.IsActive) ++ omitEmptyString "comment" r.Comment)

/-- UpdateAssetRequest defines the request to update an asset. `IsActive` is
a `*bool`. -/
structure UpdateAssetRequest where
  Name : String
  Address : String
  Platform : PlatformRequest
  Nodes : List NodeRequest
  Protocols : List Protocol
  Accounts : List AssetAccount
  Labels : List String
  IsActive : Option Bool
  Comment : String
deriving DecidableEq, Repr

/-- The tree `json.Marshal` writes for an `UpdateAssetRequest`. The tag
`omitempty` on `platform` has no effect: a struct is never empty. -/
def UpdateAssetRequest.toJSON (r : UpdateAssetRequest) : JSON :=
  JSON.obj (omitEmptyString "name" r.Name ++ omitEmptyString "address" r.Address
    ++ member "platform" r.Platform.toJSON
    ++ omitEmptySlice "nodes" NodeRequest.toJSON r.Nodes
    ++ omitEmptySlice "protocols" Protocol.toJSON r.Protocols
    ++ omitEmptySlice "accounts" AssetAccount.toJSON r.Accounts
    ++ omitEmptySlice "labels" JSON.str r.Labels
    ++ omitEmptyBoolPtr "is_active" r.IsActive ++ omitEmptyString "comment" r.Comment)

/-- CreateUserRequest defines the request to create a user. -/
structure CreateUserRequest where
  Username : String
  Name : String
  Email : String
  Comment : String
  IsActive : Bool
deriving DecidableEq, Repr

/-- The tree `json.Marshal` writes for a `CreateUserRequest`. -/
def CreateUserRequest.toJSON (r : CreateUserRequest) : JSON :=
  JSON.obj (member "username" (JSON.str r.Username) ++ member "name" (JSON.str r.Name)
    ++ member "email" (JSON.str r.Email) ++ omitEmptyString "comment" r.Comment
    ++ member "is_active" (JSON.bool r.IsActive))

/-- UpdateUserRequest defines the request to update a user. `IsActive` is a
`*bool`. -/
structure UpdateUserRequest where
  Username : String
  Name : String
  Email : String
  Comment : String
  IsActive : Option Bool
deriving DecidableEq, Repr

/-- The tree `json.Marshal` writes for an `UpdateUserRequest`. -/
def UpdateUserRequest.toJSON (r : UpdateUserRequest) : JSON :=
  JSON.obj (omitEmptyString "username" r.Username ++ omitEmptyString "name" r.Name
    ++ omitEmptyString "email" r.Email ++ omitEmptyString "comment" r.Comment
    ++ omitEmptyBoolPtr "is_active" r.IsActive)

/-- UpdatePermissionRequest defines the request to update a permission. -/
structure UpdatePermissionRequest where
  Name : String
  Users : List String
  UserGroups : List String
  Assets : List String
  AssetGroups : List String
  Actions : List String
  Comment : String
deriving DecidableEq, Repr

/-- The tree `json.Marshal` writes for an `UpdatePermissionRequest`. -/
def UpdatePermissionRequest.toJSON (r : UpdatePermissionRequest) : JSON :=
  JSON.obj (omitEmptyString "name" r.Name ++ omitEmptySlice "users" JSON.str r.Users
    ++ omitEmptySlice "user_groups" JSON.str r.UserGroups
    ++ omitEmptySlice "assets" JSON.str r.Assets
    ++ omitEmptySlice "asset_groups" JSON.str r.AssetGroups
    ++ omitEmptySlice "actions" JSON.str r.Actions ++ omitEmptyString "comment" r.Comment)

/-- A slice member without `omitempty`: the nil slice (`none`) is written
`null`. -/
def sliceMember {T : Type} (key : String) (enc : T → JSON) (xs : Option (List T)) :
    List (String × JSON) :=
  match xs with
  | none => [(key, JSON.null)]
  | some l => [(key, JSON.arr (l.map enc))]

/-- CreatePermissionRequest defines the request to create a permission.
`Actions` has no `omitempty`: its nil slice is `none`. -/
structure CreatePermissionRequest where
  Name : String
  Users : List String
  UserGroups : List String
  Assets : List String
  AssetGroups : List String
  Actions : Option (List String)
  Comment : String
deriving DecidableEq, Repr

/-- The tree `json.Marshal` writes for a `CreatePermissionRequest`. -/
def CreatePermissionRequest.toJSON (r : CreatePermissionRequest) : JSON :=
  JSON.obj (member "name" (JSON.str r.Name) ++ omitEmptySlice "users" JSON.str r.Users
    ++ omitEmptySlice "user_groups" JSON.str r.UserGroups
    ++ omitEmptySlice "assets" JSON.str r.Assets
    ++ omitEmptySlice "asset_groups" JSON.str r.AssetGroups
    ++ sliceMember "actions" JSON.str r.Actions ++ omitEmptyString "comment" r.Comment)

/-- The request of a command submission. `Assets` and `Nodes` have no
`omitempty`: their nil slice is `none`. -/
structure CreateCommandExecutionRequest where
  Assets : Option (List String)
  Nodes : Option (List String)
  Module : String
  Args : String
  Runas : String
  RunasPolicy : String
  Instant : Bool
  IsPeriodic : Bool
  Timeout : Int
deriving DecidableEq, Repr

/-- The tree `json.Marshal` writes for a `CreateCommandExecutionRequest`. -/
def CreateCommandExecutionRequest.toJSON (r : CreateCommandExecutionRequest) : JSON :=
  JSON.obj (sliceMember "assets" JSON.str r.Assets ++ sliceMember "nodes" JSON.str r.Nodes
    ++ member "module" (JSON.str r.Module) ++ member "args" (JSON.str r.Args)
    ++ member "runas" (JSON.str r.Runas) ++ member "runas_policy" (JSON.str r.RunasPolicy)
    ++ member "instant" (JSON.bool r.Instant) ++ member "is_periodic" (JSON.bool r.IsPeriodic)
    ++ member "timeout" (JSON.num (fmt_d r.Timeout)))

/-- Go `json.Marshal` on a request whose tree is `j`: it cannot fail on the
request shapes of the client. -/
def json_Marshal (j : JSON) : Except String String :=
  Except.ok j.render

/-! ## Domain operations

An operation returns what the Go function returns, a nil pointer or slice
being `none` or the empty list, and the state it leaves. -/

/-- The destination `&result` of the account operations. -/
def accountDest : Dest Account :=
  { decode := Account.decode, typeName := "*jumpserver.Account" }

/-- Decoding into a `AccountListResponse`. -/
def AccountListResponse.decode (j : JSON) (x : ListResponse Account) : ListResponse Account × Option String :=
  ListResponse.decode "jumpserver.AccountListResponse" "jumpserver.Account" Account.zero Account.decode j x

/-- The destination `&result` of `ListAccounts`. -/
def accountListDest : Dest (ListResponse Account) :=
  { decode := AccountListResponse.decode, typeName := "*jumpserver.AccountListResponse" }

/-- The destination `&result` of the asset operations. -/
def assetDest : Dest Asset :=
  { decode := Asset.decode, typeName := "*jumpserver.Asset" }

/-- Decoding into a `AssetListResponse`. -/
def AssetListResponse.decode (j : JSON) (x : ListResponse Asset) : ListResponse Asset × Option String :=
  ListResponse.decode "jumpserver.AssetListResponse" "jumpserver.Asset" Asset.zero Asset.decode j x

/-- The destination `&result` of `ListAssets`. -/
def assetListDest : Dest (ListResponse Asset) :=
  { decode := AssetListResponse.decode, typeName := "*jumpserver.AssetListResponse" }

/-- The destination `&result` of the user operations. -/
def userDest : Dest User :=
  { decode := User.decode, typeName := "*jumpserver.User" }

/-- Decoding into a `UserListResponse`. -/
def UserListResponse.decode (j : JSON) (x : ListResponse User) : ListResponse User × Option String :=
  ListResponse.decode "jumpserver.UserListResponse" "jumpserver.User" User.zero User.decode j x

/-- The destination `&result` of `ListUsers`. -/
def userListDest : Dest (ListResponse User) :=
  { decode := UserListResponse.decode, typeName := "*jumpserver.UserListResponse" }

/-- The destination `&result` of the permission operations. -/
def permissionDest : Dest Permission :=
  { decode := Permission.decode, typeName := "*jumpserver.Permission" }

/-- Decoding into a `PermissionListResponse`. -/
def PermissionListResponse.decode (j : JSON) (x : ListResponse Permission) : ListResponse Permission × Option String :=
  ListResponse.decode "jumpserver.PermissionListResponse" "jumpserver.Permission" Permission.zero Permission.decode j x

/-- The destination `&result` of `ListPermissions`. -/
def permissionListDest : Dest (ListResponse Permission) :=
  { decode := PermissionListResponse.decode, typeName := "*jumpserver.PermissionListResponse" }

/-- CreateAccount creates a new account. -/
def CreateAccount (env : Env) (c : Client) (req : CreateAccountRequest) (st : St) : (Option Account × Option String) × St :=
  let ((err, result), st) := Post env c "/api/v1/accounts/accounts/" (some (json_Marshal req.toJSON)) accountDest (some Account.zero) st
  ((result, err), st)

/-- GetAccount retrieves an account by ID. -/
def GetAccount (env : Env) (c : Client) (id : String) (st : St) : (Option Account × Option String) × St :=
  let ((err, result), st) := Get env c ("/api/v1/accounts/accounts/" ++ id ++ "/") accountDest (some Account.zero) st
  ((result, err), st)

/-- ListAccounts retrieves a list of accounts. -/
def ListAccounts (env : Env) (c : Client) (assetID : String) (st : St) : (List Account × Option String) × St :=
  let path :=
    if assetID ≠ "" then "/api/v1/accounts/accounts/?asset=" ++ assetID
    else "/api/v1/accounts/accounts/"
  let ((err, result), st) := Get env c path accountListDest (some ListResponse.zero) st
  (((result.getD ListResponse.zero).Results, err), st)

/-- UpdateAccount updates an existing account. -/
def UpdateAccount (env : Env) (c : Client) (id : String) (req : UpdateAccountRequest) (st : St) : (Option Account × Option String) × St :=
  let ((err, result), st) := Put env c ("/api/v1/accounts/accounts/" ++ id ++ "/") (some (json_Marshal req.toJSON)) accountDest (some Account.zero) st
  ((result, err), st)

/-- CreateAsset creates a new asset. -/
def CreateAsset (env : Env) (c : Client) (req : CreateAssetRequest) (st : St) : (Option Asset × Option String) × St :=
  let ((err, result), st) := Post env c "/api/v1/assets/hosts/" (some (json_Marshal req.toJSON)) assetDest (some Asset.zero) st
  ((result, err), st)

/-- GetAsset retrieves an asset by ID. -/
def GetAsset (env : Env) (c : Client) (id : String) (st : St) : (Option Asset × Option String) × St :=
  let ((err, result), st) := Get env c ("/api/v1/assets/hosts/" ++ id ++ "/") assetDest (some Asset.zero) st
  ((result, err), st)

/-- ListAssets retrieves a list of assets. -/
def ListAssets (env : Env) (c : Client) (st : St) : (List Asset × Option String) × St :=
  let ((err, result), st) := Get env c "/api/v1/assets/hosts/" assetListDest (some ListResponse.zero) st
  (((result.getD ListResponse.zero).Results, err), st)

/-- UpdateAsset updates an existing asset. -/
def UpdateAsset (env : Env) (c : Client) (id : String) (req : UpdateAssetRequest) (st : St) : (Option Asset × Option String) × St :=
  let ((err, result), st) := Put env c ("/api/v1/assets/hosts/" ++ id ++ "/") (some (json_Marshal req.toJSON)) assetDest (some Asset.zero) st
  ((result, err), st)

/-- CreateUser creates a new user. -/
def CreateUser (env : Env) (c : Client) (req : CreateUserRequest) (st : St) : (Option User × Option String) × St :=
  let ((err, result), st) := Post env c "/api/v1/users/users/" (some (json_Marshal req.toJSON)) userDest (some User.zero) st
  ((result, err), st)

/-- GetUser retrieves a user by ID. -/
def GetUser (env : Env) (c : Client) (id : String) (st : St) : (Option User × Option String) × St :=
  let ((err, result), st) := Get env c ("/api/v1/users/users/" ++ id ++ "/") userDest (some User.zero) st
  ((result, err), st)

/-- ListUsers retrieves a list of users. -/
def ListUsers (env : Env) (c : Client) (st : St) : (List User × Option String) × St :=
  let ((err, result), st) := Get env c "/api/v1/users/users/" userListDest (some ListResponse.zero) st
  (((result.getD ListResponse.zero).Results, err), st)

/-- UpdateUser updates an existing user. -/
def UpdateUser (env : Env) (c : Client) (id : String) (req : UpdateUserRequest) (st : St) : (Option User × Option String) × St :=
  let ((err, result), st) := Put env c ("/api/v1/users/users/" ++ id ++ "/") (some (json_Marshal req.toJSON)) userDest (some User.zero) st
  ((result, err), st)

/-- GetPermission retrieves a permission by ID. -/
def GetPermission (env : Env) (c : Client) (id : String) (st : St) : (Option Permission × Option String) × St :=
  let ((err, result), st) := Get env c ("/api/v1/perms/asset-permissions/" ++ id ++ "/") permissionDest (some Permission.zero) st
  ((result, err), st)

/-- ListPermissions retrieves a list of permissions. -/
def ListPermissions (env : Env) (c : Client) (st : St) : (List Permission × Option String) × St :=
  let ((err, result), st) := Get env c "/api/v1/perms/asset-permissions/" permissionListDest (some ListResponse.zero) st
  (((result.getD ListResponse.zero).Results, err), st)

/-- UpdatePermission updates an existing permission. -/
def UpdatePermission (env : Env) (c : Client) (id : String) (req : UpdatePermissionRequest) (st : St) : (Option Permission × Option String) × St :=
  let ((err, result), st) := Put env c ("/api/v1/perms/asset-permissions/" ++ id ++ "/") (some (json_Marshal req.toJSON)) permissionDest (some Permission.zero) st
  ((result, err), st)

/-- Decoding into a `PlatformListResponse`. -/
def PlatformListResponse.decode (j : JSON) (x : ListResponse Platform) : ListResponse Platform × Option String :=
  ListResponse.decode "jumpserver.PlatformListResponse" "jumpserver.Platform" Platform.zero Platform.decode j x

/-- Decoding into a `[]Platform`. -/
def Platform.decodeArray (j : JSON) (x : List Platform) : List Platform × Option String :=
  decodeSlice "[]jumpserver.Platform" Platform.zero Platform.decode j x

/-- ListPlatforms retrieves a list of platforms: the raw bytes are tried as the
paginated response first and as a direct array if that fails. -/
def ListPlatforms (env : Env) (c : Client) (st : St) : (List Platform × Option String) × St :=
  match getRaw env c "/api/v1/assets/platforms/" st with
  | ((_, some err), st) => (([], some err), st)
  | ((resp, none), st) =>
      match json_Unmarshal PlatformListResponse.decode resp ListResponse.zero with
      | (paginated, none) => ((paginated.Results, none), st)
      | (_, some _) =>
          match json_Unmarshal Platform.decodeArray resp [] with
          | (_, some err) =>
              (([], some ("failed to unmarshal response as paginated or array: " ++ err)), st)
          | (platforms, none) => ((platforms, none), st)

/-- Decoding into a `NodeListResponse`. -/
def NodeListResponse.decode (j : JSON) (x : ListResponse Node) : ListResponse Node × Option String :=
  ListResponse.decode "jumpserver.NodeListResponse" "jumpserver.Node" Node.zero Node.decode j x

/-- Decoding into a `[]Node`. -/
def Node.decodeArray (j : JSON) (x : List Node) : List Node × Option String :=
  decodeSlice "[]jumpserver.Node" Node.zero Node.decode j x

/-- ListNodes retrieves a list of nodes: the raw bytes are tried as the
paginated response first and as a direct array if that fails. -/
def ListNodes (env : Env) (c : Client) (st : St) : (List Node × Option String) × St :=
  match getRaw env c "/api/v1/assets/nodes/" st with
  | ((_, some err), st) => (([], some err), st)
  | ((resp, none), st) =>
      match json_Unmarshal NodeListResponse.decode resp ListResponse.zero with
      | (paginated, none) => ((paginated.Results, none), st)
      | (_, some _) =>
          match json_Unmarshal Node.decodeArray resp [] with
          | (_, some err) =>
              (([], some ("failed to unmarshal response as paginated or array: " ++ err)), st)
          | (nodes, none) => ((nodes, none), st)

/-- The destination `&wrappedResult` of `CreatePermission`. -/
def permissionCreateDest : Dest PermissionCreateResponse :=
  { decode := PermissionCreateResponse.decode, typeName := "*jumpserver.PermissionCreateResponse" }

/-- CreatePermission creates a new permission: it posts and reads the direct
shape, and when that failed or carries no identifier it posts again and reads
the wrapped shape, copying the wrapper's identifier when it has one. -/
def CreatePermission (env : Env) (c : Client) (req : CreatePermissionRequest) (st : St) :
    (Option Permission × Option String) × St :=
  let ((err, directResult), st) := Post env c "/api/v1/perms/asset-permissions/"
    (some (json_Marshal req.toJSON)) permissionDest (some Permission.zero) st
  let directResult := directResult.getD Permission.zero
  if err = none ∧ directResult.ID ≠ "" then ((some directResult, none), st)
  else
    let ((err, wrappedResult), st) := Post env c "/api/v1/perms/asset-permissions/"
      (some (json_Marshal req.toJSON)) permissionCreateDest (some PermissionCreateResponse.zero) st
    match err with
    | some e => ((none, some e), st)
    | none =>
        let wrappedResult := wrappedResult.getD PermissionCreateResponse.zero
        let wrappedResult :=
          if wrappedResult.ID ≠ "" then
            { wrappedResult with Permission := { wrappedResult.Permission with ID := wrappedResult.ID } }
          else wrappedResult
        ((some wrappedResult.Permission, err), st)

/-- The destination `&result` of the command operations. -/
def commandDest : Dest CommandExecutionResponse :=
  { decode := CommandExecutionResponse.decode, typeName := "*jumpserver.CommandExecutionResponse" }

/-- CreateExecuteCommand submits a command. -/
def CreateExecuteCommand (env : Env) (c : Client) (req : CreateCommandExecutionRequest) (st : St) :
    (Option CommandExecutionResponse × Option String) × St :=
  let ((err, result), st) := Post env c "/api/v1/ops/jobs/" (some (json_Marshal req.toJSON))
    commandDest (some CommandExecutionResponse.zero) st
  ((result, err), st)

/-- GetCommandExecution reads the log of a submitted command. -/
def GetCommandExecution (env : Env) (c : Client) (id : String) (st : St) :
    (Option CommandExecutionResponse × Option String) × St :=
  let ((err, result), st) := Get env c
    ("/api/v1/ops/celery/task/00000000-0000-0000-0000-000000000002/task-execution/" ++ id ++ "/log/")
    commandDest (some CommandExecutionResponse.zero) st
  ((result, err), st)

/-- DeleteAccount deletes an account. -/
def DeleteAccount (env : Env) (c : Client) (id : String) (st : St) : Option String × St :=
  let ((err, _), st) := Delete env c ("/api/v1/accounts/accounts/" ++ id ++ "/") anyDest none st
  (err, st)

/-- DeleteAsset deletes an asset. -/
def DeleteAsset (env : Env) (c : Client) (id : String) (st : St) : Option String × St :=
  let ((err, _), st) := Delete env c ("/api/v1/assets/hosts/" ++ id ++ "/") anyDest none st
  (err, st)

/-- DeleteUser deletes a user. -/
def DeleteUser (env : Env) (c : Client) (id : String) (st : St) : Option String × St :=
  let ((err, _), st) := Delete env c ("/api/v1/users/users/" ++ id ++ "/") anyDest none st
  (err, st)

/-- DeletePermission deletes a permission. -/
def DeletePermission (env : Env) (c : Client) (id : String) (st : St) : Option String × St :=
  let ((err, _), st) := Delete env c ("/api/v1/perms/asset-permissions/" ++ id ++ "/") anyDest none st
  (err, st)

/-- GetPlatformByName retrieves a platform by name: the first platform of the
list whose name or display name is `name`. -/
def GetPlatformByName (env : Env) (c : Client) (name : String) (st : St) :
    (Option Platform × Option String) × St :=
  match ListPlatforms env c st with
  | ((_, some err), st) => ((none, some err), st)
  | ((platforms, none), st) =>
      match platforms.find? (fun p => p.Name == name || p.DisplayName == name) with
      | some p => ((some p, none), st)
      | none => ((none, some ("platform not found: " ++ name)), st)

/-- GetNodeByFullName retrieves a node by full name: the first node of the
list whose full name is `fullName`. -/
def GetNodeByFullName (env : Env) (c : Client) (fullName : String) (st : St) :
    (Option Node × Option String) × St :=
  match ListNodes env c st with
  | ((_, some err), st) => ((none, some err), st)
  | ((nodes, none), st) =>
      match nodes.find? (fun n => n.FullName == fullName) with
      | some n => ((some n, none), st)
      | none => ((none, some ("node not found: " ++ fullName)), st)

/-- GetUserByUsername retrieves a user by username: the first user of the
list whose username is `username`. -/
def GetUserByUsername (env : Env) (c : Client) (username : String) (st : St) :
    (Option User × Option String) × St :=
  match ListUsers env c st with
  | ((_, some err), st) => ((none, some err), st)
  | ((users, none), st) =>
      match users.find? (fun u => u.Username == username) with
      | some u => ((some u, none), st)
      | none => ((none, some ("user not found: " ++ username)), st)

/-! ## Polymorphic accessors -/

/-- GetSecretTypeValue returns the secret_type value as string. -/
def Account.GetSecretTypeValue (a : Account) : String :=
  match a.SecretType with
  | Any.str v => v
  | Any.map v =>
      match mapGet v "value" with
      | some (Any.str val) => val
      | _ => ""
  | _ => ""

/-- GetAssetID returns the asset ID as string. -/
def Account.GetAssetID (a : Account) : String :=
  match a.Asset with
  | Any.str v => v
  | Any.map v =>
      match mapGet v "id" with
      | some (Any.str id) => id
      | _ => ""
  | _ => ""

/-- GetTypeValue returns the type value as string. -/
def Platform.GetTypeValue (p : Platform) : String :=
  match p.Type_ with
  | Any.str v => v
  | Any.map v =>
      match mapGet v "value" with
      | some (Any.str val) => val
      | _ => ""
  | _ => ""

/-- GetCategoryValue returns the category value as string. -/
def Platform.GetCategoryValue (p : Platform) : String :=
  match p.Category with
  | Any.str v => v
  | Any.map v =>
      match mapGet v "value" with
      | some (Any.str val) => val
      | _ => ""
  | _ => ""

/-- The verb `%.0f` on a `float64`: the value rounded to an integer, ties to
even, with the sign of the value (a negative zero prints `-0`). -/
def fmt_f0 (f : Float64) : String :=
  match f with
  | Float64.nan => "NaN"
  | Float64.inf false => "+Inf"
  | Float64.inf true => "-Inf"
  | Float64.finite neg mant exp =>
      let n := if exp ≥ 0 then mant * 2 ^ exp.toNat else roundHalfEven mant (2 ^ (-exp).toNat)
      (if neg then "-" else "") ++ Nat.repr n

/-- GetID returns the platform ID as string. -/
def Platform.GetID (p : Platform) : String :=
  match p.ID with
  | Any.str v => v
  | Any.float64 v => fmt_f0 v
  | Any.int v => fmt_d v
  | _ => ""

/-- The loop shared by the three extractors of `Permission`: a string is
appended, an object appends its member `key` when that is a string, anything
else is passed over. -/
def extractStrings (key : String) : List Any → List String
  | [] => []
  | Any.str v :: rest => v :: extractStrings key rest
  | Any.map v :: rest =>
      match mapGet v key with
      | some (Any.str id) => id :: extractStrings key rest
      | _ => extractStrings key rest
  | _ :: rest => extractStrings key rest

/-- GetUserIDs extracts user IDs from users array. -/
def Permission.GetUserIDs (p : Permission) : List String :=
  extractStrings "id" p.Users

/-- GetAssetIDs extracts asset IDs from assets array. -/
def Permission.GetAssetIDs (p : Permission) : List String :=
  extractStrings "id" p.Assets

/-- GetActionValues extracts action values from actions array. -/
def Permission.GetActionValues (p : Permission) : List String :=
  extractStrings "value" p.Actions

/-! ## Scenarios

A concrete environment to run the client in: a fixed clock, a stand-in digest,
a URL splitter and a server that answers every request with one response. -/

/-- Drops the scheme and the host of an absolute URL. -/
def dropAuthority : List Char → List Char
  | ':' :: '/' :: '/' :: rest => rest.dropWhile (fun ch => ch != '/')
  | _ :: rest => dropAuthority rest
  | [] => []

/-- Splits a URL of the scenarios into its path and its query. -/
def scenarioParseURL (url : String) : Except String URL :=
  let rest := dropAuthority url.data
  Except.ok { Path := String.mk (rest.takeWhile (fun ch => ch != '?')),
              RawQuery := String.mk ((rest.dropWhile (fun ch => ch != '?')).drop 1) }

/-- The environment whose server answers `resp` to every request. -/
def scenarioEnv (resp : Response) : Env :=
  { now := fun _ => "Mon, 02 Jan 2006 15:04:05 GMT"
    hmacSha256 := fun _ _ => List.replicate 32 0
    parseURL := scenarioParseURL
    roundTrip := fun _ _ => Except.ok resp }

/-- The client of the scenarios. -/
def scenarioClient : Client :=
  NewClient { Endpoint := "https://jumpserver.example.com", KeyID := "key-1", KeySecret := "secret-1",
              OrgID := "", Timeout := 0, InsecureSkipVerify := false }

/-- A response with the given status and body, read in full. -/
def scenarioResponse (code : Int) (status body : String) : Response :=
  { StatusCode := code, Status := status, Header := [("Content-Type", ["application/json"])],
    Body := body, ReadErr := none }

/-! ## Vocabulary of the statements -/

/-- The rule of the specification for one polymorphic value: a string is
taken verbatim, an object yields its member `key` when that is a string, any
other value matches neither shape. -/
def polymorphicRule (key : String) (v : Any) : Option String :=
  match v with
  | Any.str s => some s
  | Any.map m =>
      match mapGet m key with
      | some (Any.str s) => some s
      | _ => none
  | _ => none

/-- The float `f` is the integer `n`: it is finite, its value is `n` and its
sign bit is set exactly when `n` is negative (what the conversion `float64(n)`
yields when `n` is representable). -/
def Float64.represents (f : Float64) (n : Int) : Prop :=
  match f with
  | Float64.finite neg mant exp =>
      (neg = true ↔ n < 0)
        ∧ (if exp ≥ 0 then mant * 2 ^ exp.toNat = n.natAbs
            else mant = n.natAbs * 2 ^ (-exp).toNat)
  | _ => False

/-- A decimal string with no fractional part: an optional minus sign followed
by one or more decimal digits and nothing else. -/
def isDecimalInteger (s : String) : Bool :=
  match s.data with
  | '-' :: ds => !ds.isEmpty && ds.all Char.isDigit
  | ds => !ds.isEmpty && ds.all Char.isDigit

/-- The environment whose server answers `first` to the first request handed to
the transport and `later` to every request after it. -/
def scenarioEnvSeq (first : Except String Response) (later : Response) : Env :=
  { now := fun _ => "Mon, 02 Jan 2006 15:04:05 GMT"
    hmacSha256 := fun _ _ => List.replicate 32 0
    parseURL := scenarioParseURL
    roundTrip := fun sent _ => if sent.isEmpty then first else Except.ok later }

/-- The requests one `DoRequest` hands to the transport: the signed request
when the body was marshalled and the request was built, none otherwise. -/
def DoRequest.requests (env : Env) (c : Client) (method path : String)
    (body : Option (Except String String)) (st : St) : List Request :=
  match body with
  | some (Except.error _) => []
  | _ =>
      match DoRequest.outgoing env c method path (payloadOf body) st with
      | Except.error _ => []
      | Except.ok req => [req]

/-! ## The asset resource (`internal/provider/resources`) -/

/-- Go `strconv.ParseInt(s, 10, 64)`: an optional sign, then decimal digits
only (no underscore in an explicit base), within the range of `int64`; `none`
for an error. -/
def strconv_ParseInt_base10 (s : List Char) : Option Int :=
  let (neg, ds) := match s with
    | '+' :: r => (false, r)
    | '-' :: r => (true, r)
    | _ => (false, s)
  if ds = [] ∨ ¬ ds.all Char.isDigit then none
  else
    let un := digitsVal ds
    if ¬ neg ∧ un ≥ 2 ^ 63 then none
    else if neg ∧ un > 2 ^ 63 then none
    else some (if neg then -(un : Int) else (un : Int))

/-- The spaces of `fmt` scanning (`isSpace`, over the table `space`). -/
def fmt_isSpace (r : Char) : Bool :=
  let n := r.toNat
  (0x09 ≤ n && n ≤ 0x0d) || n == 0x20 || n == 0x85 || n == 0xa0 || n == 0x1680
    || (0x2000 ≤ n && n ≤ 0x200a) || n == 0x2028 || n == 0x2029 || n == 0x202f || n == 0x205f
    || n == 0x3000

/-- The method `SkipSpace` of the scan state of `Sscanf`, which does not take a
newline for a space: the input left, or `none` for the error on a newline. -/
def ss_SkipSpace : List Char → Option (List Char)
  | [] => some []
  | r :: rest =>
      if r = '\r' ∧ rest.head? = some '\n' then ss_SkipSpace rest
      else if r = '\n' then none
      else if fmt_isSpace r then ss_SkipSpace rest
      else some (r :: rest)

/-- The characters `scanNumber` accepts for the verb `%d`: the decimal digits
and the underscore. -/
def decimalDigitsUnderscore : List Char := "0123456789_".data

/-- The method `scanInt` of the scan state for the verb `%d` and a destination
of `bitSize` bits: spaces are skipped, a sign is accepted, the token runs as far
as digits and underscores go, `strconv.ParseInt` reads it and the value must fit
the destination; `none` for an error. -/
def ss_scanInt (bitSize : Nat) (input : List Char) : Option Int :=
  match ss_SkipSpace input with
  | none => none
  | some input =>
    match input with
    | [] => none
    | r :: rest =>
      let (buf, input) := if "+-".data.contains r then ([r], rest) else ([], r :: rest)
      match input with
      | [] => none
      | d :: rest =>
        if ¬ decimalDigitsUnderscore.contains d then none
        else
          let tok := buf ++ d :: rest.takeWhile (fun x => decimalDigitsUnderscore.contains x)
          match strconv_ParseInt_base10 tok with
          | none => none
          | some i =>
            if -(2 : Int) ^ (bitSize - 1) ≤ i ∧ i < (2 : Int) ^ (bitSize - 1) then some i
            else none

/-- Go `fmt.Sscanf(str, "%d", &v)` for an `int` of `bitSize` bits: the integer
stored through the pointer, or `none` when `Sscanf` returns an error and stores
nothing. Input after the number is left unread. -/
def fmt_Sscanf_d (bitSize : Nat) (str : String) : Option Int :=
  match ss_SkipSpace str.data with
  | none => none
  | some input => ss_scanInt bitSize input

/-- AssetResourceModel describes the resource data model: each attribute as
`ValueString`, `ValueBool` and `ElementsAs` read it from the plan. -/
structure AssetResourceModel where
  ID : String
  Name : String
  Address : String
  Platform : String
  Nodes : List String
  IsActive : Bool
  Comment : String
deriving DecidableEq, Repr

/-- The local `platformID` of `AssetResource.Create` and `AssetResource.Update`:
1 by default, overwritten by what `fmt.Sscanf` stores; the error `Sscanf`
returns is dropped. -/
def AssetResource.platformID (bitSize : Nat) (plan : AssetResourceModel) : Int :=
  if plan.Platform ≠ "" then
    match fmt_Sscanf_d bitSize plan.Platform with
    | some n => n
    | none => 1
  else 1

/-- The request `AssetResource.Create` hands to `CreateAsset` (its local
`createReq`). -/
def AssetResource.createReq (bitSize : Nat) (plan : AssetResourceModel) : CreateAssetRequest :=
  { Name := plan.Name, Address := plan.Address,
    Platform := { PK := AssetResource.platformID bitSize plan },
    Nodes := plan.Nodes.map fun nodeID => { PK := nodeID },
    Protocols := [], Accounts := [], Labels := [],
    IsActive := plan.IsActive, Comment := plan.Comment }

/-- The request `AssetResource.Update` hands to `UpdateAsset` (its local
`updateReq`). -/
def AssetResource.updateReq (bitSize : Nat) (plan : AssetResourceModel) : UpdateAssetRequest :=
  { Name := plan.Name, Address := plan.Address,
    Platform := { PK := AssetResource.platformID bitSize plan },
    Nodes := plan.Nodes.map fun nodeID => { PK := nodeID },
    Protocols := [], Accounts := [], Labels := [],
    IsActive := some plan.IsActive, Comment := plan.Comment }

/-- A text that begins with a decimal integer: an optional sign, then a decimal
digit. -/
def startsInteger : List Char → Bool
  | '+' :: d :: _ => d.isDigit
  | '-' :: d :: _ => d.isDigit
  | d :: _ => d.isDigit
  | [] => false

/-- The lower-case form of a text as the specification means it for a request
method: each of the letters `A` to `Z` is replaced by the letter of the same
rank in `a` to `z`, every other character is kept. -/
def lowercaseASCII (s : String) : String :=
  String.mk (s.data.map fun ch =>
    "abcdefghijklmnopqrstuvwxyz".data.getD ("ABCDEFGHIJKLMNOPQRSTUVWXYZ".data.indexOf ch) ch)

/-! # Theorems -/

/-! ## Headers -/

theorem Header.lookup_put_same (h : Header) (k : String) (vs : List String) :
    (Header.put h k vs).lookup k = some vs := by
  induction h with
  | nil => simp [Header.put, List.lookup]
  | cons kv rest ih =>
      obtain ⟨k', v'⟩ := kv
      by_cases hk : k' = k
      · simp [Header.put, hk, List.lookup]
      · have hne : (k == k') = false := by
          simp only [beq_eq_false_iff_ne, ne_eq]
          exact fun h => hk h.symm
        simp [Header.put, hk, List.lookup, hne, ih]

theorem Header.lookup_put_other (h : Header) (k k' : String) (vs : List String) (hne : k' ≠ k) :
    (Header.put h k vs).lookup k' = h.lookup k' := by
  induction h with
  | nil =>
      have : (k' == k) = false := by simpa using hne
      simp [Header.put, List.lookup, this]
  | cons kv rest ih =>
      obtain ⟨k0, v0⟩ := kv
      by_cases hk : k0 = k
      · subst hk
        have : (k' == k0) = false := by simpa using hne
        simp [Header.put, List.lookup, this]
      · by_cases hk' : k' = k0
        · subst hk'
          simp [Header.put, hk, List.lookup]
        · have : (k' == k0) = false := by simpa using hk'
          simp [Header.put, hk, List.lookup, this, ih]

theorem Header.Get_Set_same (h : Header) (k v : String) : (h.Set k v).Get k = v := by
  simp [Header.Get, Header.Set, Header.lookup_put_same]

theorem Header.Get_Set_other (h : Header) (k k' v : String)
    (hne : CanonicalMIMEHeaderKey k' ≠ CanonicalMIMEHeaderKey k) :
    (h.Set k v).Get k' = h.Get k' := by
  simp [Header.Get, Header.Set, Header.lookup_put_other _ _ _ _ hne]


/-! ## The signer -/

/-- What `SignRequest` leaves in the Authorization header: the value built from
the key id and the encoded digest of the signing text. -/
theorem SignRequest_authorization (env : Env) (c : Client) (req : Request) (st : St) :
    (SignRequest env c req st).1.2.Header.Get "Authorization"
      = authHeader c.config.KeyID (base64_StdEncoding_EncodeToString
          (env.hmacSha256 c.config.KeySecret (stringToSign req (env.now st.ticks)))) := by
  have h1 : CanonicalMIMEHeaderKey "Authorization" ≠ CanonicalMIMEHeaderKey "X-JMS-ORG" := by decide
  unfold SignRequest
  by_cases ho : c.config.OrgID = ""
  · simp [ho, Header.Get_Set_same, stringToSign]
  · simp [ho, Header.Get_Set_same, Header.Get_Set_other _ _ _ _ h1, stringToSign]

/-- What `SignRequest` leaves in the Date header: the date it captured. -/
theorem SignRequest_date (env : Env) (c : Client) (req : Request) (st : St) :
    (SignRequest env c req st).1.2.Header.Get "Date" = env.now st.ticks := by
  have h1 : CanonicalMIMEHeaderKey "Date" ≠ CanonicalMIMEHeaderKey "X-JMS-ORG" := by decide
  have h2 : CanonicalMIMEHeaderKey "Date" ≠ CanonicalMIMEHeaderKey "Authorization" := by decide
  unfold SignRequest
  by_cases ho : c.config.OrgID = ""
  · simp [ho, Header.Get_Set_same, Header.Get_Set_other _ _ _ _ h2]
  · simp [ho, Header.Get_Set_same, Header.Get_Set_other _ _ _ _ h1, Header.Get_Set_other _ _ _ _ h2]

theorem toLower_ascii (ch : Char) (h : ch.toNat < 128) :
    Char.toLower ch
      = "abcdefghijklmnopqrstuvwxyz".data.getD ("ABCDEFGHIJKLMNOPQRSTUVWXYZ".data.indexOf ch) ch := by
  have hc : ch = Char.ofNat ch.toNat := by simp
  generalize ch.toNat = n at hc h
  subst hc
  interval_cases n <;> decide

/-- On a text of ASCII characters `strings_ToLower` is the lower-casing of the
specification. -/
theorem strings_ToLower_ascii (m : String) (h : ∀ ch ∈ m.data, ch.toNat < 128) :
    strings_ToLower m = lowercaseASCII m := by
  unfold strings_ToLower lowercaseASCII
  congr 1
  exact List.map_congr_left (fun ch hch => toLower_ascii ch (h ch hch))

/-- C1: for every method `m` of ASCII characters, every URL of path `p`
whatever its query `q`, and the date `d` the clock yields, the text handed to
the HMAC is `(request-target): `, the method with its letters `A` to `Z` in
lower case, a blank, `p`, a newline and `date: d`, the query absent from it:
the Authorization value carries the digest of exactly that text, and the Date
header is set to the same `d`. -/
theorem C1_signing_text (env : Env) (c : Client) (m p q : String) (hdr : Header)
    (body : Option String) (st : St) (hascii : ∀ ch ∈ m.data, ch.toNat < 128) :
    let req : Request := { Method := m, URL := { Path := p, RawQuery := q }, Header := hdr, Body := body }
    let d := env.now st.ticks
    let text := "(request-target): " ++ lowercaseASCII m ++ " " ++ p ++ "\n" ++ "date: " ++ d
    stringToSign req d = text
      ∧ (SignRequest env c req st).1.2.Header.Get "Authorization"
          = authHeader c.config.KeyID
              (base64_StdEncoding_EncodeToString (env.hmacSha256 c.config.KeySecret text))
      ∧ (SignRequest env c req st).1.2.Header.Get "Date" = d := by
  intro req d text
  have ht : stringToSign req d = text := by
    simp only [stringToSign, text, req, strings_ToLower_ascii m hascii]
    simp [String.append_assoc]
  refine ⟨ht, ?_, SignRequest_date env c req st⟩
  rw [SignRequest_authorization, ht]

/-- The scenario of C1: the request `GET /api/v1/users/users/?limit=10` at the
date `Mon, 02 Jan 2006 15:04:05 GMT` is signed over the text
`(request-target): get /api/v1/users/users/`, a newline and
`date: Mon, 02 Jan 2006 15:04:05 GMT`, and carries that date in its Date
header. -/
theorem C1_get_users_scenario :
    stringToSign
        { Method := "GET", URL := { Path := "/api/v1/users/users/", RawQuery := "limit=10" },
          Header := [], Body := none } "Mon, 02 Jan 2006 15:04:05 GMT"
      = "(request-target): get /api/v1/users/users/\ndate: Mon, 02 Jan 2006 15:04:05 GMT"
    ∧ (SignRequest (scenarioEnv (scenarioResponse 200 "200 OK" "")) scenarioClient
        { Method := "GET", URL := { Path := "/api/v1/users/users/", RawQuery := "limit=10" },
          Header := [], Body := none } St.init).1.2.Header.Get "Authorization"
      = authHeader "key-1" (base64_StdEncoding_EncodeToString
          ((scenarioEnv (scenarioResponse 200 "200 OK" "")).hmacSha256 "secret-1"
            "(request-target): get /api/v1/users/users/\ndate: Mon, 02 Jan 2006 15:04:05 GMT"))
    ∧ (SignRequest (scenarioEnv (scenarioResponse 200 "200 OK" "")) scenarioClient
        { Method := "GET", URL := { Path := "/api/v1/users/users/", RawQuery := "limit=10" },
          Header := [], Body := none } St.init).1.2.Header.Get "Date"
      = "Mon, 02 Jan 2006 15:04:05 GMT" :=
  have h := C1_signing_text (scenarioEnv (scenarioResponse 200 "200 OK" "")) scenarioClient
    "GET" "/api/v1/users/users/" "limit=10" [] none St.init (by decide)
  ⟨h.1.trans (by decide), h.2.1.trans (by decide), h.2.2⟩

/-- C2: for every key id, key secret and signing text, the Authorization header
`SignRequest` sets is `Signature keyId="k",algorithm="hmac-sha256",
headers="(request-target) date",signature="b"`, with `b` the standard base64
encoding of the HMAC-SHA256 digest of the signing text keyed by the secret. -/
theorem C2_authorization_header (env : Env) (c : Client) (req : Request) (st : St) :
    (SignRequest env c req st).1.2.Header.Get "Authorization"
      = "Signature keyId=\"" ++ c.config.KeyID
          ++ "\",algorithm=\"hmac-sha256\",headers=\"(request-target) date\",signature=\""
          ++ base64_StdEncoding_EncodeToString
              (env.hmacSha256 c.config.KeySecret (stringToSign req (env.now st.ticks)))
          ++ "\"" := by
  rw [SignRequest_authorization]
  rfl

/-! ## The transport -/

@[simp]
theorem St.print_ticks (st : St) (t : String) : (st.print t).ticks = st.ticks := rfl
@[simp]
theorem St.print_sent (st : St) (t : String) : (st.print t).sent = st.sent := rfl
@[simp]
theorem St.printAll_ticks (st : St) (ts : List String) : (st.printAll ts).ticks = st.ticks := rfl
@[simp]
theorem St.printAll_sent (st : St) (ts : List String) : (st.printAll ts).sent = st.sent := rfl

theorem SignRequest_eq (env : Env) (c : Client) (req : Request) (st : St) :
    SignRequest env c req st
      = ((none, (SignRequest env c req st).1.2), { st with ticks := st.ticks + 1 }) := by
  rfl

theorem SignRequest_request_congr (env : Env) (c : Client) (req : Request) (st st' : St)
    (h : st.ticks = st'.ticks) :
    (SignRequest env c req st).1.2 = (SignRequest env c req st').1.2 := by
  simp [SignRequest, h]

/-- The tail of `DoRequest` once the request is signed, as far as the returned
pair goes. -/
theorem DoRequest_tail {T : Type} (D : Dest T) (result : Option T) (resp : Response) (st : St) :
    (if resp.StatusCode < 200 ∨ resp.StatusCode ≥ 300 then
        ((some ("API request failed with status " ++ fmt_d resp.StatusCode ++ ": " ++ resp.Body),
          result), st)
      else
        match result with
        | some dest =>
            match json_Unmarshal D.decode resp.Body dest with
            | (dest, some err) =>
                ((some ("failed to unmarshal response: " ++ err), some dest),
                  st.print ("[DEBUG] [CLIENT] Failed to unmarshal response: " ++ err ++ "\n"))
            | (dest, none) =>
                ((none, some dest),
                  { st with console := st.console ++ [Output.result D.typeName] })
        | none => ((none, none), st)).1 = DoRequest.settle D result resp := by
  unfold DoRequest.settle
  by_cases hs : resp.StatusCode < 200 ∨ resp.StatusCode ≥ 300
  · simp only [hs, if_true]
  · simp only [hs, if_false]
    cases result with
    | none => rfl
    | some dest =>
        simp only []
        cases hU : json_Unmarshal D.decode resp.Body dest with
        | mk d e =>
            cases e with
            | none => rfl
            | some err => rfl

theorem DoRequest_fst {T : Type} (env : Env) (c : Client) (method path : String)
    (body : Option (Except String String)) (D : Dest T) (result : Option T) (st : St) :
    (DoRequest env c method path body D result st).1
      = DoRequest.outcome env c method path body D result st := by
  unfold DoRequest DoRequest.outcome DoRequest.outgoing
  cases body with
  | none =>
      simp only [payloadOf, Option.isSome_none]
      cases hnr : http_NewRequest env method (c.config.Endpoint ++ path) none with
      | error e => rfl
      | ok r =>
          simp only []
          rw [SignRequest_eq]
          simp only [St.print_ticks, St.print_sent, St.printAll_ticks, St.printAll_sent]
          rw [SignRequest_request_congr env c _ _ st (by simp)]
          simp only [Bool.false_eq_true, if_false]
          cases hrt : env.roundTrip st.sent (SignRequest env c r st).1.2 with
          | error e => rfl
          | ok resp =>
              simp only []
              cases hre : resp.ReadErr with
              | some e => rfl
              | none =>
                  simp only []
                  exact DoRequest_tail D result resp _
  | some b =>
      cases b with
      | error e => rfl
      | ok data =>
          simp only [payloadOf, Option.isSome_some]
          cases hnr : http_NewRequest env method (c.config.Endpoint ++ path) (some data) with
          | error e => rfl
          | ok r =>
              simp only []
              rw [SignRequest_eq]
              simp only [St.print_ticks, St.print_sent, St.printAll_ticks, St.printAll_sent]
              rw [SignRequest_request_congr env c _ _ st (by simp)]
              simp only [if_true]
              cases hrt : env.roundTrip st.sent (SignRequest env c
                  { r with Header := r.Header.Set "Content-Type" "application/json" } st).1.2 with
              | error e => rfl
              | ok resp =>
                  simp only []
                  cases hre : resp.ReadErr with
                  | some e => rfl
                  | none =>
                      simp only []
                      exact DoRequest_tail D result resp _

theorem payloadOf_map_ok (payload : Option String) : payloadOf (payload.map Except.ok) = payload := by
  cases payload <;> rfl

theorem DoRequest_of_response {T : Type} (env : Env) (c : Client) (method path : String)
    (payload : Option String) (D : Dest T) (result : Option T) (st : St)
    (req : Request) (resp : Response)
    (hreq : DoRequest.outgoing env c method path payload st = Except.ok req)
    (hresp : env.roundTrip st.sent req = Except.ok resp)
    (hread : resp.ReadErr = none) :
    (DoRequest env c method path (payload.map Except.ok) D result st).1
      = DoRequest.settle D result resp := by
  rw [DoRequest_fst]
  unfold DoRequest.outcome
  rw [payloadOf_map_ok]
  cases payload with
  | none => simp [hreq, hresp, hread]
  | some data => simp [hreq, hresp, hread]

theorem strings_Contains_middle (a b c : String) : strings_Contains (a ++ b ++ c) b := by
  refine ⟨a.data, c.data, ?_⟩
  simp [String.data_append]

theorem strings_Contains_suffix (a b : String) : strings_Contains (a ++ b) b := by
  refine ⟨a.data, [], ?_⟩
  simp [String.data_append]

/-- C3: when the exchange yields a response whose status lies outside
[200,300), whatever its body, `DoRequest` returns an error whose message holds
the decimal status code and the raw body text, and the destination is left as
it was. -/
theorem C3_non2xx_is_api_error {T : Type} (env : Env) (c : Client) (method path : String)
    (payload : Option String) (D : Dest T) (result : Option T) (st : St)
    (req : Request) (resp : Response)
    (hreq : DoRequest.outgoing env c method path payload st = Except.ok req)
    (hresp : env.roundTrip st.sent req = Except.ok resp)
    (hread : resp.ReadErr = none)
    (hstatus : resp.StatusCode < 200 ∨ resp.StatusCode ≥ 300) :
    ∃ msg : String,
      (DoRequest env c method path (payload.map Except.ok) D result st).1 = (some msg, result)
        ∧ msg = "API request failed with status " ++ fmt_d resp.StatusCode ++ ": " ++ resp.Body
        ∧ strings_Contains msg (fmt_d resp.StatusCode)
        ∧ strings_Contains msg resp.Body := by
  refine ⟨_, ?_, rfl, ?_, ?_⟩
  · rw [DoRequest_of_response env c method path payload D result st req resp hreq hresp hread]
    simp [DoRequest.settle, hstatus]
  · rw [String.append_assoc]
    exact strings_Contains_middle _ _ _
  · exact strings_Contains_suffix _ _

/-- The 404 scenario of C3: the server answers 404 with the body
`{"detail":"not found"}`; the error holds `404` and that body and the
destination stays the zero account. -/
theorem C3_not_found_scenario :
    ∃ msg : String,
      (DoRequest (scenarioEnv (scenarioResponse 404 "404 Not Found" "\x7b\"detail\":\"not found\"\x7d"))
          scenarioClient "GET" "/api/v1/accounts/accounts/acct-1/" none accountDest
          (some Account.zero) St.init).1 = (some msg, some Account.zero)
        ∧ msg = "API request failed with status 404: \x7b\"detail\":\"not found\"\x7d"
        ∧ strings_Contains msg "404"
        ∧ strings_Contains msg "\x7b\"detail\":\"not found\"\x7d" :=
  C3_non2xx_is_api_error (scenarioEnv (scenarioResponse 404 "404 Not Found" "\x7b\"detail\":\"not found\"\x7d"))
    scenarioClient "GET" "/api/v1/accounts/accounts/acct-1/" none accountDest (some Account.zero)
    St.init _ (scenarioResponse 404 "404 Not Found" "\x7b\"detail\":\"not found\"\x7d")
    rfl rfl rfl (by decide)

/-- C4: when the exchange yields a response with status in [200,300) and a
destination was supplied, `DoRequest` returns no error exactly when
`json.Unmarshal` accepts the body for the destination, the destination then
holding the decoded value; otherwise it fails with the decode error. -/
theorem C4_2xx_decodes_or_fails {T : Type} (env : Env) (c : Client) (method path : String)
    (payload : Option String) (D : Dest T) (dest : T) (st : St)
    (req : Request) (resp : Response)
    (hreq : DoRequest.outgoing env c method path payload st = Except.ok req)
    (hresp : env.roundTrip st.sent req = Except.ok resp)
    (hread : resp.ReadErr = none)
    (hstatus : 200 ≤ resp.StatusCode ∧ resp.StatusCode < 300) :
    ((DoRequest env c method path (payload.map Except.ok) D (some dest) st).1.1 = none
        ↔ (json_Unmarshal D.decode resp.Body dest).2 = none)
      ∧ (DoRequest env c method path (payload.map Except.ok) D (some dest) st).1.2
          = some (json_Unmarshal D.decode resp.Body dest).1
      ∧ (∀ err, (json_Unmarshal D.decode resp.Body dest).2 = some err →
          (DoRequest env c method path (payload.map Except.ok) D (some dest) st).1.1
            = some ("failed to unmarshal response: " ++ err)) := by
  have hs : ¬ (resp.StatusCode < 200 ∨ resp.StatusCode ≥ 300) := by omega
  rw [DoRequest_of_response env c method path payload D (some dest) st req resp hreq hresp hread]
  simp only [DoRequest.settle, hs, if_false]
  cases hU : json_Unmarshal D.decode resp.Body dest with
  | mk d e =>
      cases e with
      | none => simp
      | some err => simp

/-- The account scenario of C4: the server answers 200 with an account
object; `DoRequest` returns no error and the destination holds the decoded
account. -/
theorem C4_account_scenario :
    ((DoRequest (scenarioEnv (scenarioResponse 200 "200 OK"
          "\x7b\"id\":\"acct-1\",\"username\":\"bob\",\"asset\":\x7b\"id\":\"asset-1\"\x7d\x7d"))
        scenarioClient "GET" "/api/v1/accounts/accounts/acct-1/" none accountDest
        (some Account.zero) St.init).1.1 = none
      ↔ (json_Unmarshal Account.decode
          "\x7b\"id\":\"acct-1\",\"username\":\"bob\",\"asset\":\x7b\"id\":\"asset-1\"\x7d\x7d" Account.zero).2
          = none)
    ∧ (DoRequest (scenarioEnv (scenarioResponse 200 "200 OK"
          "\x7b\"id\":\"acct-1\",\"username\":\"bob\",\"asset\":\x7b\"id\":\"asset-1\"\x7d\x7d"))
        scenarioClient "GET" "/api/v1/accounts/accounts/acct-1/" none accountDest
        (some Account.zero) St.init).1.2
        = some { Account.zero with ID := "acct-1", Name := "bob",
                                   Asset := Any.map [("id", Any.str "asset-1")] } :=
  have h := C4_2xx_decodes_or_fails (scenarioEnv (scenarioResponse 200 "200 OK"
      "\x7b\"id\":\"acct-1\",\"username\":\"bob\",\"asset\":\x7b\"id\":\"asset-1\"\x7d\x7d"))
    scenarioClient "GET" "/api/v1/accounts/accounts/acct-1/" none accountDest Account.zero
    St.init _ (scenarioResponse 200 "200 OK"
      "\x7b\"id\":\"acct-1\",\"username\":\"bob\",\"asset\":\x7b\"id\":\"asset-1\"\x7d\x7d")
    rfl rfl rfl (by decide)
  ⟨h.1, h.2.1.trans (by decide)⟩

/-- C5, the code at the failing input: the server answers 200 with
`{"id":"acct-1","username":5}`. `GetAccount` returns the decode error together
with an account whose `ID` was stored from the response, an entity that is not
the zero value. The siblings return no entity with their error: `CreatePermission`
on the answer `{"id":"p1","name":5}`, and `GetUserByUsername` on a list whose
element has a mistyped member. -/
theorem C5_half_decoded_entity_with_error :
    (GetAccount (scenarioEnv (scenarioResponse 200 "200 OK" "\x7b\"id\":\"acct-1\",\"username\":5\x7d"))
        scenarioClient "acct-1" St.init).1.1 = some { Account.zero with ID := "acct-1" }
    ∧ (GetAccount (scenarioEnv (scenarioResponse 200 "200 OK" "\x7b\"id\":\"acct-1\",\"username\":5\x7d"))
        scenarioClient "acct-1" St.init).1.2.isSome = true
    ∧ (some { Account.zero with ID := "acct-1" } : Option Account) ≠ some Account.zero
    ∧ (CreatePermission (scenarioEnv (scenarioResponse 200 "200 OK" "\x7b\"id\":\"p1\",\"name\":5\x7d"))
        scenarioClient
        { Name := "ops", Users := ["u1"], UserGroups := [], Assets := ["a1"], AssetGroups := [],
          Actions := some ["connect"], Comment := "" } St.init).1.1 = none
    ∧ (CreatePermission (scenarioEnv (scenarioResponse 200 "200 OK" "\x7b\"id\":\"p1\",\"name\":5\x7d"))
        scenarioClient
        { Name := "ops", Users := ["u1"], UserGroups := [], Assets := ["a1"], AssetGroups := [],
          Actions := some ["connect"], Comment := "" } St.init).1.2.isSome = true
    ∧ (GetUserByUsername (scenarioEnv (scenarioResponse 200 "200 OK"
          "\x7b\"count\":1,\"results\":[\x7b\"id\":\"u1\",\"username\":5\x7d]\x7d"))
        scenarioClient "bob" St.init).1.1 = none
    ∧ (GetUserByUsername (scenarioEnv (scenarioResponse 200 "200 OK"
          "\x7b\"count\":1,\"results\":[\x7b\"id\":\"u1\",\"username\":5\x7d]\x7d"))
        scenarioClient "bob" St.init).1.2.isSome = true := by
  refine ⟨?_, ?_, ?_, ?_, ?_, ?_, ?_⟩ <;> decide

/-! ## The list decoders -/

theorem decodeElems_fst {T : Type} (zero : T) (dec : JSON → T → T × Option String)
    (js : List JSON) :
    (decodeElems zero dec js []).1 = js.map (fun j => (dec j zero).1) := by
  induction js with
  | nil => rfl
  | cons j js ih => simp [decodeElems, ih]

theorem decodeElems_snd_none {T : Type} (zero : T) (dec : JSON → T → T × Option String)
    (js : List JSON) (h : ∀ j ∈ js, (dec j zero).2 = none) :
    (decodeElems zero dec js []).2 = none := by
  induction js with
  | nil => rfl
  | cons j js ih =>
      have h1 : (dec j zero).2 = none := h j (List.mem_cons_self _ _)
      have h2 : (decodeElems zero dec js []).2 = none :=
        ih (fun k hk => h k (List.mem_cons_of_mem _ hk))
      simp [decodeElems, firstError, h1, h2]

/-- C6: when the body the list request obtains decodes as the paginated
envelope, `ListPlatforms` and `ListNodes` return the envelope's `results`, in
order, whatever the bare-array decoding of that body would give; the body
`{"count":2,"results":[{"id":"a"},{"id":"b"}]}` yields the elements `a` and
`b`. -/
theorem C6_envelope_results (env : Env) (c : Client) (st stp stn : St) (body : String)
    (pp : ListResponse Platform) (pn : ListResponse Node) :
    (getRaw env c "/api/v1/assets/platforms/" st = ((body, none), stp) →
      json_Unmarshal PlatformListResponse.decode body ListResponse.zero = (pp, none) →
      ListPlatforms env c st = ((pp.Results, none), stp))
    ∧ (getRaw env c "/api/v1/assets/nodes/" st = ((body, none), stn) →
      json_Unmarshal NodeListResponse.decode body ListResponse.zero = (pn, none) →
      ListNodes env c st = ((pn.Results, none), stn)) := by
  constructor
  · intro hraw hdec
    simp [ListPlatforms, hraw, hdec]
  · intro hraw hdec
    simp [ListNodes, hraw, hdec]

/-- The envelope scenario of C6: the server answers
`{"count":2,"results":[{"id":"a"},{"id":"b"}]}` and both list operations
return the two elements with ids `a` and `b`. -/
theorem C6_envelope_scenario :
    (ListPlatforms (scenarioEnv (scenarioResponse 200 "200 OK"
        "\x7b\"count\":2,\"results\":[\x7b\"id\":\"a\"\x7d,\x7b\"id\":\"b\"\x7d]\x7d")) scenarioClient St.init).1
      = ([{ Platform.zero with ID := Any.str "a" }, { Platform.zero with ID := Any.str "b" }], none)
    ∧ (ListNodes (scenarioEnv (scenarioResponse 200 "200 OK"
        "\x7b\"count\":2,\"results\":[\x7b\"id\":\"a\"\x7d,\x7b\"id\":\"b\"\x7d]\x7d")) scenarioClient St.init).1
      = ([{ Node.zero with ID := "a" }, { Node.zero with ID := "b" }], none) :=
  have h := C6_envelope_results (scenarioEnv (scenarioResponse 200 "200 OK"
      "\x7b\"count\":2,\"results\":[\x7b\"id\":\"a\"\x7d,\x7b\"id\":\"b\"\x7d]\x7d")) scenarioClient St.init
    _ _ "\x7b\"count\":2,\"results\":[\x7b\"id\":\"a\"\x7d,\x7b\"id\":\"b\"\x7d]\x7d"
    { Count := 2, Next := none, Previous := none,
      Results := [{ Platform.zero with ID := Any.str "a" }, { Platform.zero with ID := Any.str "b" }] }
    { Count := 2, Next := none, Previous := none,
      Results := [{ Node.zero with ID := "a" }, { Node.zero with ID := "b" }] }
  ⟨congrArg Prod.fst (h.1 rfl (by decide)), congrArg Prod.fst (h.2 rfl (by decide))⟩

theorem decodeSlice_arr {T : Type} (type : String) (zero : T) (dec : JSON → T → T × Option String)
    (elems : List JSON) (h : ∀ j ∈ elems, (dec j zero).2 = none) :
    decodeSlice type zero dec (JSON.arr elems) []
      = (elems.map (fun j => (dec j zero).1), none) := by
  have h1 := decodeElems_fst zero dec elems
  have h2 := decodeElems_snd_none zero dec elems h
  simp only [decodeSlice]
  exact Prod.ext h1 h2

/-- C7: when the body the list request obtains is a JSON array whose elements
decode as elements, the envelope attempt fails on it and `ListPlatforms` and
`ListNodes` return the array's elements, each decoded into a fresh element, in
the array's order; the body `[{"id":"a"}]` yields the single element `a`. -/
theorem C7_bare_array_elements (env : Env) (c : Client) (st stp stn : St) (body : String)
    (elems : List JSON) (hparse : JSON.parse body = some (JSON.arr elems)) :
    (getRaw env c "/api/v1/assets/platforms/" st = ((body, none), stp) →
      (∀ j ∈ elems, (Platform.decode j Platform.zero).2 = none) →
      (json_Unmarshal PlatformListResponse.decode body ListResponse.zero).2 ≠ none
        ∧ ListPlatforms env c st
            = ((elems.map (fun j => (Platform.decode j Platform.zero).1), none), stp))
    ∧ (getRaw env c "/api/v1/assets/nodes/" st = ((body, none), stn) →
      (∀ j ∈ elems, (Node.decode j Node.zero).2 = none) →
      (json_Unmarshal NodeListResponse.decode body ListResponse.zero).2 ≠ none
        ∧ ListNodes env c st = ((elems.map (fun j => (Node.decode j Node.zero).1), none), stn)) := by
  constructor
  · intro hraw helems
    have henv : json_Unmarshal PlatformListResponse.decode body ListResponse.zero
        = (ListResponse.zero, some (typeError "array" "jumpserver.PlatformListResponse")) := by
      simp [json_Unmarshal, hparse, PlatformListResponse.decode, ListResponse.decode, decodeStruct,
        JSON.kindName]
    have harr : json_Unmarshal Platform.decodeArray body []
        = (elems.map (fun j => (Platform.decode j Platform.zero).1), none) := by
      simp only [json_Unmarshal, hparse, Platform.decodeArray]
      exact decodeSlice_arr _ _ _ _ helems
    refine ⟨by simp [henv], ?_⟩
    simp [ListPlatforms, hraw, henv, harr]
  · intro hraw helems
    have henv : json_Unmarshal NodeListResponse.decode body ListResponse.zero
        = (ListResponse.zero, some (typeError "array" "jumpserver.NodeListResponse")) := by
      simp [json_Unmarshal, hparse, NodeListResponse.decode, ListResponse.decode, decodeStruct,
        JSON.kindName]
    have harr : json_Unmarshal Node.decodeArray body []
        = (elems.map (fun j => (Node.decode j Node.zero).1), none) := by
      simp only [json_Unmarshal, hparse, Node.decodeArray]
      exact decodeSlice_arr _ _ _ _ helems
    refine ⟨by simp [henv], ?_⟩
    simp [ListNodes, hraw, henv, harr]

/-- The bare-array scenario of C7: the server answers `[{"id":"a"}]` and both
list operations return the single element with id `a`. -/
theorem C7_bare_array_scenario :
    (ListPlatforms (scenarioEnv (scenarioResponse 200 "200 OK" "[\x7b\"id\":\"a\"\x7d]"))
        scenarioClient St.init).1 = ([{ Platform.zero with ID := Any.str "a" }], none)
    ∧ (ListNodes (scenarioEnv (scenarioResponse 200 "200 OK" "[\x7b\"id\":\"a\"\x7d]"))
        scenarioClient St.init).1 = ([{ Node.zero with ID := "a" }], none) :=
  have h := C7_bare_array_elements (scenarioEnv (scenarioResponse 200 "200 OK" "[\x7b\"id\":\"a\"\x7d]"))
    scenarioClient St.init _ _ "[\x7b\"id\":\"a\"\x7d]" [JSON.obj [("id", JSON.str "a")]] (by decide)
  ⟨(congrArg Prod.fst (h.1 rfl (by decide)).2).trans (by decide),
    (congrArg Prod.fst (h.2 rfl (by decide)).2).trans (by decide)⟩

/-- C8: when the body the list request obtains decodes neither as the
envelope nor as an array of elements, `ListPlatforms` and `ListNodes` return no
element and an error whose message names both attempted shapes, `paginated`
and `array`. -/
theorem C8_neither_shape_fails (env : Env) (c : Client) (st stp stn : St) (body : String) :
    (getRaw env c "/api/v1/assets/platforms/" st = ((body, none), stp) →
      (json_Unmarshal PlatformListResponse.decode body ListResponse.zero).2 ≠ none →
      (json_Unmarshal Platform.decodeArray body []).2 ≠ none →
      ∃ msg, ListPlatforms env c st = (([], some msg), stp)
        ∧ strings_Contains msg "paginated" ∧ strings_Contains msg "array")
    ∧ (getRaw env c "/api/v1/assets/nodes/" st = ((body, none), stn) →
      (json_Unmarshal NodeListResponse.decode body ListResponse.zero).2 ≠ none →
      (json_Unmarshal Node.decodeArray body []).2 ≠ none →
      ∃ msg, ListNodes env c st = (([], some msg), stn)
        ∧ strings_Contains msg "paginated" ∧ strings_Contains msg "array") := by
  have hp : ∀ e : String, strings_Contains
      ("failed to unmarshal response as paginated or array: " ++ e) "paginated" := by
    intro e
    refine ⟨"failed to unmarshal response as ".data, " or array: ".data ++ e.data, ?_⟩
    simp [String.data_append]
  have ha : ∀ e : String, strings_Contains
      ("failed to unmarshal response as paginated or array: " ++ e) "array" := by
    intro e
    refine ⟨"failed to unmarshal response as paginated or ".data, ": ".data ++ e.data, ?_⟩
    simp [String.data_append]
  constructor
  · intro hraw h1 h2
    cases hE : json_Unmarshal PlatformListResponse.decode body ListResponse.zero with
    | mk p e1 =>
      cases hA : json_Unmarshal Platform.decodeArray body [] with
      | mk xs e2 =>
        cases e1 with
        | none => simp [hE] at h1
        | some e1 =>
          cases e2 with
          | none => simp [hA] at h2
          | some e2 =>
            refine ⟨_, ?_, hp e2, ha e2⟩
            simp [ListPlatforms, hraw, hE, hA]
  · intro hraw h1 h2
    cases hE : json_Unmarshal NodeListResponse.decode body ListResponse.zero with
    | mk p e1 =>
      cases hA : json_Unmarshal Node.decodeArray body [] with
      | mk xs e2 =>
        cases e1 with
        | none => simp [hE] at h1
        | some e1 =>
          cases e2 with
          | none => simp [hA] at h2
          | some e2 =>
            refine ⟨_, ?_, hp e2, ha e2⟩
            simp [ListNodes, hraw, hE, hA]

/-- The scenario of C8: the server answers the JSON string `"not json"`; both
list operations return no element and an error naming both shapes. -/
theorem C8_not_json_scenario :
    (∃ msg, ListPlatforms (scenarioEnv (scenarioResponse 200 "200 OK" "\"not json\""))
          scenarioClient St.init
        = (([], some msg), (getRaw (scenarioEnv (scenarioResponse 200 "200 OK" "\"not json\""))
            scenarioClient "/api/v1/assets/platforms/" St.init).2)
      ∧ strings_Contains msg "paginated" ∧ strings_Contains msg "array")
    ∧ (∃ msg, ListNodes (scenarioEnv (scenarioResponse 200 "200 OK" "\"not json\""))
          scenarioClient St.init
        = (([], some msg), (getRaw (scenarioEnv (scenarioResponse 200 "200 OK" "\"not json\""))
            scenarioClient "/api/v1/assets/nodes/" St.init).2)
      ∧ strings_Contains msg "paginated" ∧ strings_Contains msg "array") :=
  have h := C8_neither_shape_fails (scenarioEnv (scenarioResponse 200 "200 OK" "\"not json\""))
    scenarioClient St.init _ _ "\"not json\""
  ⟨h.1 rfl (by decide) (by decide), h.2 rfl (by decide) (by decide)⟩

/-- Text that is not valid JSON decodes neither as the envelope nor as an
array: the two hypotheses of C8 hold for it. -/
theorem invalid_text_decodes_neither (body : String) (h : JSON.parse body = none) :
    (json_Unmarshal PlatformListResponse.decode body ListResponse.zero).2 ≠ none
      ∧ (json_Unmarshal Platform.decodeArray body []).2 ≠ none
      ∧ (json_Unmarshal NodeListResponse.decode body ListResponse.zero).2 ≠ none
      ∧ (json_Unmarshal Node.decodeArray body []).2 ≠ none := by
  simp [json_Unmarshal, h]

/-- A JSON string decodes neither as the envelope nor as an array. -/
theorem json_string_decodes_neither (body s : String) (h : JSON.parse body = some (JSON.str s)) :
    (json_Unmarshal PlatformListResponse.decode body ListResponse.zero).2 ≠ none
      ∧ (json_Unmarshal Platform.decodeArray body []).2 ≠ none
      ∧ (json_Unmarshal NodeListResponse.decode body ListResponse.zero).2 ≠ none
      ∧ (json_Unmarshal Node.decodeArray body []).2 ≠ none := by
  simp [json_Unmarshal, h, PlatformListResponse.decode, NodeListResponse.decode,
    ListResponse.decode, decodeStruct, Platform.decodeArray, Node.decodeArray, decodeSlice]

/-- C9, the code at the failing input: the server answers 200 with the bare
array `[{"id":"u1"}]`. `ListUsers`, `ListAccounts`, `ListAssets` and
`ListPermissions` decode the envelope only: each returns no element and a
decode error, where `ListPlatforms` and `ListNodes` return the element; the
envelope around the same element is accepted by `ListUsers`. -/
theorem C9_list_operations_reject_bare_array :
    (ListUsers (scenarioEnv (scenarioResponse 200 "200 OK" "[\x7b\"id\":\"u1\"\x7d]"))
        scenarioClient St.init).1
      = ([], some ("failed to unmarshal response: "
          ++ "json: cannot unmarshal array into Go value of type jumpserver.UserListResponse"))
    ∧ (ListAccounts (scenarioEnv (scenarioResponse 200 "200 OK" "[\x7b\"id\":\"u1\"\x7d]"))
        scenarioClient "" St.init).1
      = ([], some ("failed to unmarshal response: "
          ++ "json: cannot unmarshal array into Go value of type jumpserver.AccountListResponse"))
    ∧ (ListAssets (scenarioEnv (scenarioResponse 200 "200 OK" "[\x7b\"id\":\"u1\"\x7d]"))
        scenarioClient St.init).1
      = ([], some ("failed to unmarshal response: "
          ++ "json: cannot unmarshal array into Go value of type jumpserver.AssetListResponse"))
    ∧ (ListPermissions (scenarioEnv (scenarioResponse 200 "200 OK" "[\x7b\"id\":\"u1\"\x7d]"))
        scenarioClient St.init).1
      = ([], some ("failed to unmarshal response: "
          ++ "json: cannot unmarshal array into Go value of type jumpserver.PermissionListResponse"))
    ∧ (ListPlatforms (scenarioEnv (scenarioResponse 200 "200 OK" "[\x7b\"id\":\"u1\"\x7d]"))
        scenarioClient St.init).1 = ([{ Platform.zero with ID := Any.str "u1" }], none)
    ∧ (ListNodes (scenarioEnv (scenarioResponse 200 "200 OK" "[\x7b\"id\":\"u1\"\x7d]"))
        scenarioClient St.init).1 = ([{ Node.zero with ID := "u1" }], none)
    ∧ (ListUsers (scenarioEnv (scenarioResponse 200 "200 OK" "\x7b\"results\":[\x7b\"id\":\"u1\"\x7d]\x7d"))
        scenarioClient St.init).1 = ([{ User.zero with ID := "u1" }], none) := by
  refine ⟨?_, ?_, ?_, ?_, ?_, ?_, ?_⟩ <;> decide

/-! ## The polymorphic accessors -/

theorem mapGet_mapPut_same (m : List (String × Any)) (key : String) (v : Any) :
    mapGet (mapPut m key v) key = some v := by
  induction m with
  | nil => simp [mapPut, mapGet]
  | cons kv rest ih =>
      obtain ⟨k, w⟩ := kv
      by_cases hk : k = key
      · simp [mapPut, mapGet, hk]
      · simp [mapPut, mapGet, hk, ih]

/-- C10: for every string `s`, each accessor yields `s` for the bare string
and for the object carrying `s`: `GetAssetID` on `s` and on every map holding
`s` under `id`, `GetSecretTypeValue`, `GetTypeValue` and `GetCategoryValue` on
`s` and on the map `{"value":s,"label":l}` for every label `l`; the same holds
when the two shapes arrive on the wire and are decoded into the entity. -/
theorem C10_accessor_shape_independent (s l : String) (m : List (String × Any)) (a : Account)
    (p : Platform) :
    ({ a with Asset := Any.str s }).GetAssetID = s
      ∧ ({ a with Asset := Any.map (mapPut m "id" (Any.str s)) }).GetAssetID = s
      ∧ ({ a with SecretType := Any.str s }).GetSecretTypeValue = s
      ∧ ({ a with SecretType :=
            Any.map [("value", Any.str s), ("label", Any.str l)] }).GetSecretTypeValue = s
      ∧ ({ p with Type_ := Any.str s }).GetTypeValue = s
      ∧ ({ p with Type_ := Any.map [("value", Any.str s), ("label", Any.str l)] }).GetTypeValue = s
      ∧ ({ p with Category := Any.str s }).GetCategoryValue = s
      ∧ ({ p with Category :=
            Any.map [("value", Any.str s), ("label", Any.str l)] }).GetCategoryValue = s
      ∧ (Account.decode (JSON.obj [("asset", JSON.str s)]) a).1.GetAssetID = s
      ∧ (Account.decode (JSON.obj [("asset", JSON.obj [("id", JSON.str s)])]) a).1.GetAssetID = s
      ∧ (Account.decode (JSON.obj [("secret_type", JSON.str s)]) a).1.GetSecretTypeValue = s
      ∧ (Account.decode (JSON.obj [("secret_type",
            JSON.obj [("value", JSON.str s), ("label", JSON.str l)])]) a).1.GetSecretTypeValue = s
      ∧ (Platform.decode (JSON.obj [("type", JSON.str s)]) p).1.GetTypeValue = s
      ∧ (Platform.decode (JSON.obj [("type",
            JSON.obj [("value", JSON.str s), ("label", JSON.str l)])]) p).1.GetTypeValue = s
      ∧ (Platform.decode (JSON.obj [("category", JSON.str s)]) p).1.GetCategoryValue = s
      ∧ (Platform.decode (JSON.obj [("category",
            JSON.obj [("value", JSON.str s), ("label", JSON.str l)])]) p).1.GetCategoryValue = s := by
  have f1 : foldName "asset" = "asset" := by decide
  have f2 : foldName "secret_type" = "secret_type" := by decide
  have f3 : foldName "type" = "type" := by decide
  have f4 : foldName "category" = "category" := by decide
  refine ⟨rfl, ?_, rfl, ?_, rfl, ?_, rfl, ?_, ?_, ?_, ?_, ?_, ?_, ?_, ?_, ?_⟩
  · simp [Account.GetAssetID, mapGet_mapPut_same]
  · simp [Account.GetSecretTypeValue, mapGet]
  · simp [Platform.GetTypeValue, mapGet]
  · simp [Platform.GetCategoryValue, mapGet]
  · simp [Account.decode, decodeStruct, decodeMembers, Account.field, f1, decodeInterface,
      valueInterface, Account.GetAssetID, firstError]
  · simp [Account.decode, decodeStruct, decodeMembers, Account.field, f1, decodeInterface,
      valueInterface, objectInterface, mapPut, mapGet, Account.GetAssetID, firstError]
  · simp [Account.decode, decodeStruct, decodeMembers, Account.field, f2, decodeInterface,
      valueInterface, Account.GetSecretTypeValue, firstError]
  · simp [Account.decode, decodeStruct, decodeMembers, Account.field, f2, decodeInterface,
      valueInterface, objectInterface, mapPut, mapGet, Account.GetSecretTypeValue, firstError]
  · simp [Platform.decode, decodeStruct, decodeMembers, Platform.field, f3, decodeInterface,
      valueInterface, Platform.GetTypeValue, firstError]
  · simp [Platform.decode, decodeStruct, decodeMembers, Platform.field, f3, decodeInterface,
      valueInterface, objectInterface, mapPut, mapGet, Platform.GetTypeValue, firstError]
  · simp [Platform.decode, decodeStruct, decodeMembers, Platform.field, f4, decodeInterface,
      valueInterface, Platform.GetCategoryValue, firstError]
  · simp [Platform.decode, decodeStruct, decodeMembers, Platform.field, f4, decodeInterface,
      valueInterface, objectInterface, mapPut, mapGet, Platform.GetCategoryValue, firstError]

/-! ## More on the polymorphic accessors -/

/-- C11: a raw value that is neither a string nor an object holding a string
under the member the accessor reads (`id` for `GetAssetID`, `value` for the
three others) makes the accessor return the empty string. -/
theorem C11_other_shapes_yield_empty (v : Any) (a : Account) (p : Platform)
    (hstr : ∀ s, v ≠ Any.str s) :
    ((∀ m s, v = Any.map m → mapGet m "id" ≠ some (Any.str s)) →
        ({ a with Asset := v }).GetAssetID = "")
      ∧ ((∀ m s, v = Any.map m → mapGet m "value" ≠ some (Any.str s)) →
        ({ a with SecretType := v }).GetSecretTypeValue = ""
          ∧ ({ p with Type_ := v }).GetTypeValue = ""
          ∧ ({ p with Category := v }).GetCategoryValue = "") := by
  cases v with
  | str s => exact absurd rfl (hstr s)
  | map m =>
      constructor
      · intro h
        simp only [Account.GetAssetID]
        split
        · rename_i val heq
          exact absurd heq (h m val rfl)
        · rfl
      · intro h
        refine ⟨?_, ?_, ?_⟩
        all_goals
          simp only [Account.GetSecretTypeValue, Platform.GetTypeValue, Platform.GetCategoryValue]
          split
          · rename_i val heq
            exact absurd heq (h m val rfl)
          · rfl
  | nil => exact ⟨fun _ => rfl, fun _ => ⟨rfl, rfl, rfl⟩⟩
  | bool b => exact ⟨fun _ => rfl, fun _ => ⟨rfl, rfl, rfl⟩⟩
  | float64 f => exact ⟨fun _ => rfl, fun _ => ⟨rfl, rfl, rfl⟩⟩
  | int n => exact ⟨fun _ => rfl, fun _ => ⟨rfl, rfl, rfl⟩⟩
  | slice xs => exact ⟨fun _ => rfl, fun _ => ⟨rfl, rfl, rfl⟩⟩

/-- The scenario of C11: the raw value `42`, the `float64` the JSON number
`42` decodes to, makes every accessor return the empty string. -/
theorem C11_number_scenario :
    (valueInterface (JSON.num "42")).1 = Any.float64 (Float64.finite false 5910974510923776 (-47))
      ∧ ({ Account.zero with
            Asset := Any.float64 (Float64.finite false 5910974510923776 (-47)) }).GetAssetID = ""
      ∧ ({ Account.zero with
            SecretType := Any.float64 (Float64.finite false 5910974510923776 (-47))
          }).GetSecretTypeValue = ""
      ∧ ({ Platform.zero with
            Type_ := Any.float64 (Float64.finite false 5910974510923776 (-47)) }).GetTypeValue = ""
      ∧ ({ Platform.zero with
            Category := Any.float64 (Float64.finite false 5910974510923776 (-47))
          }).GetCategoryValue = "" :=
  have h := C11_other_shapes_yield_empty
    (Any.float64 (Float64.finite false 5910974510923776 (-47))) Account.zero Platform.zero
    (by intro s hs; cases hs)
  ⟨by decide, h.1 (by intro m s hm; cases hm), h.2 (by intro m s hm; cases hm)⟩

theorem digitChar_isDigit (n : Nat) (h : n < 10) : (Nat.digitChar n).isDigit = true := by
  interval_cases n <;> decide

theorem toDigitsCore_digits (fuel n : Nat) (ds : List Char)
    (hds : ∀ c ∈ ds, c.isDigit = true) :
    ∀ c ∈ Nat.toDigitsCore 10 fuel n ds, c.isDigit = true := by
  induction fuel generalizing n ds with
  | zero => simpa [Nat.toDigitsCore] using hds
  | succ fuel ih =>
      have hd : (Nat.digitChar (n % 10)).isDigit = true :=
        digitChar_isDigit _ (Nat.mod_lt _ (by decide))
      have hcons : ∀ c ∈ Nat.digitChar (n % 10) :: ds, c.isDigit = true := by
        intro c hc
        rcases List.mem_cons.mp hc with h | h
        · rw [h]; exact hd
        · exact hds c h
      simp only [Nat.toDigitsCore]
      split
      · exact hcons
      · exact ih _ _ hcons

theorem toDigitsCore_ne_nil (fuel n : Nat) (ds : List Char) :
    Nat.toDigitsCore 10 (fuel + 1) n ds ≠ [] := by
  induction fuel generalizing n ds with
  | zero =>
      simp only [Nat.toDigitsCore]
      split <;> simp
  | succ fuel ih =>
      rw [Nat.toDigitsCore]
      split
      · simp
      · exact ih _ _

theorem repr_digits (n : Nat) : ∀ c ∈ (Nat.repr n).data, c.isDigit = true := by
  simp only [Nat.repr, Nat.toDigits, List.asString]
  exact toDigitsCore_digits _ _ _ (by simp)

theorem repr_ne_nil (n : Nat) : (Nat.repr n).data ≠ [] := by
  simp only [Nat.repr, Nat.toDigits, List.asString]
  exact toDigitsCore_ne_nil _ _ _

theorem roundHalfEven_mul (a m : Nat) (hm : 0 < m) : roundHalfEven (a * m) m = a := by
  have hq : a * m / m = a := Nat.mul_div_cancel _ hm
  have hr : a * m % m = 0 := Nat.mul_mod_left _ _
  simp only [roundHalfEven, hq, hr]
  have h : ¬ (2 * 0 > m ∨ (2 * 0 = m ∧ a % 2 = 1)) := by omega
  rw [if_neg h]

theorem fmt_f0_of_represents (f : Float64) (n : Int) (hf : f.represents n) :
    fmt_f0 f = fmt_d n := by
  cases f with
  | nan => exact absurd hf (by simp [Float64.represents])
  | inf neg => exact absurd hf (by simp [Float64.represents])
  | finite neg mant exp =>
      obtain ⟨hneg, hval⟩ := hf
      have hnum : (if exp ≥ 0 then mant * 2 ^ exp.toNat
          else roundHalfEven mant (2 ^ (-exp).toNat)) = n.natAbs := by
        by_cases he : exp ≥ 0
        · simp only [he, if_true] at hval ⊢
          exact hval
        · simp only [he, if_false] at hval ⊢
          rw [hval]
          exact roundHalfEven_mul _ _ (Nat.pos_pow_of_pos _ (by decide))
      simp only [fmt_f0, hnum]
      cases n with
      | ofNat k =>
          have : neg = false := by
            cases neg with
            | false => rfl
            | true => exact absurd (hneg.mp rfl) (by simp)
          subst this
          simp [fmt_d]
      | negSucc k =>
          have : neg = true := hneg.mpr (Int.negSucc_lt_zero k)
          subst this
          simp [fmt_d, Int.natAbs]

/-- C12, the claim refuted: the body `{"id":-0}` decodes to the float `-0.0`, a
float of value 0 with the sign bit set, and `Platform.GetID` returns `-0` for
it, not `0`, the decimal representation of the integer 0. -/
theorem C12_negative_zero_keeps_sign :
    (json_Unmarshal Platform.decode "\x7b\"id\":-0\x7d" Platform.zero)
        = ({ Platform.zero with ID := Any.float64 (Float64.finite true 0 0) }, none)
      ∧ (json_Unmarshal Platform.decode "\x7b\"id\":-0\x7d" Platform.zero).1.GetID = "-0"
      ∧ ({ Platform.zero with ID := Any.float64 (Float64.finite true 0 0) }).GetID = "-0"
      ∧ fmt_d 0 = "0" := by
  refine ⟨?_, ?_, ?_, ?_⟩ <;> decide

/-- C12 as amended: for every integer `n`, `Platform.GetID` returns the
decimal representation of `n` when the raw id is the integer `n`, when it is
the float that represents `n`, of value `n` and with the sign bit set exactly
when `n` is negative, and when it is the string of `n`'s decimal digits. -/
theorem C12_numeric_id_normalised (n : Int) (f : Float64) (p : Platform)
    (hf : f.represents n) :
    ({ p with ID := Any.int n }).GetID = fmt_d n
      ∧ ({ p with ID := Any.float64 f }).GetID = fmt_d n
      ∧ ({ p with ID := Any.str (fmt_d n) }).GetID = fmt_d n :=
  ⟨rfl, fmt_f0_of_represents f n hf, rfl⟩

/-- The scenario of C12: the raw values `5`, `5.0` and `"5"`, as they come off
the wire and as Go values, all yield `"5"`. -/
theorem C12_five_scenario :
    (({ Platform.zero with ID := Any.int 5 }).GetID = "5"
      ∧ ({ Platform.zero with ID := Any.float64 (Float64.finite false 5629499534213120 (-50)) }).GetID
          = "5"
      ∧ ({ Platform.zero with ID := Any.str "5" }).GetID = "5")
    ∧ (Platform.decode (JSON.obj [("id", JSON.num "5")]) Platform.zero).1.GetID = "5"
    ∧ (Platform.decode (JSON.obj [("id", JSON.num "5.0")]) Platform.zero).1.GetID = "5"
    ∧ (Platform.decode (JSON.obj [("id", JSON.str "5")]) Platform.zero).1.GetID = "5" :=
  ⟨C12_numeric_id_normalised 5 (Float64.finite false 5629499534213120 (-50)) Platform.zero
      (by unfold Float64.represents; decide),
    by decide, by decide, by decide⟩

theorem isDecimalInteger_repr (k : Nat) : isDecimalInteger (Nat.repr k) = true := by
  have hd := repr_digits k
  have hne := repr_ne_nil k
  unfold isDecimalInteger
  cases hdata : (Nat.repr k).data with
  | nil => exact absurd hdata hne
  | cons c cs =>
      rw [hdata] at hd
      have hc : c.isDigit = true := hd c (List.mem_cons_self _ _)
      have hcs : cs.all Char.isDigit = true := by
        rw [List.all_eq_true]
        intro x hx
        exact hd x (List.mem_cons_of_mem _ hx)
      split
      · rename_i ds heq
        have : c = '-' := by
          injection heq with h1 h2
        rw [this] at hc
        exact absurd hc (by decide)
      · simp [hc, hcs]

theorem isDecimalInteger_neg_repr (k : Nat) : isDecimalInteger ("-" ++ Nat.repr k) = true := by
  have hd := repr_digits k
  have hne := repr_ne_nil k
  have hdata : ("-" ++ Nat.repr k).data = '-' :: (Nat.repr k).data := by
    simp [String.data_append]
  unfold isDecimalInteger
  rw [hdata]
  have hall : (Nat.repr k).data.all Char.isDigit = true := by
    rw [List.all_eq_true]
    exact hd
  cases hk : (Nat.repr k).data with
  | nil => exact absurd hk hne
  | cons c cs =>
      rw [hk] at hall
      simp [hall]

/-- C13, the claim refuted: the raw string `"5.5"` is returned verbatim, with
its fractional part. -/
theorem C13_string_id_verbatim :
    ({ Platform.zero with ID := Any.str "5.5" }).GetID = "5.5"
      ∧ isDecimalInteger ({ Platform.zero with ID := Any.str "5.5" }).GetID = false := by
  constructor <;> decide

/-- C13 as amended: for a raw id that is a finite float or an integer,
`Platform.GetID` returns a decimal string with no fractional part, an optional
minus sign followed by decimal digits only; a raw string is returned
verbatim. -/
theorem C13_numeric_id_is_decimal (p : Platform) (neg : Bool) (mant : Nat) (exp n : Int)
    (s : String) :
    isDecimalInteger ({ p with ID := Any.float64 (Float64.finite neg mant exp) }).GetID = true
      ∧ isDecimalInteger ({ p with ID := Any.int n }).GetID = true
      ∧ ({ p with ID := Any.str s }).GetID = s := by
  refine ⟨?_, ?_, rfl⟩
  · simp only [Platform.GetID, fmt_f0]
    cases neg with
    | true => exact isDecimalInteger_neg_repr _
    | false =>
        have : ∀ t : String, "" ++ t = t := by
          intro t
          apply String.ext
          simp [String.data_append]
        simp only [Bool.false_eq_true, if_false, this]
        exact isDecimalInteger_repr _
  · simp only [Platform.GetID]
    cases n with
    | ofNat k => exact isDecimalInteger_repr k
    | negSucc k => exact isDecimalInteger_neg_repr (k + 1)

theorem extractStrings_eq_filterMap (key : String) (xs : List Any) :
    extractStrings key xs = xs.filterMap (polymorphicRule key) := by
  induction xs with
  | nil => rfl
  | cons x rest ih =>
      cases x with
      | str s => simp [extractStrings, polymorphicRule, ih]
      | map m =>
          simp only [extractStrings, List.filterMap_cons, polymorphicRule]
          cases hm : mapGet m key with
          | none => simp [ih]
          | some w =>
              cases w <;> simp [ih]
      | nil => simp [extractStrings, polymorphicRule, ih]
      | bool b => simp [extractStrings, polymorphicRule, ih]
      | float64 f => simp [extractStrings, polymorphicRule, ih]
      | int n => simp [extractStrings, polymorphicRule, ih]
      | slice ys => simp [extractStrings, polymorphicRule, ih]

theorem extractStrings_strings (key : String) (ss : List String) :
    extractStrings key (ss.map Any.str) = ss := by
  induction ss with
  | nil => rfl
  | cons s rest ih => simp [extractStrings, ih]

/-- C14: `GetUserIDs` and `GetAssetIDs` (member `id`) and `GetActionValues`
(member `value`) return, in input order, the string of every element that is
a string or an object holding a string under the member, and nothing for any
other element: the result is the order-preserving extraction by the rule, no
longer than the input, and is the input when every element is a string. -/
theorem C14_elementwise_extraction (p : Permission) (ss : List String) :
    (p.GetUserIDs = p.Users.filterMap (polymorphicRule "id")
        ∧ p.GetAssetIDs = p.Assets.filterMap (polymorphicRule "id")
        ∧ p.GetActionValues = p.Actions.filterMap (polymorphicRule "value"))
      ∧ (p.GetUserIDs.length ≤ p.Users.length ∧ p.GetAssetIDs.length ≤ p.Assets.length
        ∧ p.GetActionValues.length ≤ p.Actions.length)
      ∧ (({ p with Users := ss.map Any.str }).GetUserIDs = ss
        ∧ ({ p with Assets := ss.map Any.str }).GetAssetIDs = ss
        ∧ ({ p with Actions := ss.map Any.str }).GetActionValues = ss) := by
  refine ⟨⟨extractStrings_eq_filterMap _ _, extractStrings_eq_filterMap _ _,
    extractStrings_eq_filterMap _ _⟩, ⟨?_, ?_, ?_⟩,
    ⟨extractStrings_strings _ _, extractStrings_strings _ _, extractStrings_strings _ _⟩⟩
  · simp only [Permission.GetUserIDs, extractStrings_eq_filterMap]
    exact List.length_filterMap_le _ _
  · simp only [Permission.GetAssetIDs, extractStrings_eq_filterMap]
    exact List.length_filterMap_le _ _
  · simp only [Permission.GetActionValues, extractStrings_eq_filterMap]
    exact List.length_filterMap_le _ _

/-- C15: every accessor is defined on every raw value, with no failing path:
on every `v`, decoded from any JSON text or built otherwise, the scalar
accessors return the string the rule finds or the empty string, `GetID` returns
a string, and the three extractors return a list on every list of values;
`null`, a nested array and an object without the member give the empty
result. -/
theorem C15_accessors_total (v : Any) (vs : List Any) (a : Account) (p : Platform)
    (q : Permission) :
    (({ a with Asset := v }).GetAssetID = (polymorphicRule "id" v).getD ""
        ∧ ({ a with SecretType := v }).GetSecretTypeValue = (polymorphicRule "value" v).getD ""
        ∧ ({ p with Type_ := v }).GetTypeValue = (polymorphicRule "value" v).getD ""
        ∧ ({ p with Category := v }).GetCategoryValue = (polymorphicRule "value" v).getD "")
      ∧ (∃ s, ({ p with ID := v }).GetID = s)
      ∧ ((∃ l, ({ q with Users := vs }).GetUserIDs = l ∧ l.length ≤ vs.length)
        ∧ (∃ l, ({ q with Assets := vs }).GetAssetIDs = l ∧ l.length ≤ vs.length)
        ∧ (∃ l, ({ q with Actions := vs }).GetActionValues = l ∧ l.length ≤ vs.length))
      ∧ (({ a with Asset := Any.nil }).GetAssetID = ""
        ∧ ({ a with Asset := Any.slice [Any.slice [v]] }).GetAssetID = ""
        ∧ ({ a with Asset := Any.map [] }).GetAssetID = ""
        ∧ ({ p with ID := Any.nil }).GetID = ""
        ∧ ({ q with Users := [Any.nil, Any.slice [v], Any.map []] }).GetUserIDs = []) := by
  refine ⟨⟨?_, ?_, ?_, ?_⟩, ⟨_, rfl⟩, ⟨⟨_, rfl, ?_⟩, ⟨_, rfl, ?_⟩, ⟨_, rfl, ?_⟩⟩,
    ⟨rfl, rfl, rfl, rfl, rfl⟩⟩
  · cases v with
    | map m =>
        simp only [Account.GetAssetID, polymorphicRule]
        cases hm : mapGet m "id" with
        | none => rfl
        | some w => cases w <;> rfl
    | _ => rfl
  · cases v with
    | map m =>
        simp only [Account.GetSecretTypeValue, polymorphicRule]
        cases hm : mapGet m "value" with
        | none => rfl
        | some w => cases w <;> rfl
    | _ => rfl
  · cases v with
    | map m =>
        simp only [Platform.GetTypeValue, polymorphicRule]
        cases hm : mapGet m "value" with
        | none => rfl
        | some w => cases w <;> rfl
    | _ => rfl
  · cases v with
    | map m =>
        simp only [Platform.GetCategoryValue, polymorphicRule]
        cases hm : mapGet m "value" with
        | none => rfl
        | some w => cases w <;> rfl
    | _ => rfl
  · simp only [Permission.GetUserIDs, extractStrings_eq_filterMap]
    exact List.length_filterMap_le _ _
  · simp only [Permission.GetAssetIDs, extractStrings_eq_filterMap]
    exact List.length_filterMap_le _ _
  · simp only [Permission.GetActionValues, extractStrings_eq_filterMap]
    exact List.length_filterMap_le _ _

/-! ## Lookups by name -/

theorem find_first_match {T : Type} (L : List T) (f : T → Bool) (h : ∃ x ∈ L, f x = true) :
    ∃ x ∈ L, f x = true ∧ L.find? f = some x := by
  cases hf : L.find? f with
  | none =>
      obtain ⟨x, hx, hfx⟩ := h
      have := List.find?_eq_none.mp hf x hx
      exact absurd hfx this
  | some y =>
      exact ⟨y, List.mem_of_find?_eq_some hf, List.find?_some hf, rfl⟩

theorem find_no_match {T : Type} (L : List T) (f : T → Bool) (h : ¬ ∃ x ∈ L, f x = true) :
    L.find? f = none := by
  apply List.find?_eq_none.mpr
  intro x hx hfx
  exact h ⟨x, hx, hfx⟩

/-- C16: after a successful fetch of the list `L`, the lookup by the key `k`
returns an element of `L` that matches `k` exactly whenever `L` holds one, and
fails with the not-found error, whose message ends with `k`, exactly when `L`
holds none: `GetPlatformByName` on the name or the display name,
`GetNodeByFullName` on the full name, `GetUserByUsername` on the username. -/
theorem C16_lookup_by_name (env : Env) (c : Client) (st st' : St) (k : String) :
    (∀ L : List Platform, ListPlatforms env c st = ((L, none), st') →
        ((∃ p ∈ L, p.Name = k ∨ p.DisplayName = k) →
          ∃ p ∈ L, (p.Name = k ∨ p.DisplayName = k)
            ∧ GetPlatformByName env c k st = ((some p, none), st'))
        ∧ ((¬ ∃ p ∈ L, p.Name = k ∨ p.DisplayName = k) ↔
          GetPlatformByName env c k st = ((none, some ("platform not found: " ++ k)), st'))
        ∧ strings_Contains ("platform not found: " ++ k) k)
    ∧ (∀ L : List Node, ListNodes env c st = ((L, none), st') →
        ((∃ n ∈ L, n.FullName = k) →
          ∃ n ∈ L, n.FullName = k ∧ GetNodeByFullName env c k st = ((some n, none), st'))
        ∧ ((¬ ∃ n ∈ L, n.FullName = k) ↔
          GetNodeByFullName env c k st = ((none, some ("node not found: " ++ k)), st'))
        ∧ strings_Contains ("node not found: " ++ k) k)
    ∧ (∀ L : List User, ListUsers env c st = ((L, none), st') →
        ((∃ u ∈ L, u.Username = k) →
          ∃ u ∈ L, u.Username = k ∧ GetUserByUsername env c k st = ((some u, none), st'))
        ∧ ((¬ ∃ u ∈ L, u.Username = k) ↔
          GetUserByUsername env c k st = ((none, some ("user not found: " ++ k)), st'))
        ∧ strings_Contains ("user not found: " ++ k) k) := by
  refine ⟨?_, ?_, ?_⟩
  · intro L hL
    have hiff : ∀ p : Platform, ((p.Name == k || p.DisplayName == k) = true)
        ↔ (p.Name = k ∨ p.DisplayName = k) := by
      intro p; simp
    refine ⟨?_, ?_, strings_Contains_suffix _ _⟩
    · intro hex
      obtain ⟨p, hp, hm⟩ := hex
      obtain ⟨x, hx, hfx, hfind⟩ := find_first_match L
        (fun p => p.Name == k || p.DisplayName == k) ⟨p, hp, (hiff p).mpr hm⟩
      exact ⟨x, hx, (hiff x).mp hfx, by simp [GetPlatformByName, hL, hfind]⟩
    · constructor
      · intro hno
        have hfind := find_no_match L (fun p => p.Name == k || p.DisplayName == k)
          (fun ⟨x, hx, hfx⟩ => hno ⟨x, hx, (hiff x).mp hfx⟩)
        simp [GetPlatformByName, hL, hfind]
      · intro hres hex
        obtain ⟨p, hp, hm⟩ := hex
        obtain ⟨x, hx, hfx, hfind⟩ := find_first_match L
          (fun p => p.Name == k || p.DisplayName == k) ⟨p, hp, (hiff p).mpr hm⟩
        simp [GetPlatformByName, hL, hfind] at hres
  · intro L hL
    have hiff : ∀ n : Node, ((n.FullName == k) = true) ↔ n.FullName = k := by
      intro n; simp
    refine ⟨?_, ?_, strings_Contains_suffix _ _⟩
    · intro hex
      obtain ⟨p, hp, hm⟩ := hex
      obtain ⟨x, hx, hfx, hfind⟩ := find_first_match L
        (fun n => n.FullName == k) ⟨p, hp, (hiff p).mpr hm⟩
      exact ⟨x, hx, (hiff x).mp hfx, by simp [GetNodeByFullName, hL, hfind]⟩
    · constructor
      · intro hno
        have hfind := find_no_match L (fun n => n.FullName == k)
          (fun ⟨x, hx, hfx⟩ => hno ⟨x, hx, (hiff x).mp hfx⟩)
        simp [GetNodeByFullName, hL, hfind]
      · intro hres hex
        obtain ⟨p, hp, hm⟩ := hex
        obtain ⟨x, hx, hfx, hfind⟩ := find_first_match L
          (fun n => n.FullName == k) ⟨p, hp, (hiff p).mpr hm⟩
        simp [GetNodeByFullName, hL, hfind] at hres
  · intro L hL
    have hiff : ∀ u : User, ((u.Username == k) = true) ↔ u.Username = k := by
      intro u; simp
    refine ⟨?_, ?_, strings_Contains_suffix _ _⟩
    · intro hex
      obtain ⟨p, hp, hm⟩ := hex
      obtain ⟨x, hx, hfx, hfind⟩ := find_first_match L
        (fun u => u.Username == k) ⟨p, hp, (hiff p).mpr hm⟩
      exact ⟨x, hx, (hiff x).mp hfx, by simp [GetUserByUsername, hL, hfind]⟩
    · constructor
      · intro hno
        have hfind := find_no_match L (fun u => u.Username == k)
          (fun ⟨x, hx, hfx⟩ => hno ⟨x, hx, (hiff x).mp hfx⟩)
        simp [GetUserByUsername, hL, hfind]
      · intro hres hex
        obtain ⟨p, hp, hm⟩ := hex
        obtain ⟨x, hx, hfx, hfind⟩ := find_first_match L
          (fun u => u.Username == k) ⟨p, hp, (hiff p).mpr hm⟩
        simp [GetUserByUsername, hL, hfind] at hres

/-- The scenario of C16: the platforms `Linux` and `Windows` are fetched; the
key `Windows` returns the `Windows` element and the key `Solaris` fails with
the not-found error. -/
theorem C16_windows_solaris_scenario :
    (GetPlatformByName (scenarioEnv (scenarioResponse 200 "200 OK"
        "[\x7b\"name\":\"Linux\"\x7d,\x7b\"name\":\"Windows\"\x7d]")) scenarioClient "Windows"
        St.init).1 = (some { Platform.zero with Name := "Windows" }, none)
    ∧ GetPlatformByName (scenarioEnv (scenarioResponse 200 "200 OK"
        "[\x7b\"name\":\"Linux\"\x7d,\x7b\"name\":\"Windows\"\x7d]")) scenarioClient "Solaris" St.init
      = ((none, some "platform not found: Solaris"),
          (ListPlatforms (scenarioEnv (scenarioResponse 200 "200 OK"
            "[\x7b\"name\":\"Linux\"\x7d,\x7b\"name\":\"Windows\"\x7d]")) scenarioClient St.init).2) :=
  have h := (C16_lookup_by_name (scenarioEnv (scenarioResponse 200 "200 OK"
      "[\x7b\"name\":\"Linux\"\x7d,\x7b\"name\":\"Windows\"\x7d]")) scenarioClient St.init
    (ListPlatforms (scenarioEnv (scenarioResponse 200 "200 OK"
      "[\x7b\"name\":\"Linux\"\x7d,\x7b\"name\":\"Windows\"\x7d]")) scenarioClient St.init).2
    "Solaris").1
    [{ Platform.zero with Name := "Linux" }, { Platform.zero with Name := "Windows" }]
    (Prod.ext (by decide) rfl)
  ⟨by decide, h.2.1.mp (by decide)⟩

/-! ## Requests issued and errors passed on -/

theorem DoRequest_tail_sent {T : Type} (D : Dest T) (result : Option T) (resp : Response) (st : St) :
    (if resp.StatusCode < 200 ∨ resp.StatusCode ≥ 300 then
        ((some ("API request failed with status " ++ fmt_d resp.StatusCode ++ ": " ++ resp.Body),
          result), st)
      else
        match result with
        | some dest =>
            match json_Unmarshal D.decode resp.Body dest with
            | (dest, some err) =>
                ((some ("failed to unmarshal response: " ++ err), some dest),
                  st.print ("[DEBUG] [CLIENT] Failed to unmarshal response: " ++ err ++ "\n"))
            | (dest, none) =>
                ((none, some dest),
                  { st with console := st.console ++ [Output.result D.typeName] })
        | none => ((none, none), st)).2.sent = st.sent := by
  by_cases hs : resp.StatusCode < 200 ∨ resp.StatusCode ≥ 300
  · simp only [hs, if_true]
  · simp only [hs, if_false]
    cases result with
    | none => rfl
    | some dest =>
        simp only []
        cases hU : json_Unmarshal D.decode resp.Body dest with
        | mk d e =>
            cases e with
            | none => rfl
            | some err => rfl

/-- The requests `DoRequest` hands to the transport: the signed request when
it gets as far as the exchange, none otherwise. -/
theorem DoRequest_sent {T : Type} (env : Env) (c : Client) (method path : String)
    (body : Option (Except String String)) (D : Dest T) (result : Option T) (st : St) :
    (DoRequest env c method path body D result st).2.sent
      = st.sent ++ DoRequest.requests env c method path body st := by
  unfold DoRequest DoRequest.requests DoRequest.outgoing
  cases body with
  | none =>
      simp only [payloadOf, Option.isSome_none]
      cases hnr : http_NewRequest env method (c.config.Endpoint ++ path) none with
      | error e => simp [St.print]
      | ok r =>
          simp only []
          rw [SignRequest_eq]
          simp only [St.print_ticks, St.print_sent, St.printAll_ticks, St.printAll_sent]
          rw [SignRequest_request_congr env c _ _ st (by simp)]
          simp only [Bool.false_eq_true, if_false]
          cases hrt : env.roundTrip st.sent (SignRequest env c r st).1.2 with
          | error e => rfl
          | ok resp =>
              simp only []
              cases hre : resp.ReadErr with
              | some e => rfl
              | none =>
                  simp only []
                  exact Eq.trans (DoRequest_tail_sent D result resp _) rfl
  | some b =>
      cases b with
      | error e => simp [St.print]
      | ok data =>
          simp only [payloadOf, Option.isSome_some]
          cases hnr : http_NewRequest env method (c.config.Endpoint ++ path) (some data) with
          | error e => simp [St.print]
          | ok r =>
              simp only []
              rw [SignRequest_eq]
              simp only [St.print_ticks, St.print_sent, St.printAll_ticks, St.printAll_sent]
              rw [SignRequest_request_congr env c _ _ st (by simp)]
              simp only [if_true]
              cases hrt : env.roundTrip st.sent (SignRequest env c
                  { r with Header := r.Header.Set "Content-Type" "application/json" } st).1.2 with
              | error e => rfl
              | ok resp =>
                  simp only []
                  cases hre : resp.ReadErr with
                  | some e => rfl
                  | none =>
                      simp only []
                      exact Eq.trans (DoRequest_tail_sent D result resp _) rfl

theorem http_NewRequest_GET (env : Env) (url : String) (u : URL)
    (hurl : env.parseURL url = Except.ok u) :
    http_NewRequest env "GET" url none
      = Except.ok { Method := "GET", URL := u, Header := [], Body := none } := by
  have hv : ("GET".data.all validHeaderFieldByte) = true := by decide
  simp [http_NewRequest, hurl, hv]

/-- Whenever the URL of the list endpoint parses, `getRaw` hands two requests
to the transport, whatever the server answers. -/
theorem getRaw_sends_two (env : Env) (c : Client) (path : String) (st : St) (u : URL)
    (hurl : env.parseURL (c.config.Endpoint ++ path) = Except.ok u) :
    (getRaw env c path st).2.sent.length = st.sent.length + 2 := by
  have hnr := http_NewRequest_GET env _ u hurl
  have h1 : (DoRequest env c "GET" path none anyDest (some Any.nil) st).2.sent.length
      = st.sent.length + 1 := by
    rw [DoRequest_sent]
    simp [DoRequest.requests, DoRequest.outgoing, payloadOf, hnr]
  unfold getRaw
  simp only [hnr]
  rw [SignRequest_eq]
  simp only []
  split
  · simp [h1]
  · split
    · simp [h1]
    · simp [h1]

/-- C17, the code at the failing input: the server answers the first POST with
201 and `{"name":"ops"}`, which carries no identifier, and the second POST with
400. `CreatePermission` posts a second time and returns the error of the second
exchange and no entity, where the wrapped shape of the first response decodes
without error to the permission named `ops`. -/
theorem C17_second_post_decides :
    (CreatePermission
        (scenarioEnvSeq (Except.ok (scenarioResponse 201 "201 Created" "\x7b\"name\":\"ops\"\x7d"))
          (scenarioResponse 400 "400 Bad Request" "\x7b\"name\":[\"already exists\"]\x7d"))
        scenarioClient
        { Name := "ops", Users := [], UserGroups := [], Assets := [], AssetGroups := [],
          Actions := some ["connect"], Comment := "" } St.init).1
      = (none, some "API request failed with status 400: \x7b\"name\":[\"already exists\"]\x7d")
    ∧ (CreatePermission
        (scenarioEnvSeq (Except.ok (scenarioResponse 201 "201 Created" "\x7b\"name\":\"ops\"\x7d"))
          (scenarioResponse 400 "400 Bad Request" "\x7b\"name\":[\"already exists\"]\x7d"))
        scenarioClient
        { Name := "ops", Users := [], UserGroups := [], Assets := [], AssetGroups := [],
          Actions := some ["connect"], Comment := "" } St.init).2.sent.length = 2
    ∧ json_Unmarshal PermissionCreateResponse.decode "\x7b\"name\":\"ops\"\x7d"
        PermissionCreateResponse.zero
      = ({ ID := "", Permission := { Permission.zero with Name := "ops" } }, none) := by
  refine ⟨?_, ?_, ?_⟩ <;> decide

/-- C18, the code at the failing input: against a server that answers every
request with 200 and `[]`, `ListPlatforms` and `ListNodes` hand two requests to
the transport; against a server whose answer to the create request carries no
identifier, `CreatePermission` hands two POST requests to it. `GetAccount`
hands one. -/
theorem C18_two_requests_per_call :
    (ListPlatforms (scenarioEnv (scenarioResponse 200 "200 OK" "[]")) scenarioClient
        St.init).2.sent.length = 2
    ∧ (ListNodes (scenarioEnv (scenarioResponse 200 "200 OK" "[]")) scenarioClient
        St.init).2.sent.length = 2
    ∧ ((CreatePermission (scenarioEnv (scenarioResponse 201 "201 Created" "\x7b\"name\":\"ops\"\x7d"))
        scenarioClient
        { Name := "ops", Users := [], UserGroups := [], Assets := [], AssetGroups := [],
          Actions := some ["connect"], Comment := "" } St.init).2.sent.map (fun r => r.Method))
      = ["POST", "POST"]
    ∧ (GetAccount (scenarioEnv (scenarioResponse 200 "200 OK" "\x7b\"id\":\"acct-1\"\x7d"))
        scenarioClient "acct-1" St.init).2.sent.length = 1 := by
  refine ⟨?_, ?_, ?_, ?_⟩ <;> decide

/-- C19, the code at the failing input: the first exchange fails in the
transport and the second is answered. `ListPlatforms` returns the elements of
the second answer and no error, and `CreatePermission` returns the entity of the
second answer and no error: the error of the first exchange reaches no
caller. -/
theorem C19_first_error_discarded :
    (ListPlatforms
        (scenarioEnvSeq (Except.error "dial tcp: connection refused")
          (scenarioResponse 200 "200 OK" "[\x7b\"name\":\"Linux\"\x7d]"))
        scenarioClient St.init).1 = ([{ Platform.zero with Name := "Linux" }], none)
    ∧ (CreatePermission
        (scenarioEnvSeq (Except.error "dial tcp: connection refused")
          (scenarioResponse 201 "201 Created" "\x7b\"id\":\"p1\",\"name\":\"ops\"\x7d"))
        scenarioClient
        { Name := "ops", Users := [], UserGroups := [], Assets := [], AssetGroups := [],
          Actions := some ["connect"], Comment := "" } St.init).1
      = (some { Permission.zero with ID := "p1", Name := "ops" }, none)
    ∧ (DoRequest
        (scenarioEnvSeq (Except.error "dial tcp: connection refused")
          (scenarioResponse 200 "200 OK" "[]"))
        scenarioClient "GET" "/api/v1/assets/platforms/" none anyDest (some Any.nil) St.init).1.1
      = some "failed to execute request: dial tcp: connection refused" := by
  refine ⟨?_, ?_, ?_⟩ <;> decide

/-- C20: two computations of `SignRequest` with the same method, path,
timestamp, key id and secret (and the same HMAC) leave the same Authorization
value, whatever else differs between the two requests, clients and states. -/
theorem C20_signature_deterministic (env env' : Env) (c c' : Client) (req req' : Request)
    (st st' : St) (hmac : env.hmacSha256 = env'.hmacSha256)
    (hmethod : req.Method = req'.Method) (hpath : req.URL.Path = req'.URL.Path)
    (htime : env.now st.ticks = env'.now st'.ticks)
    (hkey : c.config.KeyID = c'.config.KeyID)
    (hsecret : c.config.KeySecret = c'.config.KeySecret) :
    (SignRequest env c req st).1.2.Header.Get "Authorization"
      = (SignRequest env' c' req' st').1.2.Header.Get "Authorization" := by
  rw [SignRequest_authorization, SignRequest_authorization]
  simp only [stringToSign, hmac, hmethod, hpath, htime, hkey, hsecret]

/-- The scenario of C20: two requests of the same method and path that differ
in query, headers and body, signed by clients of the same key that differ in
organization, at different clock readings of the same date, carry the same
Authorization value. -/
theorem C20_same_inputs_scenario :
    (SignRequest (scenarioEnv (scenarioResponse 200 "200 OK" "")) scenarioClient
        { Method := "GET", URL := { Path := "/api/v1/users/users/", RawQuery := "" },
          Header := [], Body := none } St.init).1.2.Header.Get "Authorization"
      = (SignRequest (scenarioEnv (scenarioResponse 404 "404 Not Found" ""))
          { scenarioClient with config := { scenarioClient.config with OrgID := "org-2" } }
          { Method := "GET", URL := { Path := "/api/v1/users/users/", RawQuery := "limit=10" },
            Header := [("Accept", ["application/json"])], Body := some "x" }
          { St.init with ticks := 7 }).1.2.Header.Get "Authorization" :=
  C20_signature_deterministic _ _ _ _ _ _ _ _ rfl rfl rfl rfl rfl rfl

/-! ## Organization header and client defaults -/

/-- C22: `SignRequest` sets the organization header `X-JMS-ORG` to the
configured organization identifier when that identifier is not empty, and
leaves the header as the request had it (unset for a fresh request) when it is
empty. -/
theorem C22_org_header_iff_nonempty (env : Env) (c : Client) (req : Request) (st : St) :
    (c.config.OrgID ≠ "" →
        (SignRequest env c req st).1.2.Header.Get "X-JMS-ORG" = c.config.OrgID
          ∧ (SignRequest env c req st).1.2.Header.lookup (CanonicalMIMEHeaderKey "X-JMS-ORG")
              = some [c.config.OrgID])
      ∧ (c.config.OrgID = "" →
        (SignRequest env c req st).1.2.Header.lookup (CanonicalMIMEHeaderKey "X-JMS-ORG")
          = req.Header.lookup (CanonicalMIMEHeaderKey "X-JMS-ORG")) := by
  have h1 : CanonicalMIMEHeaderKey "X-JMS-ORG" ≠ CanonicalMIMEHeaderKey "Authorization" := by decide
  have h2 : CanonicalMIMEHeaderKey "X-JMS-ORG" ≠ CanonicalMIMEHeaderKey "Date" := by decide
  constructor
  · intro ho
    constructor
    · unfold SignRequest
      simp [ho, Header.Get_Set_same]
    · unfold SignRequest
      simp [ho, Header.Set, Header.lookup_put_same]
  · intro ho
    unfold SignRequest
    simp [ho, Header.Set, Header.lookup_put_other _ _ _ _ h1, Header.lookup_put_other _ _ _ _ h2]

/-- The scenario of C22: a client of organization `org-1` sets the header to
`org-1`; a client with an empty organization leaves a fresh request without
the header. -/
theorem C22_org_header_scenario :
    ((SignRequest (scenarioEnv (scenarioResponse 200 "200 OK" ""))
        { scenarioClient with config := { scenarioClient.config with OrgID := "org-1" } }
        { Method := "GET", URL := { Path := "/api/v1/users/users/", RawQuery := "" },
          Header := [], Body := none } St.init).1.2.Header.Get "X-JMS-ORG" = "org-1"
      ∧ (SignRequest (scenarioEnv (scenarioResponse 200 "200 OK" ""))
        { scenarioClient with config := { scenarioClient.config with OrgID := "org-1" } }
        { Method := "GET", URL := { Path := "/api/v1/users/users/", RawQuery := "" },
          Header := [], Body := none } St.init).1.2.Header.lookup
            (CanonicalMIMEHeaderKey "X-JMS-ORG") = some ["org-1"])
    ∧ (SignRequest (scenarioEnv (scenarioResponse 200 "200 OK" ""))
        { scenarioClient with config := { scenarioClient.config with OrgID := "" } }
        { Method := "GET", URL := { Path := "/api/v1/users/users/", RawQuery := "" },
          Header := [], Body := none } St.init).1.2.Header.lookup
            (CanonicalMIMEHeaderKey "X-JMS-ORG") = none :=
  ⟨(C22_org_header_iff_nonempty (scenarioEnv (scenarioResponse 200 "200 OK" ""))
      { scenarioClient with config := { scenarioClient.config with OrgID := "org-1" } }
      { Method := "GET", URL := { Path := "/api/v1/users/users/", RawQuery := "" },
        Header := [], Body := none } St.init).1 (by decide),
    (C22_org_header_iff_nonempty (scenarioEnv (scenarioResponse 200 "200 OK" ""))
      { scenarioClient with config := { scenarioClient.config with OrgID := "" } }
      { Method := "GET", URL := { Path := "/api/v1/users/users/", RawQuery := "" },
        Header := [], Body := none } St.init).2 rfl⟩

/-- C23: the client `NewClient` builds has the all-zero UUID for an empty
organization identifier and the supplied one otherwise, 30 seconds for a zero
timeout and the supplied one otherwise, and the supplied endpoint, key id, key
secret and certificate-verification flag unchanged. -/
theorem C23_new_client_defaults (cfg : Config) :
    (NewClient cfg).config.OrgID
        = (if cfg.OrgID = "" then "00000000-0000-0000-0000-000000000000" else cfg.OrgID)
      ∧ (NewClient cfg).config.Timeout = (if cfg.Timeout = 0 then 30000000000 else cfg.Timeout)
      ∧ (NewClient cfg).httpClient.Timeout = (NewClient cfg).config.Timeout
      ∧ (NewClient cfg).config.Endpoint = cfg.Endpoint
      ∧ (NewClient cfg).config.KeyID = cfg.KeyID
      ∧ (NewClient cfg).config.KeySecret = cfg.KeySecret
      ∧ (NewClient cfg).config.InsecureSkipVerify = cfg.InsecureSkipVerify
      ∧ (NewClient cfg).httpClient.InsecureSkipVerify = cfg.InsecureSkipVerify := by
  unfold NewClient
  by_cases ht : cfg.Timeout = 0 <;> by_cases ho : cfg.OrgID = "" <;>
    simp [ht, ho, time_Second]

/-- C30: every request signed by a client that `NewClient` built carries the
header `X-JMS-ORG` with a non-empty value, the all-zero UUID when the
configuration had no organization identifier and the configured one otherwise:
the organization identifier of such a client is never empty. -/
theorem C30_new_client_always_sends_org (cfg : Config) (env : Env) (req : Request) (st : St) :
    (NewClient cfg).config.OrgID ≠ ""
      ∧ (SignRequest env (NewClient cfg) req st).1.2.Header.Get "X-JMS-ORG"
          = (if cfg.OrgID = "" then "00000000-0000-0000-0000-000000000000" else cfg.OrgID)
      ∧ (SignRequest env (NewClient cfg) req st).1.2.Header.Get "X-JMS-ORG" ≠ "" := by
  have horg : (NewClient cfg).config.OrgID
      = (if cfg.OrgID = "" then "00000000-0000-0000-0000-000000000000" else cfg.OrgID) := by
    unfold NewClient
    by_cases ht : cfg.Timeout = 0 <;> by_cases ho : cfg.OrgID = "" <;> simp [ht, ho]
  have hne : (NewClient cfg).config.OrgID ≠ "" := by
    rw [horg]
    by_cases ho : cfg.OrgID = ""
    · simp only [ho, if_true]; decide
    · simp only [ho, if_false]; exact ho
  have hget : (SignRequest env (NewClient cfg) req st).1.2.Header.Get "X-JMS-ORG"
      = (NewClient cfg).config.OrgID := by
    unfold SignRequest
    simp [hne, Header.Get_Set_same]
  refine ⟨hne, ?_, ?_⟩
  · rw [hget, horg]
  · rw [hget]; exact hne

/-! ## First match -/

theorem find_first {T : Type} (f : T → Bool) (pre post : List T) (x : T)
    (hpre : ∀ y ∈ pre, f y = false) (hx : f x = true) :
    (pre ++ x :: post).find? f = some x := by
  induction pre with
  | nil => simp [List.find?, hx]
  | cons y ys ih =>
      have hy : f y = false := hpre y (List.mem_cons_self _ _)
      simp only [List.cons_append, List.find?, hy]
      exact ih (fun z hz => hpre z (List.mem_cons_of_mem _ hz))

/-- C28: when the fetched list holds several elements that match the key, the
lookup returns the first of them in list order: the element before which no
element matches. For platforms a match is on the name or on the display name,
so an earlier platform matching by display name wins over a later one matching
by name. -/
theorem C28_first_match_wins (env : Env) (c : Client) (st st' : St) (k : String) :
    (∀ (pre post : List Platform) (x : Platform),
        ListPlatforms env c st = ((pre ++ x :: post, none), st') →
        (∀ p ∈ pre, p.Name ≠ k ∧ p.DisplayName ≠ k) → (x.Name = k ∨ x.DisplayName = k) →
        GetPlatformByName env c k st = ((some x, none), st'))
    ∧ (∀ (pre post : List Node) (x : Node),
        ListNodes env c st = ((pre ++ x :: post, none), st') →
        (∀ n ∈ pre, n.FullName ≠ k) → x.FullName = k →
        GetNodeByFullName env c k st = ((some x, none), st'))
    ∧ (∀ (pre post : List User) (x : User),
        ListUsers env c st = ((pre ++ x :: post, none), st') →
        (∀ u ∈ pre, u.Username ≠ k) → x.Username = k →
        GetUserByUsername env c k st = ((some x, none), st')) := by
  refine ⟨?_, ?_, ?_⟩
  · intro pre post x hL hpre hx
    have hfind := find_first (fun p : Platform => p.Name == k || p.DisplayName == k) pre post x
      (by intro y hy; simpa using hpre y hy) (by simpa using hx)
    simp [GetPlatformByName, hL, hfind]
  · intro pre post x hL hpre hx
    have hfind := find_first (fun n : Node => n.FullName == k) pre post x
      (by intro y hy; simpa using hpre y hy) (by simpa using hx)
    simp [GetNodeByFullName, hL, hfind]
  · intro pre post x hL hpre hx
    have hfind := find_first (fun u : User => u.Username == k) pre post x
      (by intro y hy; simpa using hpre y hy) (by simpa using hx)
    simp [GetUserByUsername, hL, hfind]

/-- The scenario of C28: the first platform has the display name `Linux` and
the second the name `Linux`; the key `Linux` returns the first. -/
theorem C28_display_name_first_scenario :
    (GetPlatformByName (scenarioEnv (scenarioResponse 200 "200 OK"
        "[\x7b\"name\":\"Ubuntu\",\"display_name\":\"Linux\"\x7d,\x7b\"name\":\"Linux\"\x7d]"))
        scenarioClient "Linux" St.init).1
      = (some { Platform.zero with Name := "Ubuntu", DisplayName := "Linux" }, none) :=
  congrArg Prod.fst ((C28_first_match_wins (scenarioEnv (scenarioResponse 200 "200 OK"
      "[\x7b\"name\":\"Ubuntu\",\"display_name\":\"Linux\"\x7d,\x7b\"name\":\"Linux\"\x7d]"))
    scenarioClient St.init
    (ListPlatforms (scenarioEnv (scenarioResponse 200 "200 OK"
      "[\x7b\"name\":\"Ubuntu\",\"display_name\":\"Linux\"\x7d,\x7b\"name\":\"Linux\"\x7d]"))
      scenarioClient St.init).2 "Linux").1
    [] [{ Platform.zero with Name := "Linux" }]
    { Platform.zero with Name := "Ubuntu", DisplayName := "Linux" }
    (Prod.ext (by decide) rfl) (by intro p hp; cases hp) (by decide))

/-! ## Envelopes without results, update bodies, command handles -/

theorem ListResponse_field_results {T : Type} (elemType : String) (zero : T)
    (dec : JSON → T → T × Option String) (key : String) (j : JSON) (x : ListResponse T)
    (hkey : foldName key ≠ "results") :
    (ListResponse.field elemType zero dec key j x).1.Results = x.Results := by
  unfold ListResponse.field
  simp only [hkey, if_false]
  split
  · rfl
  · split
    · rfl
    · split
      · rfl
      · rfl

theorem ListResponse_members_results {T : Type} (elemType : String) (zero : T)
    (dec : JSON → T → T × Option String) (ms : List (String × JSON)) (x : ListResponse T)
    (hms : ∀ kv ∈ ms, foldName kv.1 ≠ "results") :
    (decodeMembers (ListResponse.field elemType zero dec) ms x).1.Results = x.Results := by
  induction ms generalizing x with
  | nil => rfl
  | cons kv rest ih =>
      obtain ⟨k, j⟩ := kv
      have hk : foldName k ≠ "results" := hms (k, j) (List.mem_cons_self _ _)
      have hrest := ih (ListResponse.field elemType zero dec k j x).1
        (fun kv hkv => hms kv (List.mem_cons_of_mem _ hkv))
      simp only [decodeMembers]
      rw [hrest]
      exact ListResponse_field_results elemType zero dec k j x hk

theorem envelope_without_results {T : Type} (type elemType : String) (zero : T)
    (dec : JSON → T → T × Option String) (body : String)
    (hshape : JSON.parse body = some JSON.null
      ∨ ∃ ms, JSON.parse body = some (JSON.obj ms) ∧ ∀ kv ∈ ms, foldName kv.1 ≠ "results") :
    (json_Unmarshal (ListResponse.decode type elemType zero dec) body ListResponse.zero).1.Results
      = [] := by
  rcases hshape with h | ⟨ms, h, hms⟩
  · simp [json_Unmarshal, h, ListResponse.decode, decodeStruct, ListResponse.zero]
  · simp only [json_Unmarshal, h, ListResponse.decode, decodeStruct]
    exact ListResponse_members_results elemType zero dec ms ListResponse.zero hms

/-- C27, the claim refuted: the body `{"count":"many"}` is a JSON object
without a `results` member, yet `ListPlatforms` fails on it with a decode error
(the envelope attempt meets a string where `count` is an integer, the array
attempt meets an object), and `GetPlatformByName` reports that error, not a
missing platform. -/
theorem C27_mistyped_count_is_decode_error :
    (ListPlatforms (scenarioEnv (scenarioResponse 200 "200 OK" "\x7b\"count\":\"many\"\x7d"))
        scenarioClient St.init).1
      = ([], some ("failed to unmarshal response as paginated or array: "
          ++ "json: cannot unmarshal object into Go value of type []jumpserver.Platform"))
    ∧ (GetPlatformByName (scenarioEnv (scenarioResponse 200 "200 OK" "\x7b\"count\":\"many\"\x7d"))
        scenarioClient "Linux" St.init).1
      = (none, some ("failed to unmarshal response as paginated or array: "
          ++ "json: cannot unmarshal object into Go value of type []jumpserver.Platform")) := by
  constructor <;> decide

/-- C27 as amended: when the body the list request obtains is the literal
`null`, or an object none of whose keys selects `results` and which decodes as
the envelope without a mismatch, `ListPlatforms` and `ListNodes` return no
element and no error, and the lookup that follows reports not found. -/
theorem C27_envelope_without_results_is_empty (env : Env) (c : Client) (st stp stn : St)
    (body k : String)
    (hshape : JSON.parse body = some JSON.null
      ∨ ∃ ms, JSON.parse body = some (JSON.obj ms) ∧ ∀ kv ∈ ms, foldName kv.1 ≠ "results") :
    (getRaw env c "/api/v1/assets/platforms/" st = ((body, none), stp) →
      (json_Unmarshal PlatformListResponse.decode body ListResponse.zero).2 = none →
      ListPlatforms env c st = (([], none), stp)
        ∧ GetPlatformByName env c k st = ((none, some ("platform not found: " ++ k)), stp))
    ∧ (getRaw env c "/api/v1/assets/nodes/" st = ((body, none), stn) →
      (json_Unmarshal NodeListResponse.decode body ListResponse.zero).2 = none →
      ListNodes env c st = (([], none), stn)
        ∧ GetNodeByFullName env c k st = ((none, some ("node not found: " ++ k)), stn)) := by
  constructor
  · intro hraw hdec
    have hres := envelope_without_results "jumpserver.PlatformListResponse" "jumpserver.Platform"
      Platform.zero Platform.decode body hshape
    have hL : ListPlatforms env c st = (([], none), stp) := by
      cases hU : json_Unmarshal PlatformListResponse.decode body ListResponse.zero with
      | mk p e =>
          have he : e = none := by simpa [hU] using hdec
          have hp : p.Results = [] := by
            have := hres
            unfold PlatformListResponse.decode at hU
            rw [hU] at this
            exact this
          subst he
          simp [ListPlatforms, hraw, hU, hp]
    exact ⟨hL, by simp [GetPlatformByName, hL]⟩
  · intro hraw hdec
    have hres := envelope_without_results "jumpserver.NodeListResponse" "jumpserver.Node"
      Node.zero Node.decode body hshape
    have hL : ListNodes env c st = (([], none), stn) := by
      cases hU : json_Unmarshal NodeListResponse.decode body ListResponse.zero with
      | mk p e =>
          have he : e = none := by simpa [hU] using hdec
          have hp : p.Results = [] := by
            have := hres
            unfold NodeListResponse.decode at hU
            rw [hU] at this
            exact this
          subst he
          simp [ListNodes, hraw, hU, hp]
    exact ⟨hL, by simp [GetNodeByFullName, hL]⟩

/-- The scenario of C27 as amended: the server answers the error object
`{"detail":"x"}`; both list operations return no element and no error and the
lookups report not found. -/
theorem C27_error_object_scenario :
    ((ListPlatforms (scenarioEnv (scenarioResponse 200 "200 OK" "\x7b\"detail\":\"x\"\x7d"))
        scenarioClient St.init).1 = ([], none)
      ∧ (GetPlatformByName (scenarioEnv (scenarioResponse 200 "200 OK" "\x7b\"detail\":\"x\"\x7d"))
        scenarioClient "Linux" St.init).1 = (none, some "platform not found: Linux"))
    ∧ ((ListNodes (scenarioEnv (scenarioResponse 200 "200 OK" "\x7b\"detail\":\"x\"\x7d"))
        scenarioClient St.init).1 = ([], none)
      ∧ (GetNodeByFullName (scenarioEnv (scenarioResponse 200 "200 OK" "\x7b\"detail\":\"x\"\x7d"))
        scenarioClient "/Default" St.init).1 = (none, some "node not found: /Default")) :=
  have hP := (C27_envelope_without_results_is_empty
    (scenarioEnv (scenarioResponse 200 "200 OK" "\x7b\"detail\":\"x\"\x7d")) scenarioClient St.init
    (getRaw (scenarioEnv (scenarioResponse 200 "200 OK" "\x7b\"detail\":\"x\"\x7d")) scenarioClient
      "/api/v1/assets/platforms/" St.init).2
    (getRaw (scenarioEnv (scenarioResponse 200 "200 OK" "\x7b\"detail\":\"x\"\x7d")) scenarioClient
      "/api/v1/assets/nodes/" St.init).2
    "\x7b\"detail\":\"x\"\x7d" "Linux"
    (Or.inr ⟨[("detail", JSON.str "x")], by decide, by decide⟩)).1
    (Prod.ext (by decide) rfl) (by decide)
  have hN := (C27_envelope_without_results_is_empty
    (scenarioEnv (scenarioResponse 200 "200 OK" "\x7b\"detail\":\"x\"\x7d")) scenarioClient St.init
    (getRaw (scenarioEnv (scenarioResponse 200 "200 OK" "\x7b\"detail\":\"x\"\x7d")) scenarioClient
      "/api/v1/assets/platforms/" St.init).2
    (getRaw (scenarioEnv (scenarioResponse 200 "200 OK" "\x7b\"detail\":\"x\"\x7d")) scenarioClient
      "/api/v1/assets/nodes/" St.init).2
    "\x7b\"detail\":\"x\"\x7d" "/Default"
    (Or.inr ⟨[("detail", JSON.str "x")], by decide, by decide⟩)).2
    (Prod.ext (by decide) rfl) (by decide)
  ⟨⟨congrArg Prod.fst hP.1, congrArg Prod.fst hP.2⟩, ⟨congrArg Prod.fst hN.1, congrArg Prod.fst hN.2⟩⟩

/-- C24, the code at the failing input: an `UpdateAssetRequest` whose fields
are all empty is written `{"platform":{"pk":0}}`, the tag `omitempty` having no
effect on a struct, and that is the body `UpdateAsset` sends; the all-empty
requests of the three other kinds are written `{}`. -/
theorem C24_empty_asset_update_writes_platform :
    (UpdateAssetRequest.toJSON
        { Name := "", Address := "", Platform := { PK := 0 }, Nodes := [], Protocols := [],
          Accounts := [], Labels := [], IsActive := none, Comment := "" }).render
      = "\x7b\"platform\":\x7b\"pk\":0\x7d\x7d"
    ∧ ((UpdateAsset (scenarioEnv (scenarioResponse 200 "200 OK" "\x7b\x7d")) scenarioClient "a1"
        { Name := "", Address := "", Platform := { PK := 0 }, Nodes := [], Protocols := [],
          Accounts := [], Labels := [], IsActive := none, Comment := "" } St.init).2.sent.map
          (fun r => r.Body)) = [some "\x7b\"platform\":\x7b\"pk\":0\x7d\x7d"]
    ∧ (UpdateAccountRequest.toJSON
        { Name := "", Secret := "", SecretType := "", Comment := "" }).render = "\x7b\x7d"
    ∧ (UpdateUserRequest.toJSON
        { Username := "", Name := "", Email := "", Comment := "", IsActive := none }).render
      = "\x7b\x7d"
    ∧ (UpdatePermissionRequest.toJSON
        { Name := "", Users := [], UserGroups := [], Assets := [], AssetGroups := [],
          Actions := [], Comment := "" }).render = "\x7b\x7d" := by
  refine ⟨?_, ?_, ?_, ?_, ?_⟩ <;> decide

theorem CommandExecutionResponse_field_id (key : String) (j : JSON)
    (x : CommandExecutionResponse) (hkey : foldName key = "id") :
    CommandExecutionResponse.field key j x = (x, none) := by
  unfold CommandExecutionResponse.field
  simp [hkey]

theorem CommandExecutionResponse_drops_id (ms : List (String × JSON))
    (x : CommandExecutionResponse) :
    decodeMembers CommandExecutionResponse.field ms x
      = decodeMembers CommandExecutionResponse.field
          (ms.filter (fun kv => decide (foldName kv.1 ≠ "id"))) x := by
  induction ms generalizing x with
  | nil => rfl
  | cons kv rest ih =>
      obtain ⟨k, j⟩ := kv
      by_cases hk : foldName k = "id"
      · have hf : (decide (foldName (k, j).1 ≠ "id")) = false := by simp [hk]
        rw [List.filter_cons_of_neg (by simp [hk])]
        simp only [decodeMembers, CommandExecutionResponse_field_id k j x hk]
        rw [ih x]
        simp [firstError]
      · rw [List.filter_cons_of_pos (by simp [hk])]
        simp only [decodeMembers]
        rw [ih]

/-- C25, the claim refuted: the server answers the submission with
`{"id":"job-1","mark":"m1"}`, or with `{"id":"job-2","mark":"m1"}`. In both
cases `CreateExecuteCommand` returns the same handle, holding the mark and no
identifier: the job identifier of the response is not in what the caller
receives. -/
theorem C25_handle_without_identifier :
    (CreateExecuteCommand
        (scenarioEnv (scenarioResponse 201 "201 Created" "\x7b\"id\":\"job-1\",\"mark\":\"m1\"\x7d"))
        scenarioClient
        { Assets := some ["a1"], Nodes := none, Module := "shell", Args := "uptime", Runas := "root",
          RunasPolicy := "skip", Instant := true, IsPeriodic := false, Timeout := 60 } St.init).1
      = (some { Data := "", End_ := false, Mark := "m1" }, none)
    ∧ (CreateExecuteCommand
        (scenarioEnv (scenarioResponse 201 "201 Created" "\x7b\"id\":\"job-2\",\"mark\":\"m1\"\x7d"))
        scenarioClient
        { Assets := some ["a1"], Nodes := none, Module := "shell", Args := "uptime", Runas := "root",
          RunasPolicy := "skip", Instant := true, IsPeriodic := false, Timeout := 60 } St.init).1
      = (some { Data := "", End_ := false, Mark := "m1" }, none) := by
  constructor <;> decide

/-- C25 as amended: for every successful command submission whose answer is a
JSON object, the handle `CreateExecuteCommand` returns holds what the members
`data`, `end` and `mark` of the answer decode to, the resumption mark among
them, and is the same as if the answer had no `id` member: the identifier is
dropped. -/
theorem C25_handle_carries_mark_only (env : Env) (c : Client)
    (req : CreateCommandExecutionRequest) (st : St) (r : Request) (resp : Response)
    (ms : List (String × JSON))
    (hreq : DoRequest.outgoing env c "POST" "/api/v1/ops/jobs/" (some req.toJSON.render) st
      = Except.ok r)
    (hresp : env.roundTrip st.sent r = Except.ok resp)
    (hread : resp.ReadErr = none)
    (hstatus : 200 ≤ resp.StatusCode ∧ resp.StatusCode < 300)
    (hbody : JSON.parse resp.Body = some (JSON.obj ms))
    (hdec : (decodeMembers CommandExecutionResponse.field ms CommandExecutionResponse.zero).2
      = none) :
    (CreateExecuteCommand env c req st).1
        = (some (decodeMembers CommandExecutionResponse.field ms CommandExecutionResponse.zero).1,
            none)
      ∧ (decodeMembers CommandExecutionResponse.field ms CommandExecutionResponse.zero).1
        = (decodeMembers CommandExecutionResponse.field
            (ms.filter (fun kv => decide (foldName kv.1 ≠ "id"))) CommandExecutionResponse.zero).1 := by
  have hs : ¬ (resp.StatusCode < 200 ∨ resp.StatusCode ≥ 300) := by omega
  have hdo := DoRequest_of_response env c "POST" "/api/v1/ops/jobs/" (some req.toJSON.render)
    commandDest (some CommandExecutionResponse.zero) st r resp hreq hresp hread
  refine ⟨?_, by rw [← CommandExecutionResponse_drops_id]⟩
  have hU : json_Unmarshal commandDest.decode resp.Body CommandExecutionResponse.zero
      = ((decodeMembers CommandExecutionResponse.field ms CommandExecutionResponse.zero).1,
          none) := by
    simp only [json_Unmarshal, hbody, commandDest, CommandExecutionResponse.decode, decodeStruct]
    exact Prod.ext rfl hdec
  have hsettle : DoRequest.settle commandDest (some CommandExecutionResponse.zero) resp
      = (none, some (decodeMembers CommandExecutionResponse.field ms
          CommandExecutionResponse.zero).1) := by
    simp only [DoRequest.settle, hs, if_false, hU]
  unfold CreateExecuteCommand Post json_Marshal
  have hdo2 : (DoRequest env c "POST" "/api/v1/ops/jobs/" (some (Except.ok req.toJSON.render))
      commandDest (some CommandExecutionResponse.zero) st).1
      = (none, some (decodeMembers CommandExecutionResponse.field ms
          CommandExecutionResponse.zero).1) := by
    rw [← hsettle]
    exact hdo
  exact Prod.ext (congrArg Prod.snd hdo2) (congrArg Prod.fst hdo2)

theorem C25_job_answer_scenario :
    (CreateExecuteCommand
        (scenarioEnv (scenarioResponse 201 "201 Created"
          "\x7b\"id\":\"job-1\",\"mark\":\"m1\",\"data\":\"queued\"\x7d"))
        scenarioClient
        { Assets := some ["a1"], Nodes := none, Module := "shell", Args := "uptime", Runas := "root",
          RunasPolicy := "skip", Instant := true, IsPeriodic := false, Timeout := 60 } St.init).1
      = (some { Data := "queued", End_ := false, Mark := "m1" }, none) :=
  (C25_handle_carries_mark_only
    (scenarioEnv (scenarioResponse 201 "201 Created"
      "\x7b\"id\":\"job-1\",\"mark\":\"m1\",\"data\":\"queued\"\x7d"))
    scenarioClient
    { Assets := some ["a1"], Nodes := none, Module := "shell", Args := "uptime", Runas := "root",
      RunasPolicy := "skip", Instant := true, IsPeriodic := false, Timeout := 60 } St.init _
    (scenarioResponse 201 "201 Created"
      "\x7b\"id\":\"job-1\",\"mark\":\"m1\",\"data\":\"queued\"\x7d")
    [("id", JSON.str "job-1"), ("mark", JSON.str "m1"), ("data", JSON.str "queued")]
    rfl rfl rfl (by decide) (by decide) (by decide)).1

/-! ## The encoding of the digest is injective -/

theorem encodeStdChar_index (i : Fin 64) : encodeStd.indexOf (encodeStdChar i.val) = i.val := by
  revert i
  decide

theorem encodeStdChar_ne_pad (n : Nat) : encodeStdChar n ≠ '=' := by
  have h : ∀ i : Fin 64, encodeStdChar i.val ≠ '=' := by decide
  have h2 := h ⟨n % 64, Nat.mod_lt _ (by decide)⟩
  simpa [encodeStdChar] using h2

theorem encodeStdChar_inj {m n : Nat} (h : encodeStdChar m = encodeStdChar n) :
    m % 64 = n % 64 := by
  have hm := encodeStdChar_index ⟨m % 64, Nat.mod_lt _ (by decide)⟩
  have hn := encodeStdChar_index ⟨n % 64, Nat.mod_lt _ (by decide)⟩
  have e : ∀ k, encodeStdChar (k % 64) = encodeStdChar k := fun k => by simp [encodeStdChar]
  simp only [e] at hm hn
  rw [← hm, ← hn, h]

theorem UInt8_eq_of_toNat {a b : UInt8} (h : a.toNat = b.toNat) : a = b := by
  cases a with
  | mk x =>
    cases b with
    | mk y =>
      have : x = y := BitVec.eq_of_toNat_eq h
      rw [this]

theorem UInt8_toNat_lt (a : UInt8) : a.toNat < 256 := a.toBitVec.isLt

theorem base64Chars_inj : ∀ (xs ys : List UInt8), base64Chars xs = base64Chars ys → xs = ys
  | [], [], _ => rfl
  | [], [_], h => by simp [base64Chars] at h
  | [], [_, _], h => by simp [base64Chars] at h
  | [], _ :: _ :: _ :: _, h => by simp [base64Chars] at h
  | [_], [], h => by simp [base64Chars] at h
  | [_, _], [], h => by simp [base64Chars] at h
  | _ :: _ :: _ :: _, [], h => by simp [base64Chars] at h
  | [a], [a'], h => by
      simp only [base64Chars, List.cons.injEq] at h
      have h1 := encodeStdChar_inj h.1
      have h2 := encodeStdChar_inj h.2.1
      have ha := UInt8_toNat_lt a
      have ha' := UInt8_toNat_lt a'
      have : a.toNat = a'.toNat := by omega
      rw [UInt8_eq_of_toNat this]
  | [a], [a', b'], h => by
      simp only [base64Chars, List.cons.injEq] at h
      exact absurd h.2.2.1.symm (encodeStdChar_ne_pad _)
  | [a], a' :: b' :: c' :: rest', h => by
      simp only [base64Chars, List.cons.injEq] at h
      exact absurd h.2.2.1.symm (encodeStdChar_ne_pad _)
  | [a, b], [a'], h => by
      simp only [base64Chars, List.cons.injEq] at h
      exact absurd h.2.2.1 (encodeStdChar_ne_pad _)
  | [a, b], [a', b'], h => by
      simp only [base64Chars, List.cons.injEq] at h
      have h1 := encodeStdChar_inj h.1
      have h2 := encodeStdChar_inj h.2.1
      have h3 := encodeStdChar_inj h.2.2.1
      have ha := UInt8_toNat_lt a
      have ha' := UInt8_toNat_lt a'
      have hb := UInt8_toNat_lt b
      have hb' := UInt8_toNat_lt b'
      have e1 : a.toNat = a'.toNat := by omega
      have e2 : b.toNat = b'.toNat := by omega
      rw [UInt8_eq_of_toNat e1, UInt8_eq_of_toNat e2]
  | [a, b], a' :: b' :: c' :: rest', h => by
      simp only [base64Chars, List.cons.injEq] at h
      exact absurd h.2.2.2.1.symm (encodeStdChar_ne_pad _)
  | a :: b :: c :: rest, [a'], h => by
      simp only [base64Chars, List.cons.injEq] at h
      exact absurd h.2.2.1 (encodeStdChar_ne_pad _)
  | a :: b :: c :: rest, [a', b'], h => by
      simp only [base64Chars, List.cons.injEq] at h
      exact absurd h.2.2.2.1 (encodeStdChar_ne_pad _)
  | a :: b :: c :: rest, a' :: b' :: c' :: rest', h => by
      simp only [base64Chars, List.cons.injEq] at h
      have ih := base64Chars_inj rest rest' h.2.2.2.2
      have h1 := encodeStdChar_inj h.1
      have h2 := encodeStdChar_inj h.2.1
      have h3 := encodeStdChar_inj h.2.2.1
      have h4 := encodeStdChar_inj h.2.2.2.1
      have ha := UInt8_toNat_lt a
      have ha' := UInt8_toNat_lt a'
      have hb := UInt8_toNat_lt b
      have hb' := UInt8_toNat_lt b'
      have hc := UInt8_toNat_lt c
      have hc' := UInt8_toNat_lt c'
      have e1 : a.toNat = a'.toNat := by omega
      have e2 : b.toNat = b'.toNat := by omega
      have e3 : c.toNat = c'.toNat := by omega
      rw [UInt8_eq_of_toNat e1, UInt8_eq_of_toNat e2, UInt8_eq_of_toNat e3, ih]

theorem base64_inj {xs ys : List UInt8}
    (h : base64_StdEncoding_EncodeToString xs = base64_StdEncoding_EncodeToString ys) :
    xs = ys :=
  base64Chars_inj xs ys (congrArg String.data h)

theorem String_append_left_cancel {a b c : String} (h : a ++ b = a ++ c) : b = c := by
  have h2 := congrArg String.data h
  simp only [String.data_append] at h2
  exact String.ext (List.append_cancel_left h2)

theorem String_append_right_cancel {a b c : String} (h : a ++ c = b ++ c) : a = b := by
  have h2 := congrArg String.data h
  simp only [String.data_append] at h2
  exact String.ext (List.append_cancel_right h2)

theorem authHeader_inj {k s s' : String} (h : authHeader k s = authHeader k s') : s = s' := by
  unfold authHeader at h
  exact String_append_left_cancel (String_append_right_cancel h)

theorem stringToSign_eq_iff_method (req req' : Request) (d : String)
    (hpath : req.URL.Path = req'.URL.Path) :
    stringToSign req d = stringToSign req' d
      ↔ strings_ToLower req.Method = strings_ToLower req'.Method := by
  unfold stringToSign
  constructor
  · intro h
    simp only [hpath] at h
    have h1 := String_append_right_cancel (String_append_right_cancel h)
    have h2 := String_append_right_cancel (String_append_right_cancel h1)
    exact String_append_left_cancel h2
  · intro h
    simp only [h, hpath]

theorem stringToSign_eq_iff_path (req req' : Request) (d : String)
    (hmethod : req.Method = req'.Method) :
    stringToSign req d = stringToSign req' d ↔ req.URL.Path = req'.URL.Path := by
  unfold stringToSign
  constructor
  · intro h
    simp only [hmethod] at h
    have h1 := String_append_right_cancel (String_append_right_cancel h)
    exact String_append_left_cancel h1
  · intro h
    simp only [h, hmethod]

theorem stringToSign_eq_iff_date (req req' : Request) (d d' : String)
    (hmethod : req.Method = req'.Method) (hpath : req.URL.Path = req'.URL.Path) :
    stringToSign req d = stringToSign req' d' ↔ d = d' := by
  unfold stringToSign
  constructor
  · intro h
    simp only [hmethod, hpath] at h
    exact String_append_left_cancel h
  · intro h
    simp only [h, hmethod, hpath]

/-- C21, the claim refuted: the methods `GET` and `get` differ, and with the
path, the timestamp and the secret kept fixed the two requests carry the same
Authorization value, hence the same signature, whatever the HMAC, the client,
the path and the clock are: `SignRequest` lower-cases the method before it
signs. -/
theorem C21_method_case_keeps_signature :
    "GET" ≠ "get"
      ∧ ∀ (env : Env) (c : Client) (st : St) (path : String),
          (SignRequest env c
              { Method := "GET", URL := { Path := path, RawQuery := "" }, Header := [],
                Body := none } st).1.2.Header.Get "Authorization"
            = (SignRequest env c
              { Method := "get", URL := { Path := path, RawQuery := "" }, Header := [],
                Body := none } st).1.2.Header.Get "Authorization" := by
  refine ⟨by decide, fun env c st path => ?_⟩
  rw [SignRequest_authorization, SignRequest_authorization]
  rfl

/-- C21 as amended: for two signings under the same key id, the Authorization
values, hence the signatures, differ exactly when the HMAC digests of the two
(secret, signing text) pairs differ; and with the other inputs kept fixed the
signing text changes exactly when the method changes other than in letter case,
when the path changes, or when the timestamp changes. The secret enters the
digest only. -/
theorem C21_signature_changes_with_digest (env : Env) (c c' : Client) (req req' : Request)
    (st st' : St) (hkey : c.config.KeyID = c'.config.KeyID) :
    ((SignRequest env c req st).1.2.Header.Get "Authorization"
          ≠ (SignRequest env c' req' st').1.2.Header.Get "Authorization"
        ↔ env.hmacSha256 c.config.KeySecret (stringToSign req (env.now st.ticks))
          ≠ env.hmacSha256 c'.config.KeySecret (stringToSign req' (env.now st'.ticks)))
      ∧ (req.URL.Path = req'.URL.Path →
          (stringToSign req (env.now st.ticks) ≠ stringToSign req' (env.now st.ticks)
            ↔ strings_ToLower req.Method ≠ strings_ToLower req'.Method))
      ∧ (req.Method = req'.Method →
          (stringToSign req (env.now st.ticks) ≠ stringToSign req' (env.now st.ticks)
            ↔ req.URL.Path ≠ req'.URL.Path))
      ∧ (req.Method = req'.Method → req.URL.Path = req'.URL.Path →
          (stringToSign req (env.now st.ticks) ≠ stringToSign req' (env.now st'.ticks)
            ↔ env.now st.ticks ≠ env.now st'.ticks)) := by
  refine ⟨?_, ?_, ?_, ?_⟩
  · rw [SignRequest_authorization, SignRequest_authorization, hkey]
    refine not_congr ⟨fun h => base64_inj (authHeader_inj h), fun h => by rw [h]⟩
  · intro hpath
    exact not_congr (stringToSign_eq_iff_method req req' _ hpath)
  · intro hmethod
    exact not_congr (stringToSign_eq_iff_path req req' _ hmethod)
  · intro hmethod hpath
    exact not_congr (stringToSign_eq_iff_date req req' _ _ hmethod hpath)

theorem C21_post_get_scenario :
    stringToSign
        { Method := "POST", URL := { Path := "/api/v1/users/users/", RawQuery := "" }, Header := [],
          Body := none } "Mon, 02 Jan 2006 15:04:05 GMT"
      ≠ stringToSign
        { Method := "GET", URL := { Path := "/api/v1/users/users/", RawQuery := "" }, Header := [],
          Body := none } "Mon, 02 Jan 2006 15:04:05 GMT" :=
  ((C21_signature_changes_with_digest (scenarioEnv (scenarioResponse 200 "200 OK" ""))
    scenarioClient scenarioClient
    { Method := "POST", URL := { Path := "/api/v1/users/users/", RawQuery := "" }, Header := [],
      Body := none }
    { Method := "GET", URL := { Path := "/api/v1/users/users/", RawQuery := "" }, Header := [],
      Body := none }
    St.init St.init rfl).2.1 rfl).mpr (by decide)

/-! ## The console -/

@[simp]
theorem St.print_console (st : St) (t : String) :
    (st.print t).console = st.console ++ [Output.line t] := rfl
@[simp]
theorem St.printAll_console (st : St) (ts : List String) :
    (st.printAll ts).console = st.console ++ ts.map Output.line := rfl

theorem extends_trans {α : Type} {x s a : List α} (h1 : ∃ t, x = s ++ t) (h2 : ∃ p, s = a ++ p) :
    ∃ t, x = a ++ t := by
  obtain ⟨t, ht⟩ := h1
  obtain ⟨p, hp⟩ := h2
  exact ⟨p ++ t, by rw [ht, hp, List.append_assoc]⟩

theorem DoRequest_tail_console {T : Type} (D : Dest T) (result : Option T) (resp : Response)
    (st : St) :
    ∃ tail, (if resp.StatusCode < 200 ∨ resp.StatusCode ≥ 300 then
        ((some ("API request failed with status " ++ fmt_d resp.StatusCode ++ ": " ++ resp.Body),
          result), st)
      else
        match result with
        | some dest =>
            match json_Unmarshal D.decode resp.Body dest with
            | (dest, some err) =>
                ((some ("failed to unmarshal response: " ++ err), some dest),
                  st.print ("[DEBUG] [CLIENT] Failed to unmarshal response: " ++ err ++ "\n"))
            | (dest, none) =>
                ((none, some dest),
                  { st with console := st.console ++ [Output.result D.typeName] })
        | none => ((none, none), st)).2.console = st.console ++ tail := by
  by_cases hs : resp.StatusCode < 200 ∨ resp.StatusCode ≥ 300
  · simp only [hs, if_true]
    exact ⟨[], by simp⟩
  · simp only [hs, if_false]
    cases result with
    | none => exact ⟨[], by simp⟩
    | some dest =>
        simp only []
        cases hU : json_Unmarshal D.decode resp.Body dest with
        | mk d e =>
            cases e with
            | none => exact ⟨_, rfl⟩
            | some err => exact ⟨_, rfl⟩

/-- The console after a `DoRequest` that built and signed its request: what
was there before, the lines of the request with the payload and every header of
the signed request, then the rest. -/
theorem DoRequest_console {T : Type} (env : Env) (c : Client) (method path : String)
    (payload : Option String) (D : Dest T) (result : Option T) (st : St) (req : Request)
    (hreq : DoRequest.outgoing env c method path payload st = Except.ok req) :
    ∃ tail, (DoRequest env c method path (payload.map Except.ok) D result st).2.console
      = (st.console
        ++ ([debugRule, "[DEBUG] [CLIENT] REQUEST START\n",
              "[DEBUG] [CLIENT] Method: " ++ method ++ "\n",
              "[DEBUG] [CLIENT] URL: " ++ (c.config.Endpoint ++ path) ++ "\n",
              "[DEBUG] [CLIENT] Path: " ++ path ++ "\n",
              (match payload with
                | some data => "[DEBUG] [CLIENT] Request Body:\n" ++ data ++ "\n"
                | none => "[DEBUG] [CLIENT] Request Body: (none)\n"),
              "[DEBUG] [CLIENT] Request Headers:\n"] ++ headerLines req.Header).map Output.line)
        ++ tail := by
  unfold DoRequest.outgoing at hreq
  unfold DoRequest
  cases payload with
  | none =>
      simp only [Option.map_none', Option.isSome_none] at hreq ⊢
      cases hnr : http_NewRequest env method (c.config.Endpoint ++ path) none with
      | error e => rw [hnr] at hreq; cases hreq
      | ok r =>
          rw [hnr] at hreq
          simp only [Bool.false_eq_true, if_false, Except.ok.injEq] at hreq
          simp only []
          rw [SignRequest_eq]
          simp only [St.print_ticks, St.print_sent, St.printAll_ticks, St.printAll_sent]
          rw [SignRequest_request_congr env c _ _ st (by simp)]
          simp only [Bool.false_eq_true, if_false]
          rw [hreq]
          cases hrt : env.roundTrip st.sent req with
          | error e =>
              refine ⟨[Output.line ("[DEBUG] [CLIENT] Failed to execute request: " ++ e ++ "\n"),
                Output.line debugRule], ?_⟩
              simp
          | ok resp =>
              simp only []
              cases hre : resp.ReadErr with
              | some e =>
                  refine ⟨[Output.line ("[DEBUG] [CLIENT] Failed to read response body: " ++ e
                    ++ "\n"), Output.line debugRule], ?_⟩
                  simp
              | none =>
                  simp only []
                  refine extends_trans (DoRequest_tail_console D result resp _)
                    ⟨(["[DEBUG] [CLIENT] Response Status: " ++ fmt_d resp.StatusCode ++ " "
                          ++ resp.Status ++ "\n", "[DEBUG] [CLIENT] Response Headers:\n"]
                        ++ headerLines resp.Header
                        ++ ["[DEBUG] [CLIENT] Response Body:\n" ++ resp.Body ++ "\n",
                          "[DEBUG] [CLIENT] RESPONSE END\n", debugRule]).map Output.line, ?_⟩
                  simp only [St.printAll_console, St.print_console, List.append_assoc,
                    List.map_cons, List.map_nil, List.cons_append, List.nil_append, List.map_append]
  | some data =>
      simp only [Option.map_some', Option.isSome_some] at hreq ⊢
      cases hnr : http_NewRequest env method (c.config.Endpoint ++ path) (some data) with
      | error e => rw [hnr] at hreq; cases hreq
      | ok r =>
          rw [hnr] at hreq
          simp only [if_true, Except.ok.injEq] at hreq
          simp only []
          rw [SignRequest_eq]
          simp only [St.print_ticks, St.print_sent, St.printAll_ticks, St.printAll_sent]
          rw [SignRequest_request_congr env c _ _ st (by simp)]
          simp only [if_true]
          rw [hreq]
          cases hrt : env.roundTrip st.sent req with
          | error e =>
              refine ⟨[Output.line ("[DEBUG] [CLIENT] Failed to execute request: " ++ e ++ "\n"),
                Output.line debugRule], ?_⟩
              simp
          | ok resp =>
              simp only []
              cases hre : resp.ReadErr with
              | some e =>
                  refine ⟨[Output.line ("[DEBUG] [CLIENT] Failed to read response body: " ++ e
                    ++ "\n"), Output.line debugRule], ?_⟩
                  simp
              | none =>
                  simp only []
                  refine extends_trans (DoRequest_tail_console D result resp _)
                    ⟨(["[DEBUG] [CLIENT] Response Status: " ++ fmt_d resp.StatusCode ++ " "
                          ++ resp.Status ++ "\n", "[DEBUG] [CLIENT] Response Headers:\n"]
                        ++ headerLines resp.Header
                        ++ ["[DEBUG] [CLIENT] Response Body:\n" ++ resp.Body ++ "\n",
                          "[DEBUG] [CLIENT] RESPONSE END\n", debugRule]).map Output.line, ?_⟩
                  simp only [St.printAll_console, St.print_console, List.append_assoc,
                    List.map_cons, List.map_nil, List.cons_append, List.nil_append, List.map_append]

theorem headerLines_mem (h : Header) (k v : String) (vs : List String) (hk : (k, vs) ∈ h)
    (hv : v ∈ vs) : ("[DEBUG] [CLIENT]   " ++ k ++ ": " ++ v ++ "\n") ∈ headerLines h := by
  unfold headerLines
  rw [List.mem_flatMap]
  exact ⟨(k, vs), hk, List.mem_map.mpr ⟨v, hv, rfl⟩⟩

theorem Header.mem_of_lookup (h : Header) (k : String) (vs : List String)
    (hl : h.lookup k = some vs) : (k, vs) ∈ h := by
  induction h with
  | nil => simp [List.lookup] at hl
  | cons kv rest ih =>
      obtain ⟨k0, v0⟩ := kv
      by_cases hk : k = k0
      · subst hk
        simp [List.lookup] at hl
        simp [hl]
      · have hne : (k == k0) = false := by simpa using hk
        simp only [List.lookup, hne] at hl
        exact List.mem_cons_of_mem _ (ih hl)

/-- The entry `SignRequest` leaves under `Authorization`. -/
theorem SignRequest_authorization_entry (env : Env) (c : Client) (req : Request) (st : St) :
    ("Authorization", [authHeader c.config.KeyID (base64_StdEncoding_EncodeToString
        (env.hmacSha256 c.config.KeySecret (stringToSign req (env.now st.ticks))))])
      ∈ (SignRequest env c req st).1.2.Header := by
  apply Header.mem_of_lookup
  have h1 : CanonicalMIMEHeaderKey "Authorization" ≠ CanonicalMIMEHeaderKey "X-JMS-ORG" := by decide
  have h2 : CanonicalMIMEHeaderKey "Authorization" = "Authorization" := by decide
  unfold SignRequest
  by_cases ho : c.config.OrgID = ""
  · simp only [ho, ne_eq, not_true_eq_false, if_false, Header.Set, h2, Header.lookup_put_same]
    rfl
  · simp only [ho, ne_eq, not_false_eq_true, if_true, Header.Set]
    rw [Header.lookup_put_other _ _ _ _ (h2 ▸ h1), h2, Header.lookup_put_same]
    rfl

theorem SignRequest_method_url (env : Env) (c : Client) (req : Request) (st : St) :
    (SignRequest env c req st).1.2.Method = req.Method
      ∧ (SignRequest env c req st).1.2.URL = req.URL := by
  unfold SignRequest
  by_cases ho : c.config.OrgID = "" <;> simp [ho]

/-- The signed request of `DoRequest.outgoing` holds the Authorization value
computed from its own method and path. -/
theorem outgoing_authorization_entry (env : Env) (c : Client) (method path : String)
    (payload : Option String) (st : St) (req : Request)
    (hreq : DoRequest.outgoing env c method path payload st = Except.ok req) :
    ("Authorization", [authHeader c.config.KeyID (base64_StdEncoding_EncodeToString
        (env.hmacSha256 c.config.KeySecret (stringToSign req (env.now st.ticks))))])
      ∈ req.Header := by
  unfold DoRequest.outgoing at hreq
  cases hnr : http_NewRequest env method (c.config.Endpoint ++ path) payload with
  | error e => rw [hnr] at hreq; cases hreq
  | ok r =>
      rw [hnr] at hreq
      simp only [Except.ok.injEq] at hreq
      rw [← hreq]
      have hmu := SignRequest_method_url env c
        (if payload.isSome = true then
          { r with Header := r.Header.Set "Content-Type" "application/json" } else r) st
      have hent := SignRequest_authorization_entry env c
        (if payload.isSome = true then
          { r with Header := r.Header.Set "Content-Type" "application/json" } else r) st
      have hs : ∀ d, stringToSign (SignRequest env c
          (if payload.isSome = true then
            { r with Header := r.Header.Set "Content-Type" "application/json" } else r) st).1.2 d
          = stringToSign (if payload.isSome = true then
            { r with Header := r.Header.Set "Content-Type" "application/json" } else r) d := by
        intro d
        simp only [stringToSign, hmu.1, hmu.2]
      rw [hs]
      exact hent

/-- The key secret enters `DoRequest` as the key of the digest only: with the
keyed digest function given, the outcome, the requests and the console are the
same whatever the client holds as its key secret. -/
theorem DoRequest_secret_keys_digest_only {T : Type} (env : Env) (c : Client)
    (method path : String) (body : Option (Except String String)) (D : Dest T)
    (result : Option T) (st : St) (s' : String) :
    DoRequest { env with hmacSha256 := fun _ t => env.hmacSha256 c.config.KeySecret t }
        { c with config := { c.config with KeySecret := s' } } method path body D result st
      = DoRequest env c method path body D result st := by
  rfl

theorem flatMap_encodeChar_plain (cs : List Char) (h : ∀ ch ∈ cs, encodeChar ch = [ch]) :
    cs.flatMap encodeChar = cs := by
  induction cs with
  | nil => rfl
  | cons ch rest ih =>
      rw [List.flatMap_cons, h ch (List.mem_cons_self _ _),
        ih (fun x hx => h x (List.mem_cons_of_mem _ hx))]
      rfl

/-- The text `json.Marshal` writes for a `CreateAccountRequest` holds the
member `secret` with the string literal of the secret. -/
theorem CreateAccountRequest_render_secret (r : CreateAccountRequest) :
    (encodeString "secret" ++ (':' :: encodeString r.Secret)) <:+: r.toJSON.render.data := by
  unfold CreateAccountRequest.toJSON JSON.render member omitEmptyString
  by_cases hc : r.Comment = ""
  · simp only [hc, if_true, List.append_nil, List.cons_append, List.nil_append, renderValue,
      renderMembers]
    exact ⟨'\x7b' :: (encodeString "username" ++ ':' :: encodeString r.Name
        ++ ',' :: (encodeString "asset" ++ ':' :: encodeString r.Asset ++ [','])),
      ',' :: (encodeString "secret_type" ++ ':' :: encodeString r.SecretType) ++ ['\x7d'],
      by simp⟩
  · simp only [hc, if_false, List.append_nil, List.cons_append, List.nil_append, renderValue,
      renderMembers]
    exact ⟨'\x7b' :: (encodeString "username" ++ ':' :: encodeString r.Name
        ++ ',' :: (encodeString "asset" ++ ':' :: encodeString r.Asset ++ [','])),
      ',' :: (encodeString "secret_type" ++ ':' :: encodeString r.SecretType
        ++ ',' :: (encodeString "comment" ++ ':' :: encodeString r.Comment)) ++ ['\x7d'],
      by simp⟩

theorem strings_Contains_trans {a b c : String} (h1 : strings_Contains b a)
    (h2 : strings_Contains c b) : strings_Contains c a :=
  List.IsInfix.trans h1 h2

theorem encodeString_infix_secret (s : String) :
    encodeString s <:+: (encodeString "secret" ++ (':' :: encodeString s)) :=
  ⟨encodeString "secret" ++ [':'], [], by simp⟩

theorem plain_infix_encodeString (s : String) (h : ∀ ch ∈ s.data, encodeChar ch = [ch]) :
    s.data <:+: encodeString s := by
  unfold encodeString
  rw [flatMap_encodeChar_plain s.data h]
  exact ⟨['"'], ['"'], by simp⟩

/-- C26, the clause on the key secret refuted: the server answers a GET with a
body that holds the text of the client's key secret. `DoRequest` prints the
response body, so the console holds the key secret, which occurs neither in
the URL nor in the payload, there being none. -/
theorem C26_key_secret_from_response_body :
    Output.line "[DEBUG] [CLIENT] Response Body:\n\x7b\"detail\":\"secret-1\"\x7d\n"
        ∈ (DoRequest (scenarioEnv (scenarioResponse 200 "200 OK" "\x7b\"detail\":\"secret-1\"\x7d"))
            scenarioClient "GET" "/api/v1/users/users/" none anyDest (some Any.nil)
            St.init).2.console
      ∧ strings_Contains "[DEBUG] [CLIENT] Response Body:\n\x7b\"detail\":\"secret-1\"\x7d\n"
          scenarioClient.config.KeySecret
      ∧ ¬ strings_Contains (scenarioClient.config.Endpoint ++ "/api/v1/users/users/")
          scenarioClient.config.KeySecret := by
  refine ⟨by decide, ?_, ?_⟩
  · unfold strings_Contains
    decide
  · unfold strings_Contains
    decide

/-- C26 as amended: when `DoRequest` builds and signs its request, the console
holds a line for every value of every header of the signed request, among them
the Authorization value with the computed signature, and, when there is a
payload, the line of the payload in full; `CreateAccount` so writes a line that
holds the string literal of the account secret, and the secret itself when no
character of it is escaped. The key secret enters as the key of the digest
only: with the keyed digest function given, `DoRequest` returns and prints the
same whatever the client holds as key secret. -/
theorem C26_console_shows_request_in_full (env : Env) (c : Client) :
    (∀ (T : Type) (method path : String) (payload : Option String) (D : Dest T)
        (result : Option T) (st : St) (req : Request),
        DoRequest.outgoing env c method path payload st = Except.ok req →
        (∀ k vs v, (k, vs) ∈ req.Header → v ∈ vs →
            Output.line ("[DEBUG] [CLIENT]   " ++ k ++ ": " ++ v ++ "\n")
              ∈ (DoRequest env c method path (payload.map Except.ok) D result st).2.console)
          ∧ Output.line ("[DEBUG] [CLIENT]   " ++ "Authorization" ++ ": "
                ++ authHeader c.config.KeyID (base64_StdEncoding_EncodeToString
                    (env.hmacSha256 c.config.KeySecret (stringToSign req (env.now st.ticks))))
                ++ "\n")
              ∈ (DoRequest env c method path (payload.map Except.ok) D result st).2.console
          ∧ (∀ data, payload = some data →
              Output.line ("[DEBUG] [CLIENT] Request Body:\n" ++ data ++ "\n")
                ∈ (DoRequest env c method path (payload.map Except.ok) D result st).2.console))
      ∧ (∀ (a : CreateAccountRequest) (st : St) (req : Request),
          DoRequest.outgoing env c "POST" "/api/v1/accounts/accounts/" (some a.toJSON.render) st
            = Except.ok req →
          ∃ text, Output.line text ∈ (CreateAccount env c a st).2.console
            ∧ strings_Contains text (String.mk (encodeString a.Secret))
            ∧ ((∀ ch ∈ a.Secret.data, encodeChar ch = [ch]) → strings_Contains text a.Secret))
      ∧ (∀ (T : Type) (method path : String) (body : Option (Except String String)) (D : Dest T)
          (result : Option T) (st : St) (s' : String),
          DoRequest { env with hmacSha256 := fun _ t => env.hmacSha256 c.config.KeySecret t }
              { c with config := { c.config with KeySecret := s' } } method path body D result st
            = DoRequest env c method path body D result st) := by
  have hfirst : ∀ (T : Type) (method path : String) (payload : Option String) (D : Dest T)
      (result : Option T) (st : St) (req : Request),
      DoRequest.outgoing env c method path payload st = Except.ok req →
      (∀ k vs v, (k, vs) ∈ req.Header → v ∈ vs →
          Output.line ("[DEBUG] [CLIENT]   " ++ k ++ ": " ++ v ++ "\n")
            ∈ (DoRequest env c method path (payload.map Except.ok) D result st).2.console)
        ∧ (∀ data, payload = some data →
            Output.line ("[DEBUG] [CLIENT] Request Body:\n" ++ data ++ "\n")
              ∈ (DoRequest env c method path (payload.map Except.ok) D result st).2.console) := by
    intro T method path payload D result st req hreq
    obtain ⟨tail, ht⟩ := DoRequest_console env c method path payload D result st req hreq
    constructor
    · intro k vs v hk hv
      rw [ht]
      have := headerLines_mem req.Header k v vs hk hv
      simp only [List.mem_append, List.mem_map, List.map_append]
      exact Or.inl (Or.inr (Or.inr ⟨_, this, rfl⟩))
    · intro data hdata
      rw [ht, hdata]
      simp
  refine ⟨?_, ?_, ?_⟩
  · intro T method path payload D result st req hreq
    obtain ⟨hh, hp⟩ := hfirst T method path payload D result st req hreq
    exact ⟨hh, hh _ _ _ (outgoing_authorization_entry env c method path payload st req hreq)
      (List.mem_singleton.mpr rfl), hp⟩
  · intro a st req hreq
    have hp := (hfirst _ "POST" "/api/v1/accounts/accounts/" (some a.toJSON.render) accountDest
      (some Account.zero) st req hreq).2 _ rfl
    have h1 : strings_Contains a.toJSON.render (String.mk (encodeString a.Secret)) :=
      List.IsInfix.trans (encodeString_infix_secret a.Secret)
        (CreateAccountRequest_render_secret a)
    refine ⟨_, hp, ?_, ?_⟩
    · exact strings_Contains_trans h1 (strings_Contains_middle _ _ _)
    · intro hplain
      have h2 : strings_Contains (String.mk (encodeString a.Secret)) a.Secret :=
        plain_infix_encodeString a.Secret hplain
      exact strings_Contains_trans h2
        (strings_Contains_trans h1 (strings_Contains_middle _ _ _))
  · intro T method path body D result st s'
    rfl

/-- The scenario of C26: creating an account whose secret is `hunter2` writes a
console line that holds `hunter2`. -/
theorem C26_account_secret_scenario :
    ∃ text, Output.line text
        ∈ (CreateAccount (scenarioEnv (scenarioResponse 201 "201 Created" "\x7b\"id\":\"acct-1\"\x7d"))
            scenarioClient
            { Name := "root", Asset := "a1", Secret := "hunter2", SecretType := "password",
              Comment := "" } St.init).2.console
      ∧ strings_Contains text "hunter2" :=
  match (C26_console_shows_request_in_full
      (scenarioEnv (scenarioResponse 201 "201 Created" "\x7b\"id\":\"acct-1\"\x7d"))
      scenarioClient).2.1
    { Name := "root", Asset := "a1", Secret := "hunter2", SecretType := "password", Comment := "" }
    St.init _ rfl with
  | ⟨text, hmem, _, hplain⟩ => ⟨text, hmem, hplain (by decide)⟩

/-! ## Scanning the platform -/

theorem isDigit_iff (c : Char) : c.isDigit = true ↔ 48 ≤ c.toNat ∧ c.toNat ≤ 57 := by
  unfold Char.isDigit Char.toNat
  simp only [Bool.and_eq_true, decide_eq_true_eq, ge_iff_le]
  rw [UInt32.le_def, UInt32.le_def]
  rfl

theorem digitChar_val (k : Nat) (h : k < 10) : (Nat.digitChar k).toNat - '0'.toNat = k := by
  interval_cases k <;> rfl

theorem foldl_toDigitsCore (fuel n : Nat) (ds : List Char) (h : n < fuel) :
    (Nat.toDigitsCore 10 fuel n ds).foldl (fun acc c => acc * 10 + (c.toNat - '0'.toNat)) 0
      = ds.foldl (fun acc c => acc * 10 + (c.toNat - '0'.toNat)) n := by
  induction fuel generalizing n ds with
  | zero => omega
  | succ fuel ih =>
      simp only [Nat.toDigitsCore]
      split
      · rename_i h0
        simp only [List.foldl_cons, Nat.zero_mul, Nat.zero_add]
        rw [digitChar_val _ (Nat.mod_lt _ (by decide))]
        have : n % 10 = n := by omega
        rw [this]
      · rename_i h0
        rw [ih _ _ (by omega)]
        simp only [List.foldl_cons]
        rw [digitChar_val _ (Nat.mod_lt _ (by decide))]
        have : n / 10 * 10 + n % 10 = n := by omega
        rw [this]

theorem digitsVal_repr (n : Nat) : digitsVal (Nat.repr n).data = n := by
  simp only [digitsVal, Nat.repr, Nat.toDigits, List.asString]
  exact foldl_toDigitsCore _ _ _ (by omega)

theorem toNat_ne_of_ne_char (c d : Char) (h : c.toNat ≠ d.toNat) : c ≠ d :=
  fun e => h (congrArg Char.toNat e)

theorem digit_not_space (c : Char) (h : c.isDigit = true) :
    fmt_isSpace c = false ∧ c ≠ '\r' ∧ c ≠ '\n' ∧ c ≠ '+' ∧ c ≠ '-' := by
  rw [isDigit_iff] at h
  refine ⟨?_, ?_, ?_, ?_, ?_⟩
  · simp only [fmt_isSpace, Bool.or_eq_false_iff, Bool.and_eq_false_iff, decide_eq_false_iff_not,
      beq_eq_false_iff_ne, ne_eq]
    omega
  · exact toNat_ne_of_ne_char _ _ (by have : ('\r').toNat = 13 := rfl; omega)
  · exact toNat_ne_of_ne_char _ _ (by have : ('\n').toNat = 10 := rfl; omega)
  · exact toNat_ne_of_ne_char _ _ (by have : ('+').toNat = 43 := rfl; omega)
  · exact toNat_ne_of_ne_char _ _ (by have : ('-').toNat = 45 := rfl; omega)

theorem digit_accepted (c : Char) (h : c.isDigit = true) :
    decimalDigitsUnderscore.contains c = true := by
  rw [isDigit_iff] at h
  have hc : c = Char.ofNat c.toNat := by simp
  obtain ⟨h1, h2⟩ := h
  generalize c.toNat = n at hc h1 h2
  subst hc
  interval_cases n <;> decide

theorem ss_SkipSpace_cons (c : Char) (rest : List Char) (hs : fmt_isSpace c = false)
    (hr : c ≠ '\r') (hn : c ≠ '\n') : ss_SkipSpace (c :: rest) = some (c :: rest) := by
  simp [ss_SkipSpace, hs, hr, hn]

theorem takeWhile_digits (ds : List Char) (h : ∀ c ∈ ds, c.isDigit = true) :
    ds.takeWhile (fun x => decimalDigitsUnderscore.contains x) = ds := by
  rw [List.takeWhile_eq_self_iff]
  intro c hc
  exact digit_accepted c (h c hc)

theorem ParseInt_digits (ds : List Char) (hne : ds ≠ []) (h : ∀ c ∈ ds, c.isDigit = true)
    (hr : digitsVal ds < 2 ^ 63) :
    strconv_ParseInt_base10 ds = some (digitsVal ds : Int) := by
  cases ds with
  | nil => exact absurd rfl hne
  | cons d rest =>
      have hd := digit_not_space d (h d (List.mem_cons_self _ _))
      have hall : (d :: rest).all Char.isDigit = true := List.all_eq_true.mpr h
      have h63 : (2 : Nat) ^ 63 = 9223372036854775808 := by norm_num
      rw [h63] at hr
      unfold strconv_ParseInt_base10
      split
      rename_i neg r heq
      split at heq
      · rename_i r0 heq0
        exact absurd (List.cons.inj heq0).1 hd.2.2.2.1
      · rename_i r0 heq0
        exact absurd (List.cons.inj heq0).1 hd.2.2.2.2
      · obtain ⟨h1, h2⟩ := Prod.mk.inj heq
        subst h1
        subst h2
        have : ¬ (9223372036854775808 ≤ digitsVal (d :: rest)) := by omega
        simp [hall, this]

theorem ParseInt_neg_digits (ds : List Char) (hne : ds ≠ []) (h : ∀ c ∈ ds, c.isDigit = true)
    (hr : digitsVal ds ≤ 2 ^ 63) :
    strconv_ParseInt_base10 ('-' :: ds) = some (-(digitsVal ds : Int)) := by
  have hall : ds.all Char.isDigit = true := List.all_eq_true.mpr h
  have h63 : (2 : Nat) ^ 63 = 9223372036854775808 := by norm_num
  rw [h63] at hr
  unfold strconv_ParseInt_base10
  have : ¬ (9223372036854775808 < digitsVal ds) := by omega
  simp [hall, hne, this]

theorem fits_of_bits (bitSize : Nat) (hbits : bitSize = 32 ∨ bitSize = 64) (i : Int)
    (h : i < (2 : Int) ^ (bitSize - 1)) : i < 9223372036854775808 := by
  rcases hbits with rfl | rfl
  · have : ((2 : Int) ^ (32 - 1)) = 2147483648 := by norm_num
    rw [this] at h
    omega
  · have : ((2 : Int) ^ (64 - 1)) = 9223372036854775808 := by norm_num
    rw [this] at h
    omega

theorem fits_of_bits_neg (bitSize : Nat) (hbits : bitSize = 32 ∨ bitSize = 64) (i : Int)
    (h : -(2 : Int) ^ (bitSize - 1) ≤ i) : -9223372036854775808 ≤ i := by
  rcases hbits with rfl | rfl
  · have : ((2 : Int) ^ (32 - 1)) = 2147483648 := by norm_num
    rw [this] at h
    omega
  · have : ((2 : Int) ^ (64 - 1)) = 9223372036854775808 := by norm_num
    rw [this] at h
    omega

/-- Scanning a run of digits: `Sscanf` stores its value when it fits. -/
theorem Sscanf_digits (bitSize : Nat) (hbits : bitSize = 32 ∨ bitSize = 64) (ds : List Char)
    (hne : ds ≠ []) (h : ∀ c ∈ ds, c.isDigit = true)
    (hfit : (digitsVal ds : Int) < (2 : Int) ^ (bitSize - 1)) :
    fmt_Sscanf_d bitSize (String.mk ds) = some (digitsVal ds : Int) := by
  have h63 := fits_of_bits bitSize hbits _ hfit
  have hpos : -(2 : Int) ^ (bitSize - 1) ≤ (digitsVal ds : Int) := by
    have : (0 : Int) ≤ (2 : Int) ^ (bitSize - 1) := by positivity
    omega
  have hP := ParseInt_digits ds hne h (by norm_num; omega)
  cases ds with
  | nil => exact absurd rfl hne
  | cons d rest =>
      have hd := digit_not_space d (h d (List.mem_cons_self _ _))
      have hskip := ss_SkipSpace_cons d rest hd.1 hd.2.1 hd.2.2.1
      have hsign : ("+-".data.contains d) = false := by
        simp [hd.2.2.2.1, hd.2.2.2.2]
      have hacc := digit_accepted d (h d (List.mem_cons_self _ _))
      have htake := takeWhile_digits rest (fun c hc => h c (List.mem_cons_of_mem _ hc))
      simp only [fmt_Sscanf_d, hskip, ss_scanInt, hsign, Bool.false_eq_true, if_false, hacc,
        not_true_eq_false, htake, List.nil_append, hP, hpos, hfit, and_self, if_true]

/-- Scanning a minus sign and a run of digits. -/
theorem Sscanf_neg_digits (bitSize : Nat) (hbits : bitSize = 32 ∨ bitSize = 64) (ds : List Char)
    (hne : ds ≠ []) (h : ∀ c ∈ ds, c.isDigit = true)
    (hfit : -(2 : Int) ^ (bitSize - 1) ≤ -(digitsVal ds : Int)) :
    fmt_Sscanf_d bitSize (String.mk ('-' :: ds)) = some (-(digitsVal ds : Int)) := by
  have h63 := fits_of_bits_neg bitSize hbits _ hfit
  have hlt : -(digitsVal ds : Int) < (2 : Int) ^ (bitSize - 1) := by
    have : (0 : Int) < (2 : Int) ^ (bitSize - 1) := by positivity
    omega
  have hP := ParseInt_neg_digits ds hne h (by norm_num; omega)
  have hskip : ss_SkipSpace ('-' :: ds) = some ('-' :: ds) :=
    ss_SkipSpace_cons '-' ds (by decide) (by decide) (by decide)
  cases ds with
  | nil => exact absurd rfl hne
  | cons d rest =>
      have hsign : ("+-".data.contains '-') = true := by decide
      have hacc := digit_accepted d (h d (List.mem_cons_self _ _))
      have htake := takeWhile_digits rest (fun c hc => h c (List.mem_cons_of_mem _ hc))
      simp only [fmt_Sscanf_d, hskip, ss_scanInt, hsign, if_true, hacc,
        not_true_eq_false, if_false, htake, List.singleton_append, hP, hlt, hfit, and_self]

/-- The decimal representation of an integer that fits is scanned back. -/
theorem Sscanf_fmt_d (bitSize : Nat) (hbits : bitSize = 32 ∨ bitSize = 64) (n : Int)
    (hlo : -(2 : Int) ^ (bitSize - 1) ≤ n) (hhi : n < (2 : Int) ^ (bitSize - 1)) :
    fmt_d n ≠ "" ∧ fmt_Sscanf_d bitSize (fmt_d n) = some n := by
  cases n with
  | ofNat k =>
      have hv := digitsVal_repr k
      constructor
      · intro he
        exact repr_ne_nil k (by rw [show fmt_d (Int.ofNat k) = Nat.repr k from rfl] at he; rw [he])
      · have := Sscanf_digits bitSize hbits (Nat.repr k).data (repr_ne_nil k) (repr_digits k)
          (by rw [hv]; exact hhi)
        rw [hv] at this
        exact this
  | negSucc k =>
      have hv := digitsVal_repr (k + 1)
      have hdata : fmt_d (Int.negSucc k) = String.mk ('-' :: (Nat.repr (k + 1)).data) := by
        apply String.ext
        simp [fmt_d, String.data_append]
      constructor
      · rw [hdata]
        intro he
        have := congrArg String.data he
        simp at this
      · rw [hdata]
        have := Sscanf_neg_digits bitSize hbits (Nat.repr (k + 1)).data (repr_ne_nil _)
          (repr_digits _) (by rw [hv]; exact hlo)
        rw [hv] at this
        exact this

/-- What `SkipSpace` leaves is the input without its leading spaces, and is
left as it is by a second `SkipSpace`. -/
theorem ss_SkipSpace_spec (l r : List Char) (h : ss_SkipSpace l = some r) :
    ss_SkipSpace r = some r ∧ r = l.dropWhile fmt_isSpace := by
  induction l with
  | nil =>
      simp only [ss_SkipSpace, Option.some.injEq] at h
      subst h
      exact ⟨rfl, rfl⟩
  | cons c rest ih =>
      unfold ss_SkipSpace at h
      by_cases h1 : c = '\r' ∧ rest.head? = some '\n'
      · rw [if_pos h1] at h
        have hc : fmt_isSpace c = true := by rw [h1.1]; decide
        obtain ⟨ha, hb⟩ := ih h
        exact ⟨ha, by rw [List.dropWhile_cons_of_pos hc]; exact hb⟩
      · rw [if_neg h1] at h
        by_cases h2 : c = '\n'
        · rw [if_pos h2] at h
          cases h
        · rw [if_neg h2] at h
          by_cases h3 : fmt_isSpace c = true
          · rw [if_pos h3] at h
            obtain ⟨ha, hb⟩ := ih h
            exact ⟨ha, by rw [List.dropWhile_cons_of_pos h3]; exact hb⟩
          · rw [if_neg h3] at h
            simp only [Option.some.injEq] at h
            subst h
            refine ⟨?_, by rw [List.dropWhile_cons_of_neg h3]⟩
            unfold ss_SkipSpace
            rw [if_neg h1, if_neg h2, if_neg h3]

theorem accepted_not_digit (d : Char) (h1 : decimalDigitsUnderscore.contains d = true)
    (h2 : d.isDigit = false) : d = '_' := by
  simp only [decimalDigitsUnderscore, List.contains_eq_any_beq, List.any_cons, List.any_nil,
    Bool.or_false, Bool.or_eq_true, beq_iff_eq] at h1
  rcases h1 with h | h | h | h | h | h | h | h | h | h | h
  all_goals first
    | exact h
    | (subst h; exact absurd h2 (by decide))

theorem ParseInt_underscore (xs : List Char) :
    strconv_ParseInt_base10 ('_' :: xs) = none
      ∧ strconv_ParseInt_base10 ('+' :: '_' :: xs) = none
      ∧ strconv_ParseInt_base10 ('-' :: '_' :: xs) = none := by
  have h : Char.isDigit '_' = false := by decide
  refine ⟨?_, ?_, ?_⟩ <;> simp [strconv_ParseInt_base10, h]

/-- A text that, its leading spaces skipped, does not start with an integer is
not scanned: `scanInt` fails. -/
theorem ss_scanInt_none (bitSize : Nat) (r : List Char) (hfix : ss_SkipSpace r = some r)
    (hs : startsInteger r = false) : ss_scanInt bitSize r = none := by
  unfold ss_scanInt
  rw [hfix]
  cases r with
  | nil => rfl
  | cons c rest =>
      simp only []
      by_cases hsign : ("+-".data.contains c) = true
      · simp only [hsign, if_true]
        have hc : c = '+' ∨ c = '-' := by
          simpa using hsign
        cases rest with
        | nil => rfl
        | cons d rest2 =>
            simp only []
            have hd : d.isDigit = false := by
              rcases hc with rfl | rfl <;> simpa [startsInteger] using hs
            by_cases hacc : decimalDigitsUnderscore.contains d = true
            · have hu := accepted_not_digit d hacc hd
              subst hu
              rcases hc with rfl | rfl
              · simp [(ParseInt_underscore _).2.1]
              · simp [(ParseInt_underscore _).2.2]
            · rw [if_pos hacc]
      · have hsign2 : ("+-".data.contains c) = false := by simpa using hsign
        simp only [hsign2, Bool.false_eq_true, if_false]
        have hc : c ≠ '+' ∧ c ≠ '-' := by
          simpa using hsign2
        have hd : c.isDigit = false := by
          unfold startsInteger at hs
          split at hs
          · rename_i heq
            exact absurd (List.cons.inj heq).1 hc.1
          · rename_i heq
            exact absurd (List.cons.inj heq).1 hc.2
          · rename_i heq
            rw [(List.cons.inj heq).1]
            exact hs
          · rename_i heq
            cases heq
        by_cases hacc : decimalDigitsUnderscore.contains c = true
        · have hu := accepted_not_digit c hacc hd
          subst hu
          simp [(ParseInt_underscore _).1]
        · rw [if_pos hacc]

/-- When the text, its leading spaces dropped, does not start with an integer,
`Sscanf` stores nothing. -/
theorem Sscanf_none (bitSize : Nat) (str : String)
    (hs : startsInteger (str.data.dropWhile fmt_isSpace) = false) :
    fmt_Sscanf_d bitSize str = none := by
  unfold fmt_Sscanf_d
  cases hsk : ss_SkipSpace str.data with
  | none => rfl
  | some r =>
      obtain ⟨hfix, hr⟩ := ss_SkipSpace_spec _ _ hsk
      simp only []
      rw [← hr] at hs
      exact ss_scanInt_none bitSize r hfix hs

/-- C29, the claim refuted: the platform string `" 7"` does not begin with a
decimal integer, it begins with a blank, and both Create and Update send pk 7,
not 1: `fmt.Sscanf` skips leading spaces before it reads the number. -/
theorem C29_leading_blank_is_skipped :
    startsInteger " 7".data = false
      ∧ (AssetResource.createReq 64
          { ID := "", Name := "web", Address := "10.0.0.1", Platform := " 7", Nodes := [],
            IsActive := true, Comment := "" }).Platform.PK = 7
      ∧ (AssetResource.updateReq 64
          { ID := "a1", Name := "web", Address := "10.0.0.1", Platform := " 7", Nodes := [],
            IsActive := true, Comment := "" }).Platform.PK = 7 := by
  refine ⟨?_, ?_, ?_⟩ <;> decide

/-- C29 as amended: for an `int` of 32 or 64 bits, the platform primary key
Create and Update send is `n` when the platform string is the decimal
representation of an integer `n` that fits the `int`, and is 1 when the string
is empty or, its leading spaces dropped, does not start with an optional sign
followed by a decimal digit. -/
theorem C29_platform_pk_scanned (bitSize : Nat) (hbits : bitSize = 32 ∨ bitSize = 64)
    (plan : AssetResourceModel) :
    (∀ n : Int, -(2 : Int) ^ (bitSize - 1) ≤ n → n < (2 : Int) ^ (bitSize - 1) →
        plan.Platform = fmt_d n →
        (AssetResource.createReq bitSize plan).Platform.PK = n
          ∧ (AssetResource.updateReq bitSize plan).Platform.PK = n)
      ∧ (plan.Platform = ""
            ∨ startsInteger (plan.Platform.data.dropWhile fmt_isSpace) = false →
          (AssetResource.createReq bitSize plan).Platform.PK = 1
            ∧ (AssetResource.updateReq bitSize plan).Platform.PK = 1) := by
  have hreq : (AssetResource.createReq bitSize plan).Platform.PK
        = AssetResource.platformID bitSize plan
      ∧ (AssetResource.updateReq bitSize plan).Platform.PK
        = AssetResource.platformID bitSize plan := ⟨rfl, rfl⟩
  rw [hreq.1, hreq.2]
  constructor
  · intro n hlo hhi hplat
    obtain ⟨hne, hscan⟩ := Sscanf_fmt_d bitSize hbits n hlo hhi
    have : AssetResource.platformID bitSize plan = n := by
      unfold AssetResource.platformID
      rw [hplat, if_pos hne, hscan]
    exact ⟨this, this⟩
  · intro h
    have : AssetResource.platformID bitSize plan = 1 := by
      unfold AssetResource.platformID
      rcases h with h | h
      · rw [if_neg (by simp [h])]
      · by_cases he : plan.Platform = ""
        · rw [if_neg (by simp [he])]
        · rw [if_pos he, Sscanf_none bitSize _ h]
    exact ⟨this, this⟩

/-- The scenarios of C29: the platforms `Linux` and `Windows` are sent as pk 1,
the platform `12` as pk 12. -/
theorem C29_named_platform_scenario :
    ((AssetResource.createReq 64
          { ID := "", Name := "web", Address := "10.0.0.1", Platform := "Linux", Nodes := [],
            IsActive := true, Comment := "" }).Platform.PK = 1
        ∧ (AssetResource.updateReq 64
          { ID := "", Name := "web", Address := "10.0.0.1", Platform := "Linux", Nodes := [],
            IsActive := true, Comment := "" }).Platform.PK = 1)
      ∧ ((AssetResource.createReq 64
          { ID := "a2", Name := "dc", Address := "10.0.0.2", Platform := "Windows", Nodes := ["n1"],
            IsActive := false, Comment := "" }).Platform.PK = 1
        ∧ (AssetResource.updateReq 64
          { ID := "a2", Name := "dc", Address := "10.0.0.2", Platform := "Windows", Nodes := ["n1"],
            IsActive := false, Comment := "" }).Platform.PK = 1)
      ∧ ((AssetResource.createReq 64
          { ID := "", Name := "web", Address := "10.0.0.1", Platform := "12", Nodes := [],
            IsActive := true, Comment := "" }).Platform.PK = 12
        ∧ (AssetResource.updateReq 64
          { ID := "", Name := "web", Address := "10.0.0.1", Platform := "12", Nodes := [],
            IsActive := true, Comment := "" }).Platform.PK = 12) :=
  ⟨(C29_platform_pk_scanned 64 (Or.inr rfl)
      { ID := "", Name := "web", Address := "10.0.0.1", Platform := "Linux", Nodes := [],
        IsActive := true, Comment := "" }).2 (Or.inr (by decide)),
    (C29_platform_pk_scanned 64 (Or.inr rfl)
      { ID := "a2", Name := "dc", Address := "10.0.0.2", Platform := "Windows", Nodes := ["n1"],
        IsActive := false, Comment := "" }).2 (Or.inr (by decide)),
    (C29_platform_pk_scanned 64 (Or.inr rfl)
      { ID := "", Name := "web", Address := "10.0.0.1", Platform := "12", Nodes := [],
        IsActive := true, Comment := "" }).1 12 (by decide) (by decide) (by decide)⟩

end JumpServer
